import Mathlib

/-!
CollP backend: authentication flow, user accounts, validators, rate limiter.

A shallow embedding of the Google login flow (`services/auth_service.go`,
`controllers/auth_controller.go`), of the bearer-token guard
(`middleware/logger.go`, `utils/jwt.go`), of the route table
(`routes/router.go`), of the user service over its repository
(`services/user_service.go`, `repositories/user_repo.go`,
`controllers/user_controller.go`), of the validators (`utils/functions.go`,
`validators/user_validator.go`) and of the rate limiter
(`cmd/server/main.go`).

Conventions.
* Go strings are Lean strings; a `time.Time` is an integer number of
  nanoseconds since the Unix epoch.
* The network (OAuth code exchange, profile fetch) and the primitives of the
  JWT library that are not plain control flow (segment encoding, RSA) are
  parameters of the model; every network call is recorded in a log.
* An `http.Handler` is a function from the response writer and the request
  to the response writer; invoking a handler is applying it.
-/

namespace CollP

/-! ## Fragments of the Go standard library -/

/-- Go `time.Time`, as nanoseconds since the Unix epoch. -/
abbrev Time := Int

/-- Go `time.Second`, in nanoseconds. -/
def Second : Int := 1000000000

/-- Go `time.Hour`, in nanoseconds. -/
def Hour : Int := 3600 * Second

/-- Go `Time.Unix()`: whole seconds since the epoch, rounded down. -/
def Time.Unix (t : Time) : Int := t / Second

/-- Go `Time.Add`. -/
def Time.Add (t : Time) (d : Int) : Time := t + d

/-- Go `time.Unix(sec, 0)`. -/
def Time.ofUnix (sec : Int) : Time := sec * Second

/-- Go `Time.Before`. -/
def Time.Before (t u : Time) : Bool := decide (t < u)

/-- The cut of a string at its first occurrence of `sep`, if there is one. -/
def cut (sep : Char) : List Char → Option (List Char × List Char)
  | [] => none
  | c :: cs =>
    if c = sep then some ([], cs)
    else match cut sep cs with
      | none => none
      | some (a, b) => some (c :: a, b)

/-- Go `strings.SplitN(s, " ", 2)`: at most two pieces, cut at the first
space. -/
def SplitN (s : String) : List String :=
  match cut ' ' s.data with
  | none => [s]
  | some (a, b) => [String.mk a, String.mk b]

/-- Go `strings.ToLower` on its ASCII letters, for the comparison made by
`extractTokenFromHeader`: no character outside ASCII lower-cases to one of the
letters of `bearer`, so that comparison is the same. The function on all
letters is `strings.ToLower` below. -/
def ToLower (s : String) : String := String.mk (s.data.map Char.toLower)

/-- Go `context.Context` restricted to what the handlers store in it: the
values attached with `context.WithValue`, latest first. -/
abbrev Context (V : Type) := List (String × V)

/-- Go `ctx.Value(key)`: the value attached last under the key. -/
def Context.Value {V : Type} (ctx : Context V) (key : String) : Option V :=
  List.lookup key ctx

/-- Go `context.WithValue`. -/
def Context.WithValue {V : Type} (ctx : Context V) (key : String) (v : V) : Context V :=
  (key, v) :: ctx

/-! ## The JWT library (`github.com/golang-jwt/jwt/v5`)

The control flow of `Parser.ParseWithClaims`, of the claims validator and of
the `Verify` methods is written out; base64/JSON coding of the segments and
the RSA primitives are fields of `JwtLib`. Numeric claims are whole seconds
(the precision of a `NumericDate`). -/

/-- A decoded JSON value of a claim or header entry. -/
inductive Value where
  | str (s : String)
  | num (n : Int)
  | bool (b : Bool)
  | null
  deriving DecidableEq, Repr

/-- Go `jwt.MapClaims`, a JSON object. -/
abbrev MapClaims := List (String × Value)

/-- The signing methods registered by the library. -/
inductive SigningMethod where
  | HS256 | HS384 | HS512
  | RS256 | RS384 | RS512
  | PS256 | PS384 | PS512
  | ES256 | ES384 | ES512
  | EdDSA
  | none
  deriving DecidableEq, Repr

/-- Go `SigningMethod.Alg()`. -/
def SigningMethod.Alg : SigningMethod → String
  | .HS256 => "HS256" | .HS384 => "HS384" | .HS512 => "HS512"
  | .RS256 => "RS256" | .RS384 => "RS384" | .RS512 => "RS512"
  | .PS256 => "PS256" | .PS384 => "PS384" | .PS512 => "PS512"
  | .ES256 => "ES256" | .ES384 => "ES384" | .ES512 => "ES512"
  | .EdDSA => "EdDSA"
  | .none => "none"

/-- Go `jwt.GetSigningMethod`: the registered method of that name. -/
def GetSigningMethod (alg : String) : Option SigningMethod :=
  [SigningMethod.HS256, .HS384, .HS512, .RS256, .RS384, .RS512, .PS256, .PS384,
    .PS512, .ES256, .ES384, .ES512, .EdDSA, .none].find? (fun m => m.Alg == alg)

/-- The Go type assertion `method.(*jwt.SigningMethodRSA)`: it holds for the three
values `SigningMethodRS256`, `SigningMethodRS384` and `SigningMethodRS512` of that type. -/
def SigningMethod.isSigningMethodRSA : SigningMethod → Bool
  | .RS256 | .RS384 | .RS512 => true
  | _ => false

/-- The hash functions of the RSA methods. -/
inductive Hash where
  | SHA256 | SHA384 | SHA512
  deriving DecidableEq, Repr

/-- Go `rsa.PublicKey`. -/
structure RSAPublicKey where
  N : Nat
  E : Nat
  deriving DecidableEq, Repr

/-- Go `rsa.PrivateKey`. -/
structure RSAPrivateKey where
  PublicKey : RSAPublicKey
  D : Nat
  deriving DecidableEq, Repr

/-- Raw bytes. -/
abbrev Bytes := List Nat

/-- The errors of the parser, by kind (`ErrTokenMalformed`,
`ErrTokenUnverifiable`, `ErrTokenSignatureInvalid`, `ErrTokenInvalidClaims`). -/
inductive JwtError where
  | Malformed (detail : String)
  | Unverifiable (detail : String)
  | SignatureInvalid (detail : String)
  | InvalidClaims (details : List String)
  deriving DecidableEq, Repr

/-- Go `err.Error()`. -/
def JwtError.Error : JwtError → String
  | .Malformed d => "token is malformed: " ++ d
  | .Unverifiable d => "token is unverifiable: " ++ d
  | .SignatureInvalid d => "token signature is invalid: " ++ d
  | .InvalidClaims ds => "token has invalid claims: " ++ ", ".intercalate ds

/-- The three segments of a token string after `strings.Split(tokenString, ".")`
and the decoding of the first two: the header object, the bytes of the claims,
the signing input `parts[0] + "." + parts[1]` and the still encoded signature. -/
structure Parts where
  Header : List (String × Value)
  claimBytes : String
  signingInput : String
  signature : String
  deriving DecidableEq, Repr

/-- The primitives of the library that the model leaves open. -/
structure JwtLib where
  /-- Go `Token.SigningString`: both segments encoded and joined by a dot. -/
  SigningString : List (String × Value) → MapClaims → String
  /-- Go `Token.EncodeSegment`. -/
  EncodeSegment : Bytes → String
  /-- Splitting at the dots and decoding header and claim bytes. -/
  Split : String → Except JwtError Parts
  /-- Go `json.Unmarshal` of the claim bytes into a `MapClaims`. -/
  UnmarshalMapClaims : String → Except String MapClaims
  /-- Go `Parser.DecodeSegment`, applied to the signature. -/
  DecodeSegment : String → Except String Bytes
  /-- Go `rsa.SignPKCS1v15` of the hashed signing input. -/
  SignPKCS1v15 : RSAPrivateKey → Hash → String → Except String Bytes
  /-- Go `rsa.VerifyPKCS1v15` of the hashed signing input. -/
  VerifyPKCS1v15 : RSAPublicKey → Hash → String → Bytes → Bool
  /-- Go `rsa.VerifyPSS` of the hashed signing input. -/
  VerifyPSS : RSAPublicKey → Hash → String → Bytes → Bool

/-- Go `jwt.Token`. -/
structure Token (C : Type) where
  Raw : String
  Method : SigningMethod
  Header : List (String × Value)
  Claims : C
  Signature : Bytes
  Valid : Bool

/-- The part of the Go interface `jwt.Claims` that the default validator reads. -/
class Claims (C : Type) where
  GetExpirationTime : C → Except String (Option Int)
  GetNotBefore : C → Except String (Option Int)

/-- Go `MapClaims.parseNumericDate`: an absent key and the number zero give no
date, another number gives its date, anything else is an error. -/
def MapClaims.parseNumericDate (m : MapClaims) (key : String) : Except String (Option Int) :=
  match List.lookup key m with
  | Option.none => .ok Option.none
  | some (.num n) => if n = 0 then .ok Option.none else .ok (some n)
  | some _ => .error ("invalid type for claim: " ++ key ++ " is invalid")

instance : Claims MapClaims where
  GetExpirationTime m := MapClaims.parseNumericDate m "exp"
  GetNotBefore m := MapClaims.parseNumericDate m "nbf"

/-- Go `Validator.verifyExpiresAt` with `required = false` and no leeway. -/
def verifyExpiresAt {C : Type} [Claims C] (claims : C) (cmp : Time) : List String :=
  match Claims.GetExpirationTime claims with
  | .error e => [e]
  | .ok Option.none => []
  | .ok (some exp) => if cmp.Before (Time.ofUnix exp) then [] else ["token is expired"]

/-- Go `Validator.verifyNotBefore` with `required = false` and no leeway. -/
def verifyNotBefore {C : Type} [Claims C] (claims : C) (cmp : Time) : List String :=
  match Claims.GetNotBefore claims with
  | .error e => [e]
  | .ok Option.none => []
  | .ok (some nbf) => if !cmp.Before (Time.ofUnix nbf) then [] else ["token is not valid yet"]

/-- Go `Validator.Validate` of the default validator (no issued-at check, no
expected audience, issuer or subject): the errors it collects. -/
def Validate {C : Type} [Claims C] (claims : C) (now : Time) : List String :=
  verifyExpiresAt claims now ++ verifyNotBefore claims now

/-- Go `Verify` of each signing method at a key of dynamic type
`*rsa.PublicKey`, the only kind of key that the key functions of this
repository return. -/
def SigningMethod.Verify (lib : JwtLib) (m : SigningMethod) (signingString : String)
    (sig : Bytes) (key : RSAPublicKey) : Except String Unit :=
  let rsa (h : Hash) : Except String Unit :=
    if lib.VerifyPKCS1v15 key h signingString sig then .ok () else .error "crypto/rsa: verification error"
  let pss (h : Hash) : Except String Unit :=
    if lib.VerifyPSS key h signingString sig then .ok () else .error "crypto/rsa: verification error"
  match m with
  | .RS256 => rsa .SHA256
  | .RS384 => rsa .SHA384
  | .RS512 => rsa .SHA512
  | .PS256 => pss .SHA256
  | .PS384 => pss .SHA384
  | .PS512 => pss .SHA512
  | .HS256 | .HS384 | .HS512 => .error "key is of invalid type: HMAC verify expects []byte"
  | .ES256 | .ES384 | .ES512 => .error "key is of invalid type: ECDSA verify expects *ecdsa.PublicKey"
  | .EdDSA => .error "key is of invalid type: Ed25519 verify expects ed25519.PublicKey"
  | .none => .error "token is unverifiable: 'none' signature type is not allowed"

/-- The string entry `alg` of a header (`token.Header["alg"].(string)`). -/
def headerAlg (header : List (String × Value)) : Option String :=
  match List.lookup "alg" header with
  | some (.str s) => some s
  | _ => Option.none

/-- Go `Parser.ParseWithClaims` of the default parser: split and decode, look
the method up, decode the signature, ask the key function for the key, verify
the signature, validate the claims. -/
def ParseWithClaims {C : Type} [Claims C] (lib : JwtLib) (unmarshal : String → Except String C)
    (now : Time) (tokenString : String)
    (keyFunc : Token C → Except String RSAPublicKey) : Except JwtError (Token C) :=
  match lib.Split tokenString with
  | .error e => .error e
  | .ok parts =>
    match unmarshal parts.claimBytes with
    | .error e => .error (.Malformed ("could not JSON decode claim: " ++ e))
    | .ok claims =>
      match headerAlg parts.Header with
      | Option.none => .error (.Unverifiable "signing method (alg) is unspecified")
      | some alg =>
        match GetSigningMethod alg with
        | Option.none => .error (.Unverifiable "signing method (alg) is unavailable")
        | some method =>
          match lib.DecodeSegment parts.signature with
          | .error e => .error (.Malformed ("could not base64 decode signature: " ++ e))
          | .ok sig =>
            let token : Token C :=
              { Raw := tokenString, Method := method, Header := parts.Header,
                Claims := claims, Signature := sig, Valid := false }
            match keyFunc token with
            | .error e => .error (.Unverifiable ("error while executing keyfunc: " ++ e))
            | .ok key =>
              match method.Verify lib parts.signingInput sig key with
              | .error e => .error (.SignatureInvalid e)
              | .ok _ =>
                match Validate claims now with
                | [] => .ok { token with Valid := true }
                | errs => .error (.InvalidClaims errs)

/-- Go `jwt.Parse`: `ParseWithClaims` into a `MapClaims`. -/
def Parse (lib : JwtLib) (now : Time) (tokenString : String)
    (keyFunc : Token MapClaims → Except String RSAPublicKey) : Except JwtError (Token MapClaims) :=
  ParseWithClaims lib lib.UnmarshalMapClaims now tokenString keyFunc

/-- Go `jwt.NewWithClaims`: the header names the type and the method. -/
def NewWithClaims (method : SigningMethod) (claims : MapClaims) : Token MapClaims :=
  { Raw := "", Method := method, Header := [("typ", .str "JWT"), ("alg", .str method.Alg)],
    Claims := claims, Signature := [], Valid := false }

/-- Go `Sign` of each signing method at a key of dynamic type
`*rsa.PrivateKey`. -/
def SigningMethod.Sign (lib : JwtLib) (m : SigningMethod) (signingString : String)
    (key : RSAPrivateKey) : Except String Bytes :=
  match m with
  | .RS256 => lib.SignPKCS1v15 key .SHA256 signingString
  | .RS384 => lib.SignPKCS1v15 key .SHA384 signingString
  | .RS512 => lib.SignPKCS1v15 key .SHA512 signingString
  | _ => .error "key is of invalid type"

/-- Go `Token.SignedString`: the signing input, a dot, the encoded signature. -/
def Token.SignedString (lib : JwtLib) (t : Token MapClaims) (key : RSAPrivateKey) :
    Except String String :=
  let sstr := lib.SigningString t.Header t.Claims
  match t.Method.Sign lib sstr key with
  | .error e => .error e
  | .ok sig => .ok (sstr ++ "." ++ lib.EncodeSegment sig)

/-! ## services/auth_service.go -/

/-- The record `GoogleUserInfo`. -/
structure GoogleUserInfo where
  Email : String
  Name : String
  Picture : String
  VerifiedEmail : Bool
  Token : String
  TokenExpiry : Int
  deriving DecidableEq, Repr

/-- An error of `oauth2.Config.Exchange`: its text, and whether
`errors.As(err, &netErr)` finds a `net.Error` in it. -/
structure ExchangeError where
  msg : String
  isNetError : Bool
  deriving DecidableEq, Repr

/-- An outbound call made during the login callback. -/
inductive NetCall where
  | exchange (code : String)
  | userinfo (accessToken : String)
  deriving DecidableEq, Repr

/-- Go `http.Response`, as far as the service can read it: the status code
and the body. -/
structure Response where
  StatusCode : Nat
  Body : String
  deriving DecidableEq, Repr

/-- The identity provider as seen by the service: the answer of the token
endpoint to a code, the answer of the userinfo endpoint to an access token
(the response, of whatever status, or a transport error), and the decoding of
a body by `json.NewDecoder(resp.Body).Decode(&userInfo)`. -/
structure Provider where
  Exchange : String → Except ExchangeError String
  Get : String → Except String Response
  Decode : String → Except String GoogleUserInfo

/-- The record `AuthService`: the OAuth configuration, seen through the calls
it makes, and the RSA private key loaded by `InitGoogleOauth`. -/
structure AuthService where
  googleOauthConfig : Provider
  privateKey : RSAPrivateKey

/-- What `HandleGoogleCallback` returns, a Go pair `(*GoogleUserInfo, error)`,
together with the outbound calls made on the way, in order. -/
structure CallbackResult where
  userInfo : Option GoogleUserInfo
  err : Option String
  calls : List NetCall
  deriving DecidableEq, Repr

/-- The claim set built by `generateJWTToken`. The clock is read twice: `now₁`
is the reading used for `exp`, `now₂` the later one used for `iat`. -/
def AuthService.generateJWTToken.claims (now₁ now₂ : Time) (email : String) : MapClaims :=
  let expTime := (now₁.Add (2 * Hour)).Unix
  [("email", .str email), ("exp", .num expTime), ("iat", .num now₂.Unix)]

/-- The method `generateJWTToken`, for the two clock readings `now₁` and
`now₂`. -/
def AuthService.generateJWTToken (lib : JwtLib) (s : AuthService) (now₁ now₂ : Time)
    (email : String) : Except String (String × Int) :=
  let expTime := (now₁.Add (2 * Hour)).Unix
  let claims : MapClaims := AuthService.generateJWTToken.claims now₁ now₂ email
  let jwtToken := NewWithClaims .RS256 claims
  match jwtToken.SignedString lib s.privateKey with
  | .error err => .error err
  | .ok tokenString => .ok (tokenString, expTime)

/-- The method `fetchGoogleUserInfo`: one GET of the userinfo endpoint with the
access token, then the decoding of the body. -/
def AuthService.fetchGoogleUserInfo (s : AuthService) (token : String) :
    Except String GoogleUserInfo × List NetCall :=
  match s.googleOauthConfig.Get token with
  | .error err => (.error ("failed getting user info: " ++ err), [.userinfo token])
  | .ok resp =>
    match s.googleOauthConfig.Decode resp.Body with
    | .error err => (.error ("failed to parse user info: " ++ err), [.userinfo token])
    | .ok userInfo => (.ok userInfo, [.userinfo token])

/-- The method `HandleGoogleCallback`. -/
def AuthService.HandleGoogleCallback (lib : JwtLib) (s : AuthService) (now₁ now₂ : Time)
    (code state : String) : CallbackResult :=
  if state ≠ "random-state-string" then
    { userInfo := none, err := some "state parameter doesn't match", calls := [] }
  else
    match s.googleOauthConfig.Exchange code with
    | .error err =>
      if err.isNetError then
        { userInfo := none, err := some ("network error: " ++ err.msg), calls := [.exchange code] }
      else
        { userInfo := none, err := some ("token exchange failed: " ++ err.msg),
          calls := [.exchange code] }
    | .ok token =>
      match s.fetchGoogleUserInfo token with
      | (.error err, calls) =>
        { userInfo := none, err := some ("failed to fetch user info: " ++ err),
          calls := .exchange code :: calls }
      | (.ok userInfo, calls) =>
        match s.generateJWTToken lib now₁ now₂ userInfo.Email with
        | .error err =>
          { userInfo := none, err := some ("failed to generate JWT: " ++ err),
            calls := .exchange code :: calls }
        | .ok (jwtToken, expiry) =>
          { userInfo := some { userInfo with Token := jwtToken, TokenExpiry := expiry },
            err := none, calls := .exchange code :: calls }

/-! ## controllers/auth_controller.go -/

/-- The state value that `GoogleLogin` passes to `GetGoogleAuthURL`. -/
def GoogleLogin.state : String := "random-state-string"

/-! ## net/http -/

/-- Go `http.ResponseWriter`: the header map, the status and the headers sent by
the first `WriteHeader`, and the body written so far. -/
structure ResponseWriter where
  Header : List (String × String)
  wroteHeader : Option Nat
  sentHeader : List (String × String)
  Body : String
  deriving DecidableEq, Repr

/-- Go `w.Header().Set(key, value)`. -/
def ResponseWriter.Set (w : ResponseWriter) (key value : String) : ResponseWriter :=
  { w with Header := (key, value) :: w.Header.filter (fun kv => kv.1 ≠ key) }

/-- Go `w.WriteHeader(code)`: only the first call counts. -/
def ResponseWriter.WriteHeader (w : ResponseWriter) (code : Nat) : ResponseWriter :=
  match w.wroteHeader with
  | some _ => w
  | none => { w with wroteHeader := some code, sentHeader := w.Header }

/-- Go `w.Write(data)`: sends status 200 first if no status was sent. -/
def ResponseWriter.Write (w : ResponseWriter) (data : String) : ResponseWriter :=
  let w₁ := w.WriteHeader 200
  { w₁ with Body := w₁.Body ++ data }

/-- Go `http.Error`: a plain-text reply, the message followed by a newline. -/
def Error (w : ResponseWriter) (error : String) (code : Nat) : ResponseWriter :=
  (((w.Set "Content-Type" "text/plain; charset=utf-8").Set "X-Content-Type-Options"
    "nosniff").WriteHeader code).Write (error ++ "\n")

/-- Go `http.Request`, with the claims attached to its context. -/
structure Request where
  Method : String
  Path : String
  Header : List (String × String)
  Form : List (String × String)
  ctx : Context MapClaims
  deriving DecidableEq, Repr

/-- Go `r.Header.Get(key)`: the empty string when the header is absent. -/
def Request.HeaderGet (r : Request) (key : String) : String :=
  (List.lookup key r.Header).getD ""

/-- Go `r.WithContext(ctx)`. -/
def Request.WithContext (r : Request) (ctx : Context MapClaims) : Request :=
  { r with ctx := ctx }

/-- The server side of one request: the response writer, and the token strings
handed to `jwt.Parse` while serving it, latest first. -/
structure Conn where
  w : ResponseWriter
  parsed : List String
  deriving DecidableEq, Repr

/-- Go `http.Handler`: `ServeHTTP(w, r)`. -/
abbrev Handler := Conn → Request → Conn

/-! ## middleware/logger.go -/

/-- The function `extractTokenFromHeader`. -/
def extractTokenFromHeader (authHeader : String) : Except String String :=
  match SplitN authHeader with
  | [p₀, p₁] =>
    if ToLower p₀ ≠ "bearer" then
      .error "Authorization header format must be Bearer \x7btoken\x7d"
    else .ok p₁
  | _ => .error "Authorization header format must be Bearer \x7btoken\x7d"

/-- The key function that `AuthMiddleware` gives to `jwt.Parse`. -/
def AuthMiddleware.keyFunc (publicKey : RSAPublicKey) (token : Token MapClaims) :
    Except String RSAPublicKey :=
  if !token.Method.isSigningMethodRSA then
    .error ("unexpected signing method: " ++ (headerAlg token.Header).getD "<nil>")
  else .ok publicKey

/-- The handler returned by `AuthMiddleware(next)`, for the public key set by
`SetPublicKey` and the clock reading `now` of the validator. A parsed token
always carries a `MapClaims`, so the type assertion on the claims cannot
fail. -/
def AuthMiddleware.ServeHTTP (lib : JwtLib) (publicKey : RSAPublicKey) (now : Time)
    (next : Handler) : Handler := fun c r =>
  let authHeader := r.HeaderGet "Authorization"
  if authHeader = "" then
    { c with w := Error c.w "Missing Authorization header" 401 }
  else
    match extractTokenFromHeader authHeader with
    | .error err => { c with w := Error c.w err 401 }
    | .ok tokenString =>
      let c₁ : Conn := { c with parsed := tokenString :: c.parsed }
      match Parse lib now tokenString (AuthMiddleware.keyFunc publicKey) with
      | .error err => { c₁ with w := Error c₁.w ("Invalid token: " ++ err.Error) 401 }
      | .ok token =>
        if !token.Valid then { c₁ with w := Error c₁.w "Invalid token: <nil>" 401 }
        else next c₁ (r.WithContext (r.ctx.WithValue "user" token.Claims))

/-- The function `AuthMiddleware`: without a public key the process exits
(`log.Fatal`), which is `none`. -/
def AuthMiddleware (lib : JwtLib) (publicKey : Option RSAPublicKey) (now : Time)
    (next : Handler) : Option Handler :=
  match publicKey with
  | none => none
  | some key => some (AuthMiddleware.ServeHTTP lib key now next)

/-! ## utils/jwt.go -/

/-- Go `jwt.RegisteredClaims`. -/
structure RegisteredClaims where
  Issuer : String
  Subject : String
  Audience : List String
  ExpiresAt : Option Int
  NotBefore : Option Int
  IssuedAt : Option Int
  ID : String
  deriving DecidableEq, Repr

/-- The record `JWTClaims`. -/
structure JWTClaims extends RegisteredClaims where
  UserID : Nat
  Email : String
  deriving DecidableEq, Repr

instance : Claims JWTClaims where
  GetExpirationTime c := .ok c.ExpiresAt
  GetNotBefore c := .ok c.NotBefore

/-- The function `ValidateJWT`; `unmarshal` is `json.Unmarshal` of the claim
bytes into a `JWTClaims`. -/
def ValidateJWT (lib : JwtLib) (unmarshal : String → Except String JWTClaims) (now : Time)
    (tokenString : String) (publicKey : RSAPublicKey) : Except String JWTClaims :=
  match ParseWithClaims lib unmarshal now tokenString (fun _ => .ok publicKey) with
  | .error err => .error err.Error
  | .ok token => if token.Valid then .ok token.Claims else .error "key is invalid"

/-! ## gin -/

/-- Go `gin.Context`: writer, request, and whether `Abort` was called. -/
structure GinContext where
  Writer : Conn
  Request : Request
  aborted : Bool
  deriving DecidableEq, Repr

/-- Go `gin.HandlerFunc`. -/
abbrev HandlerFunc := GinContext → GinContext

/-- Go `gin.WrapH`: `h.ServeHTTP(c.Writer, c.Request)`, nothing else. -/
def WrapH (h : Handler) : HandlerFunc := fun c => { c with Writer := h c.Writer c.Request }

/-- Go `gin.WrapF`: `f(c.Writer, c.Request)`, nothing else. -/
def WrapF (f : Handler) : HandlerFunc := fun c => { c with Writer := f c.Writer c.Request }

/-- Go `c.Next()` as run by the engine on a chain of handlers none of which
calls `Next` itself: each handler runs in turn until one has aborted. -/
def GinContext.Next : List HandlerFunc → GinContext → GinContext
  | [], c => c
  | h :: hs, c => if c.aborted then c else GinContext.Next hs (h c)

/-- A route of the engine: method, path and chain of handlers. -/
structure Route where
  Method : String
  Path : String
  Handlers : List HandlerFunc

/-- Go `Engine.ServeHTTP`: the chain of the first matching route is run on a
fresh context; no route gives 404. -/
def ServeHTTP (routes : List Route) (w : Conn) (r : Request) : Conn :=
  match routes.find? (fun rt => rt.Method == r.Method && rt.Path == r.Path) with
  | some rt => (GinContext.Next rt.Handlers { Writer := w, Request := r, aborted := false }).Writer
  | none => { w with w := (w.w.WriteHeader 404).Write "404 page not found" }

/-! ## controllers/main_controller.go -/

/-- The handler `MainMenu`; `menu` is the JSON text of `services.GetAllMainMenu()`. -/
def MainMenu (menu : String) : Handler := fun c _ =>
  { c with w := (c.w.Set "Content-Type" "application/json").Write (menu ++ "\n") }

/-! ## routes/router.go -/

/-- The handlers of the controllers that `SetupRoutes` registers. -/
structure Controllers where
  GoogleLogin : Handler
  GoogleCallback : Handler
  CollPLogin : Handler
  CollPRegister : Handler
  MainMenu : Handler

/-- The function `SetupRoutes` on an engine whose own middleware is
`engine`: the routes it registers; `none` when `AuthMiddleware` exits. The
guard is built once; `now` is the clock reading of its validator on the
request that is served. -/
def SetupRoutes (lib : JwtLib) (publicKey : Option RSAPublicKey) (now : Time)
    (ctl : Controllers) (engine : List HandlerFunc) : Option (List Route) :=
  let pub := engine
  match AuthMiddleware lib publicKey now (fun w _ => w) with
  | none => none
  | some guard =>
    let priv := engine ++ [WrapH guard]
    some
      [ { Method := "GET", Path := "/api/auth/google/login",
          Handlers := pub ++ [WrapF ctl.GoogleLogin] },
        { Method := "GET", Path := "/api/auth/google/callback",
          Handlers := pub ++ [WrapF ctl.GoogleCallback] },
        { Method := "POST", Path := "/api/collp/login",
          Handlers := pub ++ [WrapF ctl.CollPLogin] },
        { Method := "POST", Path := "/api/collp/register",
          Handlers := pub ++ [WrapF ctl.CollPRegister] },
        { Method := "GET", Path := "/api/collp/main-menu",
          Handlers := priv ++ [WrapF ctl.MainMenu] } ]

/-! ## More of the Go standard library

An `int` has 64 bits, like an `int64`. -/

/-- The value of an `int64` operation whose exact result is `x`: `x` wrapped
into 64 bits, two's complement. -/
def wrapInt64 (x : Int) : Int :=
  (x + 9223372036854775808) % 18446744073709551616 - 9223372036854775808

/-- Go `unicode.IsSpace`. -/
def isSpace (c : Char) : Bool :=
  c.toNat ∈ [9, 10, 11, 12, 13, 32, 0x85, 0xA0, 0x1680, 0x2028, 0x2029, 0x202F, 0x205F, 0x3000] ||
    (0x2000 ≤ c.toNat && c.toNat ≤ 0x200A)

/-- Go `strings.TrimSpace`. -/
def TrimSpace (s : String) : String :=
  String.mk ((s.data.dropWhile isSpace).reverse.dropWhile isSpace).reverse

/-- Go `strings.Contains(s, sub)` for a substring `sub` of one character. -/
def Contains (s : String) (sub : Char) : Bool := s.data.contains sub

/-- The number written by a string of decimal digits. -/
def digitsValue (ds : List Char) : Nat :=
  ds.foldl (fun acc c => acc * 10 + (c.toNat - 48)) 0

/-- Go `strconv.Atoi`: an optional sign and at least one decimal digit, with a
value in the range of `int`; anything else is an error. -/
def Atoi (s : String) : Except String Int :=
  let sd : Bool × List Char :=
    match s.data with
    | '+' :: r => (false, r)
    | '-' :: r => (true, r)
    | cs => (false, cs)
  if sd.2 = [] ∨ ¬ sd.2.all Char.isDigit then
    .error ("strconv.Atoi: parsing " ++ s ++ ": invalid syntax")
  else
    let v : Int := if sd.1 then -(digitsValue sd.2 : Int) else (digitsValue sd.2 : Int)
    if v < -9223372036854775808 ∨ 9223372036854775807 < v then
      .error ("strconv.Atoi: parsing " ++ s ++ ": value out of range")
    else .ok v

/-- A hexadecimal digit, upper case. -/
def upperhex (n : Nat) : Char := "0123456789ABCDEF".data.getD n '0'

/-- A hexadecimal digit, lower case. -/
def lowerhex (n : Nat) : Char := "0123456789abcdef".data.getD n '0'

/-- Go `url.QueryEscape` on one character: letters, digits, `-`, `_`, `.` and
`~` stay, a space becomes `+`, every other byte becomes `%XX`. -/
def QueryEscape.char (c : Char) : List Char :=
  if c.isAlphanum || c = '-' || c = '_' || c = '.' || c = '~' then [c]
  else if c = ' ' then ['+']
  else (String.utf8EncodeChar c).flatMap
    (fun b => ['%', upperhex (b.toNat / 16), upperhex (b.toNat % 16)])

/-- Go `url.QueryEscape`. -/
def QueryEscape (s : String) : String := String.mk (s.data.flatMap QueryEscape.char)

/-- Go `url.Values` built with `Set` only: one value for each key. -/
abbrev Values := List (String × String)

/-- Go `Values.Set`. -/
def Values.Set (v : Values) (key value : String) : Values :=
  (key, value) :: v.filter (fun kv => kv.1 ≠ key)

/-- The order of Go strings: byte by byte, which on characters is by code point. -/
def lexLe : List Char → List Char → Bool
  | [], _ => true
  | _ :: _, [] => false
  | a :: as, b :: bs => a.toNat < b.toNat || (a.toNat == b.toNat && lexLe as bs)

/-- Insertion of an entry into a list sorted by key. -/
def Values.insert (kv : String × String) : Values → Values
  | [] => [kv]
  | x :: xs => if lexLe kv.1.data x.1.data then kv :: x :: xs else x :: Values.insert kv xs

/-- Go `Values.Encode`: the entries sorted by key, each as `key=value` with
both sides escaped, joined by `&`. -/
def Values.Encode (v : Values) : String :=
  "&".intercalate ((v.foldr Values.insert []).map
    (fun kv => QueryEscape kv.1 ++ "=" ++ QueryEscape kv.2))

/-- Go `htmlEscape` of net/http. -/
def htmlEscape (s : String) : String :=
  String.mk (s.data.flatMap (fun c =>
    if c = '&' then "&amp;".data
    else if c = '<' then "&lt;".data
    else if c = '>' then "&gt;".data
    else if c = '"' then "&#34;".data
    else if c.toNat = 39 then "&#39;".data
    else [c]))

/-- Go `hexEscapeNonASCII` of net/http: every byte from 0x80 up becomes `%xx`. -/
def hexEscapeNonASCII (s : String) : String :=
  String.mk (s.data.flatMap (fun c =>
    if c.toNat < 128 then [c]
    else (String.utf8EncodeChar c).flatMap
      (fun b => ['%', lowerhex (b.toNat / 16), lowerhex (b.toNat % 16)])))

/-- Go `http.StatusText`, for the codes used here. -/
def StatusText (code : Nat) : String :=
  if code = 303 then "See Other"
  else if code = 307 then "Temporary Redirect"
  else ""

/-- The primitives of the standard library that the model leaves open. -/
structure StdLib where
  /-- The JSON text of a string, as `encoding/json` writes it. -/
  Quote : String → String
  /-- The JSON text of a `time.Time`, as `encoding/json` writes it. -/
  FormatTime : Time → String
  /-- The first step of `http.Redirect`: a target without scheme and host is
  made absolute against the path of the request, any other target is kept. -/
  Resolve : String → String → String
  /-- Go `unicode.ToLower` on the characters above ASCII: the lower case of
  the case tables of Unicode. -/
  ToLower : Char → Char

/-- Go `strings.ToLower`: an ASCII character is lower-cased when it is one of
`A` to `Z`, every other character goes through `unicode.ToLower`. -/
def strings.ToLower (std : StdLib) (s : String) : String :=
  String.mk (s.data.map fun c => if c.toNat < 128 then c.toLower else std.ToLower c)

mutual
/-- A value handed to `encoding/json`. -/
inductive JSON where
  | null
  | bool (b : Bool)
  | num (n : Int)
  | str (s : String)
  | time (t : Time)
  | arr (elems : JSONList)
  | obj (fields : JSONFields)
/-- The elements of a JSON array. -/
inductive JSONList where
  | nil
  | cons (head : JSON) (tail : JSONList)
/-- The fields of a JSON object, in the order in which they are written: by
key for a map, by declaration for a struct. -/
inductive JSONFields where
  | nil
  | cons (key : String) (value : JSON) (tail : JSONFields)
end

mutual
/-- Go `json.Marshal`. -/
def JSON.encode (std : StdLib) : JSON → String
  | .null => "null"
  | .bool b => if b then "true" else "false"
  | .num n => toString n
  | .str s => std.Quote s
  | .time t => std.FormatTime t
  | .arr l => "[" ++ JSONList.encode std l ++ "]"
  | .obj l => "\x7b" ++ JSONFields.encode std l ++ "\x7d"
/-- The elements of an array, separated by commas. -/
def JSONList.encode (std : StdLib) : JSONList → String
  | .nil => ""
  | .cons h .nil => JSON.encode std h
  | .cons h t => JSON.encode std h ++ "," ++ JSONList.encode std t
/-- The fields of an object, separated by commas. -/
def JSONFields.encode (std : StdLib) : JSONFields → String
  | .nil => ""
  | .cons k v .nil => std.Quote k ++ ":" ++ JSON.encode std v
  | .cons k v t => std.Quote k ++ ":" ++ JSON.encode std v ++ "," ++ JSONFields.encode std t
end

/-- Go `json.NewEncoder(w).Encode(v)`: the JSON text and a newline. -/
def ResponseWriter.Encode (std : StdLib) (w : ResponseWriter) (v : JSON) : ResponseWriter :=
  w.Write (JSON.encode std v ++ "\n")

/-- Go `r.FormValue(key)` and `r.URL.Query().Get(key)` of a GET request: the
empty string when the parameter is absent. -/
def Request.FormValue (r : Request) (key : String) : String :=
  (List.lookup key r.Form).getD ""

/-- Go `http.Redirect`. -/
def Redirect (std : StdLib) (w : ResponseWriter) (r : Request) (url : String) (code : Nat) :
    ResponseWriter :=
  let url₁ := std.Resolve r.Path url
  let hadCT := (List.lookup "Content-Type" w.Header).isSome
  let w₁ := w.Set "Location" (hexEscapeNonASCII url₁)
  let w₂ :=
    if !hadCT && (r.Method == "GET" || r.Method == "HEAD") then
      w₁.Set "Content-Type" "text/html; charset=utf-8"
    else w₁
  let w₃ := w₂.WriteHeader code
  if !hadCT && r.Method == "GET" then
    w₃.Write ("<a href=\"" ++ htmlEscape url₁ ++ "\">" ++ StatusText code ++ "</a>.\n" ++ "\n")
  else w₃

/-! ## controllers/auth_controller.go, continued -/

/-- The function `writeJSONError`. -/
def writeJSONError (std : StdLib) (w : ResponseWriter) (status : Nat) (message : String) :
    ResponseWriter :=
  ((w.Set "Content-Type" "application/json").WriteHeader status).Encode std
    (.obj (.cons "error" (.str message) .nil))

/-- The query values that `GoogleCallback` builds from the user info. -/
def GoogleCallback.values (userInfo : GoogleUserInfo) : Values :=
  let v₁ := Values.Set [] "email" userInfo.Email
  let v₂ := Values.Set v₁ "name" userInfo.Name
  let v₃ := Values.Set v₂ "picture" userInfo.Picture
  let v₄ := Values.Set v₃ "verified_email" (if userInfo.VerifiedEmail then "true" else "false")
  let v₅ := Values.Set v₄ "token" userInfo.Token
  Values.Set v₅ "token_expiry" (toString userInfo.TokenExpiry)

/-! ## regexp

The patterns of `utils/functions.go` are made of character classes,
concatenation, `+` and `\x7b2,\x7d`. A pattern is matched through its
derivatives, one character of the text after the other. A text is a string of
Unicode characters (well-formed UTF-8), and a class holds the characters that
the pattern lists, without case folding. -/

/-- A regular expression: no text at all, the empty text, one character of a
class, a concatenation, an alternative, a repetition. -/
inductive Regex where
  | fail
  | empty
  | cls (p : Char → Bool)
  | cat (r s : Regex)
  | alt (r s : Regex)
  | star (r : Regex)

/-- Whether the expression matches the empty text. -/
def Regex.nullable : Regex → Bool
  | .fail => false
  | .empty => true
  | .cls _ => false
  | .cat r s => r.nullable && s.nullable
  | .alt r s => r.nullable || s.nullable
  | .star _ => true

/-- The derivative by a character: the expression of what may follow that
character in a match. -/
def Regex.deriv : Regex → Char → Regex
  | .fail, _ => .fail
  | .empty, _ => .fail
  | .cls p, c => if p c then .empty else .fail
  | .cat r s, c =>
    if r.nullable then .alt (.cat (r.deriv c) s) (s.deriv c) else .cat (r.deriv c) s
  | .alt r s, c => .alt (r.deriv c) (s.deriv c)
  | .star r, c => .cat (r.deriv c) (.star r)

/-- The match of a pattern written between `^` and `$`: the whole text, up to
its very end, matches the expression. -/
def Regex.fullMatch (r : Regex) : List Char → Bool
  | [] => r.nullable
  | c :: cs => (r.deriv c).fullMatch cs

/-- The pattern `r+`. -/
def Regex.plus (r : Regex) : Regex := .cat r (.star r)

/-- Go `regexp.MatchString` for a pattern without anchors: some stretch of the
text matches the expression. -/
def Regex.MatchString (r : Regex) (s : String) : Bool :=
  (Regex.cat (.star (.cls fun _ => true))
    (.cat r (.star (.cls fun _ => true)))).fullMatch s.data

/-! ## utils/functions.go -/

/-- The pattern of `IsValidEmail` between its anchors:
`[a-zA-Z0-9._%+\-]+@[a-zA-Z0-9.\-]+\.[a-zA-Z]\x7b2,\x7d`. -/
def utils.emailRegex : Regex :=
  .cat (Regex.plus (.cls fun c =>
      c.isAlphanum || c == '.' || c == '_' || c == '%' || c == '+' || c == '-'))
    (.cat (.cls fun c => c == '@')
      (.cat (Regex.plus (.cls fun c => c.isAlphanum || c == '.' || c == '-'))
        (.cat (.cls fun c => c == '.')
          (.cat (.cls Char.isAlpha) (Regex.plus (.cls Char.isAlpha))))))

/-- The function `IsValidEmail` of `utils`. -/
def utils.IsValidEmail (email : String) : Bool := utils.emailRegex.fullMatch email.data

/-- The function `IsValidPassword`; `len(password)` counts bytes. -/
def utils.IsValidPassword (password : String) : Bool :=
  if password.utf8ByteSize < 8 then false
  else
    let hasUpper := (Regex.cls Char.isUpper).MatchString password
    let hasLower := (Regex.cls Char.isLower).MatchString password
    let hasNumber := (Regex.cls Char.isDigit).MatchString password
    hasUpper && hasLower && hasNumber

/-- The function `IsEmpty`. -/
def utils.IsEmpty (str : String) : Bool := TrimSpace str == ""

/-! ## validators/user_validator.go -/

/-- The record `UserRegistrationRequest`. -/
structure validators.UserRegistrationRequest where
  Email : String
  Name : String
  Password : String
  Phone : String
  Address : String
  deriving DecidableEq, Repr

/-- The function `ValidateUserRegistration`; `.ok ()` is the nil error. -/
def validators.ValidateUserRegistration (req : validators.UserRegistrationRequest) :
    Except String Unit :=
  if utils.IsEmpty req.Email then .error "email is required"
  else if !utils.IsValidEmail req.Email then .error "invalid email format"
  else if utils.IsEmpty req.Name then .error "name is required"
  else if utils.IsEmpty req.Password then .error "password is required"
  else if !utils.IsValidPassword req.Password then
    .error ("password must be at least 8 characters long and contain uppercase, lowercase, " ++
      "and number")
  else .ok ()

/-! ## models/user.go -/

/-- The record `User`, a row of the table `users`; `DeletedAt` is set on a
row that was deleted softly. -/
structure User where
  ID : Nat
  Email : String
  Name : String
  GoogleID : String
  Avatar : String
  IsActive : Bool
  CreatedAt : Time
  UpdatedAt : Time
  DeletedAt : Option Time
  deriving DecidableEq, Repr

/-- The JSON object of a `User`: its fields in the order of declaration,
without `DeletedAt`. -/
def User.toJSON (u : User) : JSON :=
  .obj (.cons "id" (.num u.ID) (.cons "email" (.str u.Email) (.cons "name" (.str u.Name)
    (.cons "google_id" (.str u.GoogleID) (.cons "avatar" (.str u.Avatar)
    (.cons "is_active" (.bool u.IsActive) (.cons "created_at" (.time u.CreatedAt)
    (.cons "updated_at" (.time u.UpdatedAt) .nil))))))))

/-- The JSON array of a list of users. -/
def usersJSON : List User → JSONList
  | [] => .nil
  | u :: us => .cons u.toJSON (usersJSON us)

/-! ## repositories/user_repo.go

The table `users` is a list of rows with the last value of its id sequence.
The database is reachable: its only errors are "record not found" and the
violation of a unique index. -/

/-- The interface `UserRepository`, as far as the service calls it, over a
store of type `σ`. A method that writes returns the store after it. -/
structure UserRepository (σ : Type) where
  Create : User → σ → Except String User × σ
  CreateIfNotExists : String → String → User → σ → Except String User × σ
  ExistsByEmail : String → σ → Except String Bool
  GetAll : Int → Int → σ → Except String (List User × Int)
  Search : String → Int → Int → σ → Except String (List User × Int)

/-- The table `users`: all rows, those deleted softly included, and the last
value drawn from the sequence of ids. -/
structure Store where
  rows : List User
  seq : Nat
  deriving DecidableEq, Repr

/-- What the queries leave to the database: the operator `ILIKE` (pattern,
then value) and the clock that stamps a new row. -/
structure Postgres where
  ILike : String → String → Bool
  Now : Time

/-- The row of least id in a list of rows. -/
def leastID : List User → Option User
  | [] => none
  | u :: us =>
    match leastID us with
    | none => some u
    | some v => if u.ID ≤ v.ID then some u else some v

/-- The rows that a query sees: those not deleted softly. -/
def Store.live (s : Store) : List User := s.rows.filter (fun u => u.DeletedAt.isNone)

/-- Go `db.Where(cond).First(&user)`: among the live rows that satisfy the
condition, the one of least id; `none` is "record not found". -/
def Store.First (s : Store) (cond : User → Bool) : Option User :=
  leastID (s.live.filter cond)

/-- The invariant of the table: no two rows that are not deleted have the same
email. -/
def Store.EmailsUnique (s : Store) : Prop := (s.live.map (fun u => u.Email)).Nodup

instance (s : Store) : Decidable s.EmailsUnique := by
  unfold Store.EmailsUnique
  infer_instance

/-- The method `Create`: the row gets the next id of the sequence and the
time stamps of the clock; the unique indexes on `email` and on `google_id`
range over all rows. The id is drawn from the sequence before the indexes
are checked. -/
def userRepository.Create (db : Postgres) (user : User) (s : Store) : Except String User × Store :=
  if s.rows.any (fun u => u.Email == user.Email) ||
      s.rows.any (fun u => u.GoogleID == user.GoogleID) then
    (.error "failed to create user: duplicate key value violates unique constraint",
      { s with seq := s.seq + 1 })
  else
    let u : User := { user with ID := s.seq + 1, CreatedAt := db.Now, UpdatedAt := db.Now }
    (.ok u, { rows := s.rows ++ [u], seq := s.seq + 1 })

/-- The method `CreateIfNotExists`. -/
def userRepository.CreateIfNotExists (db : Postgres) (email googleID : String) (user : User)
    (s : Store) : Except String User × Store :=
  match s.First (fun u => u.Email == email || u.GoogleID == googleID) with
  | some existingUser => (.ok existingUser, s)
  | none => userRepository.Create db user s

/-- The method `ExistsByEmail`. -/
def userRepository.ExistsByEmail (email : String) (s : Store) : Except String Bool :=
  .ok (decide (0 < (s.live.filter (fun u => u.Email == email)).length))

/-- Insertion of a row into a list sorted by `created_at`, latest first. -/
def insertByCreatedAt (u : User) : List User → List User
  | [] => [u]
  | x :: xs => if x.CreatedAt ≤ u.CreatedAt then u :: x :: xs else x :: insertByCreatedAt u xs

/-- Go `Offset(offset).Limit(limit).Order("created_at DESC").Find(&users)` on
the rows of a query, for a limit above zero. -/
def paginate (rows : List User) (page limit : Int) : List User :=
  let offset := wrapInt64 (wrapInt64 (page - 1) * limit)
  let sorted := rows.foldr insertByCreatedAt []
  let rest := if 0 < offset then sorted.drop offset.toNat else sorted
  rest.take limit.toNat

/-- The method `GetAll`. -/
def userRepository.GetAll (page limit : Int) (s : Store) : Except String (List User × Int) :=
  .ok (paginate s.live page limit, (s.live.length : Int))

/-- The method `Search`. -/
def userRepository.Search (db : Postgres) (keyword : String) (page limit : Int) (s : Store) :
    Except String (List User × Int) :=
  let found := s.live.filter (fun u =>
    db.ILike ("%" ++ keyword ++ "%") u.Name || db.ILike ("%" ++ keyword ++ "%") u.Email)
  .ok (paginate found page limit, (found.length : Int))

/-- The repository made by `NewUserRepository`. -/
def NewUserRepository (db : Postgres) : UserRepository Store where
  Create := userRepository.Create db
  CreateIfNotExists := userRepository.CreateIfNotExists db
  ExistsByEmail := userRepository.ExistsByEmail
  GetAll := userRepository.GetAll
  Search := userRepository.Search db

/-! ## services/user_service.go -/

/-- The method `IsValidEmail` of the user service. -/
def userService.IsValidEmail (email : String) : Bool :=
  let email₁ := TrimSpace email
  if email₁ = "" then false
  else Contains email₁ '@' && Contains email₁ '.' && decide (5 < email₁.utf8ByteSize)

/-- The method `CreateUser`. -/
def userService.CreateUser {σ : Type} (std : StdLib) (userRepo : UserRepository σ)
    (email name googleID avatar : String) (st : σ) : Except String User × σ :=
  if !userService.IsValidEmail email then
    (.error ("invalid email format: " ++ email), st)
  else if TrimSpace name = "" then
    (.error "name is required", st)
  else
    match userRepo.ExistsByEmail email st with
    | .error err => (.error ("failed to check existing user: " ++ err), st)
    | .ok exists₁ =>
      if exists₁ then
        (.error ("user with email " ++ email ++ " already exists"), st)
      else
        let user : User :=
          { ID := 0, Email := strings.ToLower std (TrimSpace email), Name := TrimSpace name,
            GoogleID := googleID, Avatar := avatar, IsActive := true, CreatedAt := 0,
            UpdatedAt := 0, DeletedAt := none }
        match userRepo.Create user st with
        | (.error err, st₁) => (.error ("failed to create user: " ++ err), st₁)
        | (.ok u, st₁) => (.ok u, st₁)

/-- The method `GetOrCreateUser`. -/
def userService.GetOrCreateUser {σ : Type} (std : StdLib) (userRepo : UserRepository σ)
    (email name googleID avatar : String) (st : σ) : Except String User × σ :=
  let email₁ := strings.ToLower std (TrimSpace email)
  if !userService.IsValidEmail email₁ then
    (.error ("invalid email format: " ++ email₁), st)
  else
    let userData : User :=
      { ID := 0, Email := email₁, Name := TrimSpace name, GoogleID := googleID, Avatar := avatar,
        IsActive := true, CreatedAt := 0, UpdatedAt := 0, DeletedAt := none }
    match userRepo.CreateIfNotExists email₁ googleID userData st with
    | (.error err, st₁) => (.error ("failed to get or create user: " ++ err), st₁)
    | (.ok user, st₁) => (.ok user, st₁)

/-- The method `GetAllUsers`. -/
def userService.GetAllUsers {σ : Type} (userRepo : UserRepository σ) (page limit : Int) (st : σ) :
    Except String (List User × Int) :=
  let page₁ := if page ≤ 0 then 1 else page
  let limit₁ := if limit ≤ 0 ∨ 100 < limit then 10 else limit
  match userRepo.GetAll page₁ limit₁ st with
  | .error err => .error ("failed to get users: " ++ err)
  | .ok (users, total) => .ok (users, total)

/-- The method `SearchUsers`. -/
def userService.SearchUsers {σ : Type} (userRepo : UserRepository σ) (keyword : String)
    (page limit : Int) (st : σ) : Except String (List User × Int) :=
  let keyword₁ := TrimSpace keyword
  if keyword₁ = "" then .error "search keyword is required"
  else
    let page₁ := if page ≤ 0 then 1 else page
    let limit₁ := if limit ≤ 0 ∨ 100 < limit then 10 else limit
    match userRepo.Search keyword₁ page₁ limit₁ st with
    | .error err => .error ("failed to search users: " ++ err)
    | .ok (users, total) => .ok (users, total)

/-! ## controllers/auth_controller.go and controllers/user_controller.go -/

/-- The package variables of `controllers` that its handlers can reach:
`authService`, and the table behind `userService`. -/
structure ControllerState where
  authService : AuthService
  users : Store

/-- The handler `GoogleCallback`, with the value of `FRONTEND_REDIRECT` and the
two clock readings of the token; it returns the package variables after the
request next to the response. A nil user info next to a nil error, which
`HandleGoogleCallback` never returns, leaves the response unwritten. -/
def GoogleCallback (std : StdLib) (lib : JwtLib) (FRONTEND_REDIRECT : String) (now₁ now₂ : Time)
    (g : ControllerState) (c : Conn) (r : Request) : ControllerState × Conn :=
  let state := r.FormValue "state"
  let code := r.FormValue "code"
  let res := g.authService.HandleGoogleCallback lib now₁ now₂ code state
  match res.err with
  | some err => (g, { c with w := writeJSONError std c.w 400 err })
  | none =>
    match res.userInfo with
    | none => (g, c)
    | some userInfo =>
      let values := GoogleCallback.values userInfo
      let frontendRedirectURL := FRONTEND_REDIRECT ++ "?" ++ Values.Encode values
      (g, { c with w := Redirect std c.w r frontendRedirectURL 303 })

/-- The page of a pagination parameter: `strconv.Atoi`, and 1 on an error or
a value that is not positive. -/
def GetAllUsers.page (pageStr : String) : Int :=
  match Atoi pageStr with
  | .error _ => 1
  | .ok page => if page ≤ 0 then 1 else page

/-- The limit of a pagination parameter: `strconv.Atoi`, and 10 on an error
or a value that is not positive. -/
def GetAllUsers.limit (limitStr : String) : Int :=
  match Atoi limitStr with
  | .error _ => 10
  | .ok limit => if limit ≤ 0 then 10 else limit

/-- The local `totalPages`: `int((total + int64(limit) - 1) / int64(limit))`
in 64-bit arithmetic, the division rounding towards zero. -/
def GetAllUsers.totalPages (total limit : Int) : Int :=
  wrapInt64 (Int.tdiv (wrapInt64 (wrapInt64 (total + limit) - 1)) limit)

/-- The handler `GetAllUsers`, over the repository and the store behind
`userService`. -/
def GetAllUsers {σ : Type} (std : StdLib) (userRepo : UserRepository σ) (st : σ) : Handler :=
  fun c r =>
  let page := GetAllUsers.page (r.FormValue "page")
  let limit := GetAllUsers.limit (r.FormValue "limit")
  match userService.GetAllUsers userRepo page limit st with
  | .error err => { c with w := writeJSONError std c.w 500 err }
  | .ok (users, total) =>
    let totalPages := GetAllUsers.totalPages total limit
    let body : JSON :=
      .obj (.cons "data" (.obj (.cons "limit" (.num limit) (.cons "page" (.num page)
        (.cons "total" (.num total) (.cons "total_pages" (.num totalPages)
        (.cons "users" (.arr (usersJSON users)) .nil))))))
        (.cons "success" (.bool true) .nil))
    { c with w := ((c.w.Set "Content-Type" "application/json").WriteHeader 200).Encode std body }

/-- The handler `SearchUsers`, over the repository and the store behind
`userService`. -/
def SearchUsers {σ : Type} (std : StdLib) (userRepo : UserRepository σ) (st : σ) : Handler :=
  fun c r =>
  let keyword := r.FormValue "q"
  if keyword = "" then { c with w := writeJSONError std c.w 400 "Search keyword is required" }
  else
    let page := GetAllUsers.page (r.FormValue "page")
    let limit := GetAllUsers.limit (r.FormValue "limit")
    match userService.SearchUsers userRepo keyword page limit st with
    | .error err => { c with w := writeJSONError std c.w 400 err }
    | .ok (users, total) =>
      let totalPages := GetAllUsers.totalPages total limit
      let body : JSON :=
        .obj (.cons "data" (.obj (.cons "keyword" (.str keyword) (.cons "limit" (.num limit)
          (.cons "page" (.num page) (.cons "total" (.num total)
          (.cons "total_pages" (.num totalPages)
          (.cons "users" (.arr (usersJSON users)) .nil)))))))
          (.cons "success" (.bool true) .nil))
      { c with w := ((c.w.Set "Content-Type" "application/json").WriteHeader 200).Encode std body }

/-! ## cmd/server/main.go -/

/-- The package variables `requestCounts` and `lastRequest`, by client
address. -/
structure RateState where
  requestCounts : String → Option Int
  lastRequest : String → Option Time

/-- Go `c.AbortWithStatusJSON(code, obj)` of gin: the chain is aborted, the
content type is set unless one is set already, the status and the JSON text
of the object are written. -/
def GinContext.AbortWithStatusJSON (std : StdLib) (c : GinContext) (code : Nat) (obj : JSON) :
    GinContext :=
  let w := c.Writer.w
  let w₁ :=
    if (List.lookup "Content-Type" w.Header).isSome then w
    else w.Set "Content-Type" "application/json; charset=utf-8"
  { c with aborted := true,
           Writer := { c.Writer with w := (w₁.WriteHeader code).Write (JSON.encode std obj) } }

/-- The handler returned by `RateLimitMiddleware(limit, window)`, on a request
of the client address `ip` (`c.ClientIP()`); `now₁` is the clock reading of
`time.Since`, `now₂` the one stored as last request. The handler ends with
`c.Next()`: on admission the context is left to the rest of the chain. -/
def RateLimitMiddleware (std : StdLib) (limit : Int) (window : Int) (ip : String)
    (now₁ now₂ : Time) (st : RateState) (c : GinContext) : RateState × GinContext :=
  let st₁ : RateState :=
    match st.lastRequest ip with
    | some t =>
      if window < now₁ - t then
        { st with requestCounts := Function.update st.requestCounts ip (some 0) }
      else st
    | none => st
  let count : Int := (st₁.requestCounts ip).getD 0
  let st₂ : RateState :=
    match st₁.requestCounts ip with
    | some _ => st₁
    | none => { st₁ with requestCounts := Function.update st₁.requestCounts ip (some 0) }
  if limit ≤ count then
    (st₂, c.AbortWithStatusJSON std 429 (.obj (.cons "error" (.str "Rate limit exceeded") .nil)))
  else
    ({ requestCounts := Function.update st₂.requestCounts ip (some (count + 1)),
       lastRequest := Function.update st₂.lastRequest ip (some now₂) }, c)

/-- A request as the rate limiter sees it: client address and the two clock
readings. -/
structure Arrival where
  ip : String
  now₁ : Time
  now₂ : Time
  deriving DecidableEq, Repr

/-- The state of the limiter after a sequence of requests, served one after
the other. -/
def RateLimitMiddleware.run (std : StdLib) (limit : Int) (window : Int) (c : GinContext) :
    RateState → List Arrival → RateState
  | st, [] => st
  | st, a :: as =>
    RateLimitMiddleware.run std limit window c
      (RateLimitMiddleware std limit window a.ip a.now₁ a.now₂ st c).1 as

/-! ## What the round trip asks of the library -/

/-- The library reads back the token `t` that it writes with the key `key`:
whatever signature the RSA primitive returns for the signing input of `t`,
the token string splits into the header, the claims and the signature it was
made of, and the RSA primitive accepts that signature under the public half of
the key. -/
def JwtLib.RoundTrip (lib : JwtLib) (key : RSAPrivateKey) (t : Token MapClaims) : Prop :=
  ∀ sig, lib.SignPKCS1v15 key .SHA256 (lib.SigningString t.Header t.Claims) = .ok sig →
    (∃ cb, lib.Split (lib.SigningString t.Header t.Claims ++ "." ++ lib.EncodeSegment sig) =
          .ok { Header := t.Header, claimBytes := cb,
                signingInput := lib.SigningString t.Header t.Claims,
                signature := lib.EncodeSegment sig } ∧
        lib.UnmarshalMapClaims cb = .ok t.Claims) ∧
    lib.DecodeSegment (lib.EncodeSegment sig) = .ok sig ∧
    lib.VerifyPKCS1v15 key.PublicKey .SHA256 (lib.SigningString t.Header t.Claims) sig = true

/-! ## A small instance of the parameters

A toy coding of tokens (`alg.email.signature`) with textbook RSA on the
modulus 33, and a provider that knows one code. -/

/-- The claims that the toy coding stores under an email. -/
def sampleClaims (email : String) : MapClaims :=
  if email = "zero@x.org" then [("email", .str email), ("exp", .num 0), ("iat", .num 0)]
  else if email = "old@x.org" then [("email", .str email), ("exp", .num 1), ("iat", .num 0)]
  else [("email", .str email), ("exp", .num 7200), ("iat", .num 0)]

/-- The toy digest of a signing input. -/
def sampleDigest (h : Hash) (msg : String) : Nat :=
  (msg.length + (match h with | .SHA256 => 1 | .SHA384 => 2 | .SHA512 => 3)) % 33

/-- The toy library. -/
def sampleLib : JwtLib where
  SigningString hdr claims :=
    (headerAlg hdr).getD "" ++ "." ++
      (match List.lookup "email" claims with
        | some (.str e) => e
        | _ => "")
  EncodeSegment sig := String.mk (List.replicate sig.sum 's')
  Split tok :=
    match cut '.' tok.data with
    | none => .error (.Malformed "token contains an invalid number of segments")
    | some (a, rest) =>
      match cut '.' rest.reverse with
      | none => .error (.Malformed "token contains an invalid number of segments")
      | some (s, c) =>
        .ok { Header := [("typ", .str "JWT"), ("alg", .str (String.mk a))],
              claimBytes := String.mk c.reverse,
              signingInput := String.mk (a ++ '.' :: c.reverse),
              signature := String.mk s.reverse }
  UnmarshalMapClaims cb := .ok (sampleClaims cb)
  DecodeSegment s := .ok [s.length]
  SignPKCS1v15 key h msg := .ok [sampleDigest h msg ^ key.D % key.PublicKey.N]
  VerifyPKCS1v15 key h msg sig :=
    match sig with
    | [x] => x ^ key.E % key.N == sampleDigest h msg
    | _ => false
  VerifyPSS _ _ _ _ := false

/-- The toy decoding of claim bytes into a `JWTClaims`. -/
def sampleUnmarshal (cb : String) : Except String JWTClaims :=
  .ok { Issuer := "", Subject := cb, Audience := [], ExpiresAt := some 7200, NotBefore := none,
        IssuedAt := some 0, ID := "", UserID := 1, Email := cb }

/-- The toy key pair: modulus 33, public exponent 3, private exponent 7. -/
def sampleKey : RSAPrivateKey := { PublicKey := { N := 33, E := 3 }, D := 7 }

/-- The toy provider: the code `c1` is worth the access token `t1`, whose
profile is that of `a@b.c`. -/
def sampleProvider : Provider where
  Exchange code := if code = "c1" then .ok "t1" else .error { msg := "invalid_grant", isNetError := false }
  Get token :=
    if token = "t1" then .ok { StatusCode := 200, Body := "profile" }
    else .error "connection refused"
  Decode body :=
    if body = "profile" then
      .ok { Email := "a@b.c", Name := "A", Picture := "p.png", VerifiedEmail := true,
            Token := "", TokenExpiry := 0 }
    else .error "unexpected end of JSON input"

/-- The toy service. -/
def sampleService : AuthService := { googleOauthConfig := sampleProvider, privateKey := sampleKey }

/-- A writer on which nothing was written. -/
def freshConn : Conn :=
  { w := { Header := [], wroteHeader := none, sentHeader := [], Body := "" }, parsed := [] }

/-- A request for the main menu with the given headers. -/
def menuRequest (header : List (String × String)) : Request :=
  { Method := "GET", Path := "/api/collp/main-menu", Header := header, Form := [], ctx := [] }

/-- The toy standard library: a string is quoted as it is, a time is written
as its number of nanoseconds, a redirect target is kept, and above ASCII the
letter `Ä` alone has a lower case. -/
def sampleStd : StdLib where
  Quote s := "\"" ++ s ++ "\""
  FormatTime t := toString t
  Resolve _ url := url
  ToLower c := if c = 'Ä' then 'ä' else c

/-- The toy database: `ILIKE` holds for the pattern `%` followed by the value
and `%` only; the clock stands at 1000. -/
def sampleDb : Postgres where
  ILike pattern value := pattern == "%" ++ value ++ "%"
  Now := 1000

/-- A live, active row. -/
def sampleUser (id : Nat) (email googleID : String) : User :=
  { ID := id, Email := email, Name := "N", GoogleID := googleID, Avatar := "", IsActive := true,
    CreatedAt := id, UpdatedAt := id, DeletedAt := none }

/-- The empty table. -/
def emptyStore : Store := { rows := [], seq := 0 }

/-- A table of two rows. -/
def twoRowStore : Store :=
  { rows := [sampleUser 1 "x@y.zz" "G2", sampleUser 2 "a@b.cc" "G1"], seq := 2 }

/-- A table of 25 rows. -/
def store25 : Store :=
  { rows := (List.range 25).map (fun i => sampleUser (i + 1) (toString i ++ "@x.org") (toString i)),
    seq := 25 }

/-- The request of the provider's redirect to the callback. -/
def callbackRequest (code state : String) : Request :=
  { Method := "GET", Path := "/api/auth/google/callback", Header := [],
    Form := [("state", state), ("code", code)], ctx := [] }

/-- A request for the list of users with the given query parameters. -/
def usersRequest (query : List (String × String)) : Request :=
  { Method := "GET", Path := "/api/users", Header := [], Form := query, ctx := [] }

/-- A provider whose token endpoint cannot be reached. -/
def unreachableProvider : Provider where
  Exchange _ := .error { msg := "dial tcp: i/o timeout", isNetError := true }
  Get _ := .error "connection refused"
  Decode _ := .error "unexpected end of JSON input"

/-- A provider that exchanges every code and whose userinfo endpoint cannot be
reached. -/
def noProfileProvider : Provider where
  Exchange _ := .ok "t2"
  Get _ := .error "connection refused"
  Decode _ := .error "unexpected end of JSON input"

/-- A provider that exchanges every code and whose userinfo endpoint refuses
the access token: status 401 with the error object of the provider as body,
which decodes into a `GoogleUserInfo` with no field set, as `encoding/json`
skips the keys that the record does not have. -/
def refusingProvider : Provider where
  Exchange _ := .ok "t2"
  Get _ := .ok { StatusCode := 401,
                 Body := "\x7b\"error\":\x7b\"code\":401,\"status\":\"UNAUTHENTICATED\"\x7d\x7d" }
  Decode body :=
    if body = "\x7b\"error\":\x7b\"code\":401,\"status\":\"UNAUTHENTICATED\"\x7d\x7d" then
      .ok { Email := "", Name := "", Picture := "", VerifiedEmail := false, Token := "",
            TokenExpiry := 0 }
    else .error "unexpected end of JSON input"

/-- A provider whose one user has the profile of `ann@b.cc`. -/
def annProvider : Provider where
  Exchange code :=
    if code = "c1" then .ok "t1" else .error { msg := "invalid_grant", isNetError := false }
  Get token :=
    if token = "t1" then .ok { StatusCode := 200, Body := "ann" }
    else .error "connection refused"
  Decode body :=
    if body = "ann" then
      .ok { Email := "ann@b.cc", Name := "Ann", Picture := "p.png", VerifiedEmail := true,
            Token := "", TokenExpiry := 0 }
    else .error "unexpected end of JSON input"

/-- A repository that answers a query with its own arguments: no users, and
the total `1000 * page + limit`. -/
def echoRepo : UserRepository Unit where
  Create u st := (.ok u, st)
  CreateIfNotExists _ _ u st := (.ok u, st)
  ExistsByEmail _ _ := .ok false
  GetAll page limit _ := .ok ([], 1000 * page + limit)
  Search _ page limit _ := .ok ([], 1000 * page + limit)

/-- A gin context on which nothing was written. -/
def freshContext : GinContext :=
  { Writer := freshConn, Request := menuRequest [], aborted := false }

/-- The limiter before any request. -/
def freshRate : RateState := { requestCounts := fun _ => none, lastRequest := fun _ => none }

/-! ## Basic facts -/

theorem cut_eq_some {sep : Char} {l a b : List Char} (h : cut sep l = some (a, b)) :
    l = a ++ sep :: b ∧ sep ∉ a := by
  induction l generalizing a b with
  | nil => simp [cut] at h
  | cons c cs ih =>
    unfold cut at h
    split at h
    · next hc =>
      simp only [Option.some.injEq, Prod.mk.injEq] at h
      obtain ⟨rfl, rfl⟩ := h
      simp [hc]
    · next hc =>
      split at h
      · simp at h
      · next a' b' hcut =>
        simp only [Option.some.injEq, Prod.mk.injEq] at h
        obtain ⟨rfl, rfl⟩ := h
        obtain ⟨h₁, h₂⟩ := ih hcut
        refine ⟨by rw [h₁]; simp, ?_⟩
        simp only [List.mem_cons, not_or]
        exact ⟨fun e => hc e.symm, h₂⟩

theorem cut_append (sep : Char) (a b : List Char) (h : sep ∉ a) :
    cut sep (a ++ sep :: b) = some (a, b) := by
  induction a with
  | nil => simp [cut]
  | cons c cs ih =>
    simp only [List.mem_cons, not_or] at h
    have hc : ¬ c = sep := fun e => h.1 e.symm
    simp [cut, hc, ih h.2]

/-- The header `Bearer t` yields the token `t`, whatever `t` is. -/
theorem extractTokenFromHeader_bearer (t : String) :
    extractTokenFromHeader ("Bearer " ++ t) = .ok t := by
  have h : cut ' ' ("Bearer " ++ t).data = some ("Bearer".data, t.data) := by
    have := cut_append ' ' "Bearer".data t.data (by decide)
    simpa [String.data_append] using this
  have hl : ToLower (String.mk "Bearer".data) = "bearer" := by decide
  unfold extractTokenFromHeader SplitN
  rw [h]
  simp only [hl, ne_eq, not_true_eq_false, if_false]

/-- A header from which a token is extracted is a word without space that
lower-cases to `bearer`, one space, and the token. -/
theorem extractTokenFromHeader_ok {h t : String} (hx : extractTokenFromHeader h = .ok t) :
    ∃ s : String, h = s ++ " " ++ t ∧ ' ' ∉ s.data ∧ ToLower s = "bearer" := by
  unfold extractTokenFromHeader SplitN at hx
  cases hcut : cut ' ' h.data with
  | none => rw [hcut] at hx; simp at hx
  | some ab =>
    obtain ⟨a, b⟩ := ab
    rw [hcut] at hx
    simp only [ne_eq, ite_not] at hx
    split at hx
    · next hl =>
      simp only [Except.ok.injEq] at hx
      obtain ⟨h₁, h₂⟩ := cut_eq_some hcut
      refine ⟨String.mk a, ?_, h₂, hl⟩
      subst hx
      apply String.ext
      simp [String.data_append, h₁]
    · simp at hx

/-- The parser accepts a token exactly when every step of it succeeds. -/
theorem ParseWithClaims_eq_ok_iff {C : Type} [Claims C] {lib : JwtLib}
    {unmarshal : String → Except String C} {now : Time} {tokenString : String}
    {keyFunc : Token C → Except String RSAPublicKey} {token : Token C} :
    ParseWithClaims lib unmarshal now tokenString keyFunc = .ok token ↔
      ∃ parts claims alg method sig key,
        lib.Split tokenString = .ok parts ∧
        unmarshal parts.claimBytes = .ok claims ∧
        headerAlg parts.Header = some alg ∧
        GetSigningMethod alg = some method ∧
        lib.DecodeSegment parts.signature = .ok sig ∧
        keyFunc (Token.mk tokenString method parts.Header claims sig false) = .ok key ∧
        method.Verify lib parts.signingInput sig key = .ok () ∧
        Validate claims now = [] ∧
        token = Token.mk tokenString method parts.Header claims sig true := by
  constructor
  · intro h
    unfold ParseWithClaims at h
    cases h₁ : lib.Split tokenString with
    | error e => simp [h₁] at h
    | ok parts =>
    cases h₂ : unmarshal parts.claimBytes with
    | error e => simp [h₁, h₂] at h
    | ok claims =>
    cases h₃ : headerAlg parts.Header with
    | none => simp [h₁, h₂, h₃] at h
    | some alg =>
    cases h₄ : GetSigningMethod alg with
    | none => simp [h₁, h₂, h₃, h₄] at h
    | some method =>
    cases h₅ : lib.DecodeSegment parts.signature with
    | error e => simp [h₁, h₂, h₃, h₄, h₅] at h
    | ok sig =>
    simp only [h₁, h₂, h₃, h₄, h₅] at h
    cases h₆ : keyFunc (Token.mk tokenString method parts.Header claims sig false) with
    | error e => simp [h₆] at h
    | ok key =>
    simp only [h₆] at h
    cases h₇ : method.Verify lib parts.signingInput sig key with
    | error e => simp [h₇] at h
    | ok u =>
    simp only [h₇] at h
    cases h₈ : Validate claims now with
    | cons e es => simp [h₈] at h
    | nil =>
    simp only [h₈, Except.ok.injEq] at h
    exact ⟨parts, claims, alg, method, sig, key, rfl, h₂, h₃, h₄, h₅, h₆, h₇, h₈, h.symm⟩
  · rintro ⟨parts, claims, alg, method, sig, key, h₁, h₂, h₃, h₄, h₅, h₆, h₇, h₈, rfl⟩
    unfold ParseWithClaims
    simp only [h₁, h₂, h₃, h₄, h₅, h₆, h₇, h₈]

/-- A token returned by the parser is marked valid. -/
theorem ParseWithClaims_valid {C : Type} [Claims C] {lib : JwtLib}
    {unmarshal : String → Except String C} {now : Time} {tokenString : String}
    {keyFunc : Token C → Except String RSAPublicKey} {token : Token C}
    (h : ParseWithClaims lib unmarshal now tokenString keyFunc = .ok token) :
    token.Valid = true := by
  obtain ⟨_, _, _, _, _, _, _, _, _, _, _, _, _, _, rfl⟩ := ParseWithClaims_eq_ok_iff.mp h
  rfl

/-- No token is extracted from the empty header. -/
theorem extractTokenFromHeader_empty :
    extractTokenFromHeader "" =
      .error "Authorization header format must be Bearer \x7btoken\x7d" := by
  rfl

/-- The guard on a header with a token that the parser rejects: a 401 that
names the error, and `next` is not run. -/
theorem AuthMiddleware_of_parse_error {lib : JwtLib} {publicKey : RSAPublicKey} {now : Time}
    {c : Conn} {r : Request} {tokenString : String} {err : JwtError}
    (hx : extractTokenFromHeader (r.HeaderGet "Authorization") = .ok tokenString)
    (hp : Parse lib now tokenString (AuthMiddleware.keyFunc publicKey) = .error err)
    (next : Handler) :
    AuthMiddleware.ServeHTTP lib publicKey now next c r =
      { w := Error c.w ("Invalid token: " ++ err.Error) 401, parsed := tokenString :: c.parsed } := by
  have hne : r.HeaderGet "Authorization" ≠ "" := by
    intro h
    rw [h, extractTokenFromHeader_empty] at hx
    simp at hx
  simp [AuthMiddleware.ServeHTTP, hne, hx, hp]

/-- The guard on a header with a token that the parser accepts: `next` is run
on the request that carries the claims. -/
theorem AuthMiddleware_of_parse_ok {lib : JwtLib} {publicKey : RSAPublicKey} {now : Time}
    {c : Conn} {r : Request} {tokenString : String} {token : Token MapClaims}
    (hx : extractTokenFromHeader (r.HeaderGet "Authorization") = .ok tokenString)
    (hp : Parse lib now tokenString (AuthMiddleware.keyFunc publicKey) = .ok token)
    (next : Handler) :
    AuthMiddleware.ServeHTTP lib publicKey now next c r =
      next { c with parsed := tokenString :: c.parsed }
        (r.WithContext (r.ctx.WithValue "user" token.Claims)) := by
  have hne : r.HeaderGet "Authorization" ≠ "" := by
    intro h
    rw [h, extractTokenFromHeader_empty] at hx
    simp at hx
  have hv : token.Valid = true := ParseWithClaims_valid hp
  simp [AuthMiddleware.ServeHTTP, hne, hx, hp, hv]

/-! ## The login callback -/

/-- C1. A callback whose state differs from the issued one returns the error
`state parameter doesn't match` and no user info, and makes no outbound call:
neither the code exchange nor the profile fetch. -/
theorem HandleGoogleCallback_state_mismatch (lib : JwtLib) (s : AuthService) (now₁ now₂ : Time)
    (code state : String) (h : state ≠ GoogleLogin.state) :
    s.HandleGoogleCallback lib now₁ now₂ code state =
      { userInfo := none, err := some "state parameter doesn't match", calls := [] } := by
  have h' : state ≠ "random-state-string" := h
  unfold AuthService.HandleGoogleCallback
  rw [if_pos h']

theorem HandleGoogleCallback_state_mismatch_witness :
    "forged" ≠ GoogleLogin.state ∧
    sampleService.HandleGoogleCallback sampleLib 0 0 "c1" "forged" =
      { userInfo := none, err := some "state parameter doesn't match", calls := [] } :=
  ⟨by decide, HandleGoogleCallback_state_mismatch sampleLib sampleService 0 0 "c1" "forged" (by decide)⟩

/-! ## The session guard -/

/-- C2. On the routes of `SetupRoutes` (engine without middleware of its own),
a GET of the main menu without Authorization header gets the 401 reply of the
guard and then the `MainMenu` handler is run all the same, on the writer that
already carries the 401: with the menu `[1,2]` the reply has status 401 and
the body is the error line followed by the menu. -/
theorem SetupRoutes_main_menu_without_credential (lib : JwtLib) (publicKey : RSAPublicKey)
    (now : Time) (ctl : Controllers) (w : Conn) :
    (SetupRoutes lib (some publicKey) now ctl []).map
        (fun routes => ServeHTTP routes w (menuRequest [])) =
      some (ctl.MainMenu { w with w := Error w.w "Missing Authorization header" 401 }
        (menuRequest [])) ∧
    ((MainMenu "[1,2]" { freshConn with w := Error freshConn.w "Missing Authorization header" 401 }
        (menuRequest [])).w.wroteHeader = some 401 ∧
      (MainMenu "[1,2]" { freshConn with w := Error freshConn.w "Missing Authorization header" 401 }
        (menuRequest [])).w.Body = "Missing Authorization header\n[1,2]\n") := by
  refine ⟨?_, by decide, by decide⟩
  simp [SetupRoutes, AuthMiddleware, ServeHTTP, menuRequest, List.find?, GinContext.Next, WrapH,
    WrapF, AuthMiddleware.ServeHTTP, Request.HeaderGet]

/-- C3. The handler returned by `AuthMiddleware(next)` invokes `next` exactly
when the Authorization header is not empty, a token is extracted from it and
`jwt.Parse` accepts the token; `next` then gets the request whose context holds
the claims of the token under the key `user`. In every other case the reply is
an `http.Error` with status 401 and does not depend on `next`. -/
theorem AuthMiddleware_invokes_next_iff (lib : JwtLib) (publicKey : RSAPublicKey) (now : Time)
    (c : Conn) (r : Request) :
    (∃ tokenString token,
        r.HeaderGet "Authorization" ≠ "" ∧
        extractTokenFromHeader (r.HeaderGet "Authorization") = .ok tokenString ∧
        Parse lib now tokenString (AuthMiddleware.keyFunc publicKey) = .ok token ∧
        (r.WithContext (r.ctx.WithValue "user" token.Claims)).ctx.Value "user" = some token.Claims ∧
        ∀ next : Handler, AuthMiddleware.ServeHTTP lib publicKey now next c r =
          next { c with parsed := tokenString :: c.parsed }
            (r.WithContext (r.ctx.WithValue "user" token.Claims))) ∨
    ((¬ ∃ tokenString token,
        r.HeaderGet "Authorization" ≠ "" ∧
        extractTokenFromHeader (r.HeaderGet "Authorization") = .ok tokenString ∧
        Parse lib now tokenString (AuthMiddleware.keyFunc publicKey) = .ok token) ∧
      ∃ msg parsed, ∀ next : Handler, AuthMiddleware.ServeHTTP lib publicKey now next c r =
        { w := Error c.w msg 401, parsed := parsed }) := by
  by_cases hempty : r.HeaderGet "Authorization" = ""
  · right
    refine ⟨fun ⟨_, _, h, _⟩ => h hempty, "Missing Authorization header", c.parsed, fun next => ?_⟩
    simp [AuthMiddleware.ServeHTTP, hempty]
  · cases hx : extractTokenFromHeader (r.HeaderGet "Authorization") with
    | error err =>
      right
      refine ⟨fun ⟨_, _, _, h, _⟩ => by simp at h, err, c.parsed, fun next => ?_⟩
      simp [AuthMiddleware.ServeHTTP, hempty, hx]
    | ok tokenString =>
      cases hp : Parse lib now tokenString (AuthMiddleware.keyFunc publicKey) with
      | error err =>
        right
        refine ⟨?_, "Invalid token: " ++ err.Error, tokenString :: c.parsed, fun next => ?_⟩
        · rintro ⟨t, tok, _, h₁, h₂⟩
          simp only [Except.ok.injEq] at h₁
          subst h₁
          rw [hp] at h₂
          simp at h₂
        · simp [AuthMiddleware.ServeHTTP, hempty, hx, hp]
      | ok token =>
        left
        have hv : token.Valid = true := ParseWithClaims_valid hp
        refine ⟨tokenString, token, hempty, rfl, hp, ?_, fun next => ?_⟩
        · simp [Request.WithContext, Context.WithValue, Context.Value, List.lookup]
        · simp [AuthMiddleware.ServeHTTP, hempty, hx, hp, hv]

/-- C4. The key function of the guard accepts the RSA methods RS384 and RS512
as well as RS256: it returns the public key, not an error; a token signed
under RS384 passes the guard of the toy instance. -/
theorem keyFunc_accepts_RS384_RS512 (publicKey : RSAPublicKey) (raw : String)
    (header : List (String × Value)) (claims : MapClaims) (sig : Bytes) (next : Handler) :
    AuthMiddleware.keyFunc publicKey (Token.mk raw .RS384 header claims sig false) = .ok publicKey ∧
    AuthMiddleware.keyFunc publicKey (Token.mk raw .RS512 header claims sig false) = .ok publicKey ∧
    AuthMiddleware.ServeHTTP sampleLib sampleKey.PublicKey 5 next freshConn
        (menuRequest [("Authorization", "Bearer RS384.a@b.c.sssssss")]) =
      next { freshConn with parsed := ["RS384.a@b.c.sssssss"] }
        ((menuRequest [("Authorization", "Bearer RS384.a@b.c.sssssss")]).WithContext
          [("user", sampleClaims "a@b.c")]) := by
  refine ⟨rfl, rfl, ?_⟩
  have hx : extractTokenFromHeader
      ((menuRequest [("Authorization", "Bearer RS384.a@b.c.sssssss")]).HeaderGet "Authorization") =
      .ok "RS384.a@b.c.sssssss" := by rfl
  have hp : Parse sampleLib 5 "RS384.a@b.c.sssssss" (AuthMiddleware.keyFunc sampleKey.PublicKey) =
      .ok (Token.mk "RS384.a@b.c.sssssss" .RS384 [("typ", .str "JWT"), ("alg", .str "RS384")]
        (sampleClaims "a@b.c") [7] true) := by rfl
  exact AuthMiddleware_of_parse_ok hx hp next

/-- C5. A token whose header names the method `none`, `HS256`, `HS384` or
`HS512` is rejected whatever its claims and signature: the guard answers 401
without running `next`, and `ValidateJWT` returns an error. -/
theorem alg_substitution_rejected (lib : JwtLib) (unmarshal : String → Except String JWTClaims)
    (publicKey : RSAPublicKey) (now : Time) (c : Conn) (r : Request) (tokenString : String)
    (parts : Parts)
    (hx : extractTokenFromHeader (r.HeaderGet "Authorization") = .ok tokenString)
    (hs : lib.Split tokenString = .ok parts)
    (halg : headerAlg parts.Header = some "none" ∨ headerAlg parts.Header = some "HS256" ∨
      headerAlg parts.Header = some "HS384" ∨ headerAlg parts.Header = some "HS512") :
    (∃ err : JwtError, ∀ next : Handler, AuthMiddleware.ServeHTTP lib publicKey now next c r =
      { w := Error c.w ("Invalid token: " ++ err.Error) 401,
        parsed := tokenString :: c.parsed }) ∧
    ∃ e, ValidateJWT lib unmarshal now tokenString publicKey = .error e := by
  have hm : ∀ alg method, headerAlg parts.Header = some alg → GetSigningMethod alg = some method →
      method = .none ∨ method = .HS256 ∨ method = .HS384 ∨ method = .HS512 := by
    intro alg method ha hg
    rw [ha] at halg
    simp only [Option.some.injEq] at halg
    rcases halg with h | h | h | h <;> subst h
    · left; exact (Option.some.inj hg).symm
    · right; left; exact (Option.some.inj hg).symm
    · right; right; left; exact (Option.some.inj hg).symm
    · right; right; right; exact (Option.some.inj hg).symm
  constructor
  · cases hp : Parse lib now tokenString (AuthMiddleware.keyFunc publicKey) with
    | error err => exact ⟨err, fun next => AuthMiddleware_of_parse_error hx hp next⟩
    | ok token =>
      exfalso
      obtain ⟨parts', claims, alg, method, sig, key, h₁, _, h₃, h₄, _, h₆, _, _, _⟩ :=
        ParseWithClaims_eq_ok_iff.mp hp
      rw [hs] at h₁
      simp only [Except.ok.injEq] at h₁
      subst h₁
      rcases hm alg method h₃ h₄ with h | h | h | h <;> subst h <;>
        simp [AuthMiddleware.keyFunc, SigningMethod.isSigningMethodRSA] at h₆
  · unfold ValidateJWT
    cases hp : ParseWithClaims lib unmarshal now tokenString (fun _ => .ok publicKey) with
    | error err => exact ⟨err.Error, rfl⟩
    | ok token =>
      exfalso
      obtain ⟨parts', claims, alg, method, sig, key, h₁, _, h₃, h₄, _, _, h₇, _, _⟩ :=
        ParseWithClaims_eq_ok_iff.mp hp
      rw [hs] at h₁
      simp only [Except.ok.injEq] at h₁
      subst h₁
      rcases hm alg method h₃ h₄ with h | h | h | h <;> subst h <;>
        simp [SigningMethod.Verify] at h₇

theorem alg_substitution_rejected_witness :
    extractTokenFromHeader
        ((menuRequest [("Authorization", "Bearer HS256.a@b.c.s")]).HeaderGet "Authorization") =
      .ok "HS256.a@b.c.s" ∧
    ((∃ err : JwtError, ∀ next : Handler, AuthMiddleware.ServeHTTP sampleLib sampleKey.PublicKey 5 next
        freshConn (menuRequest [("Authorization", "Bearer HS256.a@b.c.s")]) =
      { w := Error freshConn.w ("Invalid token: " ++ err.Error) 401,
        parsed := "HS256.a@b.c.s" :: freshConn.parsed }) ∧
    ∃ e, ValidateJWT sampleLib sampleUnmarshal 5 "HS256.a@b.c.s" sampleKey.PublicKey = .error e) :=
  ⟨rfl, alg_substitution_rejected sampleLib sampleUnmarshal sampleKey.PublicKey 5 freshConn
    (menuRequest [("Authorization", "Bearer HS256.a@b.c.s")]) "HS256.a@b.c.s"
    { Header := [("typ", .str "JWT"), ("alg", .str "HS256")], claimBytes := "a@b.c",
      signingInput := "HS256.a@b.c", signature := "s" }
    rfl rfl (Or.inr (Or.inl rfl))⟩

/-- A clock reading whose second lies before `e` is before the instant `e`. -/
theorem Before_ofUnix_of_Unix_lt {now : Time} {e : Int} (h : now.Unix < e) :
    now.Before (Time.ofUnix e) = true := by
  unfold Time.Unix at h
  unfold Time.Before Time.ofUnix
  have hS : (0 : Int) < Second := by decide
  have := (Int.ediv_lt_iff_lt_mul hS).mp h
  simpa using this

/-- The default validator accepts the claim set of `generateJWTToken` as long
as the second of the clock is before the expiry. -/
theorem Validate_generated_claims {now₁ now₂ now : Time} {email : String}
    (h : now.Unix < (now₁.Add (2 * Hour)).Unix) :
    Validate (AuthService.generateJWTToken.claims now₁ now₂ email) now = [] := by
  have hb := Before_ofUnix_of_Unix_lt h
  have hexp : List.lookup "exp" (AuthService.generateJWTToken.claims now₁ now₂ email) =
      some (.num (now₁.Add (2 * Hour)).Unix) := by
    simp [AuthService.generateJWTToken.claims, List.lookup]
  have hnbf : List.lookup "nbf" (AuthService.generateJWTToken.claims now₁ now₂ email) = none := by
    simp [AuthService.generateJWTToken.claims, List.lookup]
  simp only [Validate, verifyExpiresAt, verifyNotBefore, Claims.GetExpirationTime,
    Claims.GetNotBefore, MapClaims.parseNumericDate, hexp, hnbf]
  by_cases h0 : (now₁.Add (2 * Hour)).Unix = 0
  · simp [h0]
  · simp [h0, hb]

/-- C6. Round trip of issue and verify: when the library reads back the token
it writes, the token produced by `generateJWTToken(email)`, presented as
`Bearer` credential before its expiry to the guard that holds the public half
of the key, is accepted: `next` is run on the request whose context holds the
issued claims, and their email is the issued email. -/
theorem issued_token_accepted (lib : JwtLib) (s : AuthService) (now₁ now₂ now : Time)
    (c : Conn) (r : Request) (email tokenString : String) (expiry : Int)
    (hlib : lib.RoundTrip s.privateKey
      (NewWithClaims .RS256 (AuthService.generateJWTToken.claims now₁ now₂ email)))
    (hissue : s.generateJWTToken lib now₁ now₂ email = .ok (tokenString, expiry))
    (hauth : r.HeaderGet "Authorization" = "Bearer " ++ tokenString)
    (hnow : now.Unix < (now₁.Add (2 * Hour)).Unix) :
    ∃ claims : MapClaims,
      List.lookup "email" claims = some (.str email) ∧
      (r.WithContext (r.ctx.WithValue "user" claims)).ctx.Value "user" = some claims ∧
      ∀ next : Handler, AuthMiddleware.ServeHTTP lib s.privateKey.PublicKey now next c r =
        next { c with parsed := tokenString :: c.parsed }
          (r.WithContext (r.ctx.WithValue "user" claims)) := by
  have hx : extractTokenFromHeader (r.HeaderGet "Authorization") = .ok tokenString := by
    rw [hauth]; exact extractTokenFromHeader_bearer tokenString
  unfold AuthService.generateJWTToken Token.SignedString at hissue
  simp only [SigningMethod.Sign, NewWithClaims] at hissue
  cases hsign : lib.SignPKCS1v15 s.privateKey .SHA256
      (lib.SigningString [("typ", .str "JWT"), ("alg", .str SigningMethod.RS256.Alg)]
        (AuthService.generateJWTToken.claims now₁ now₂ email)) with
  | error e => simp [hsign] at hissue
  | ok sig =>
    simp only [hsign, Except.ok.injEq, Prod.mk.injEq] at hissue
    obtain ⟨htok, _⟩ := hissue
    obtain ⟨⟨cb, hsplit, hunm⟩, hdec, hver⟩ := hlib sig hsign
    simp only [NewWithClaims] at hsplit hunm hver
    rw [htok] at hsplit
    have hp : Parse lib now tokenString (AuthMiddleware.keyFunc s.privateKey.PublicKey) =
        .ok (Token.mk tokenString .RS256 [("typ", .str "JWT"), ("alg", .str SigningMethod.RS256.Alg)]
          (AuthService.generateJWTToken.claims now₁ now₂ email) sig true) := by
      unfold Parse
      refine ParseWithClaims_eq_ok_iff.mpr ⟨_, _, "RS256", .RS256, sig, s.privateKey.PublicKey,
        hsplit, hunm, rfl, rfl, hdec, rfl, ?_, Validate_generated_claims hnow, rfl⟩
      simp [SigningMethod.Verify, hver]
    refine ⟨AuthService.generateJWTToken.claims now₁ now₂ email, ?_, ?_, fun next =>
      AuthMiddleware_of_parse_ok hx hp next⟩
    · simp [AuthService.generateJWTToken.claims, List.lookup]
    · simp [Request.WithContext, Context.WithValue, Context.Value, List.lookup]

/-- The toy library reads back the token issued to `a@b.c` at time zero. -/
theorem sampleLib_RoundTrip :
    sampleLib.RoundTrip sampleService.privateKey
      (NewWithClaims .RS256 (AuthService.generateJWTToken.claims 0 0 "a@b.c")) := by
  intro sig h
  have hs : sig = [12] := by
    have h' : (Except.ok [12] : Except String Bytes) = .ok sig := h
    simp only [Except.ok.injEq] at h'
    exact h'.symm
  subst hs
  exact ⟨⟨"a@b.c", rfl, rfl⟩, rfl, rfl⟩

theorem issued_token_accepted_witness :
    sampleService.generateJWTToken sampleLib 0 0 "a@b.c" = .ok ("RS256.a@b.c.ssssssssssss", 7200) ∧
    ∃ claims : MapClaims,
      List.lookup "email" claims = some (.str "a@b.c") ∧
      ((menuRequest [("Authorization", "Bearer RS256.a@b.c.ssssssssssss")]).WithContext
        ((menuRequest [("Authorization", "Bearer RS256.a@b.c.ssssssssssss")]).ctx.WithValue
          "user" claims)).ctx.Value "user" = some claims ∧
      ∀ next : Handler, AuthMiddleware.ServeHTTP sampleLib sampleService.privateKey.PublicKey
          (5 * Second) next freshConn
          (menuRequest [("Authorization", "Bearer RS256.a@b.c.ssssssssssss")]) =
        next { freshConn with parsed := "RS256.a@b.c.ssssssssssss" :: freshConn.parsed }
          ((menuRequest [("Authorization", "Bearer RS256.a@b.c.ssssssssssss")]).WithContext
            ((menuRequest [("Authorization", "Bearer RS256.a@b.c.ssssssssssss")]).ctx.WithValue
              "user" claims)) :=
  ⟨rfl, issued_token_accepted sampleLib sampleService 0 0 (5 * Second) freshConn
    (menuRequest [("Authorization", "Bearer RS256.a@b.c.ssssssssssss")]) "a@b.c"
    "RS256.a@b.c.ssssssssssss" 7200 sampleLib_RoundTrip rfl rfl (by decide)⟩

/-! ## Issued claims and expiry -/

/-- Adding two hours moves the Unix second by 7200. -/
theorem Unix_Add_two_hours (t : Time) : (t.Add (2 * Hour)).Unix = t.Unix + 7200 := by
  unfold Time.Add Time.Unix
  have h : (2 * Hour : Int) = 7200 * Second := by decide
  have hS : (Second : Int) ≠ 0 := by decide
  rw [h, Int.add_mul_ediv_right _ _ hS]

/-- The Unix second does not decrease with the clock. -/
theorem Unix_mono {t u : Time} (h : t ≤ u) : t.Unix ≤ u.Unix := by
  unfold Time.Unix
  exact Int.ediv_le_ediv (by decide) h

/-- The claim set of `generateJWTToken`, with the expiry written out. -/
theorem generateJWTToken_claims_eq (now₁ now₂ : Time) (email : String) :
    AuthService.generateJWTToken.claims now₁ now₂ email =
      [("email", .str email), ("exp", .num (now₁.Unix + 7200)), ("iat", .num now₂.Unix)] := by
  simp [AuthService.generateJWTToken.claims, Unix_Add_two_hours]

/-- When `generateJWTToken` returns a token, it is the signed claim set, and the
expiry returned with it is the `exp` claim. -/
theorem generateJWTToken_eq_ok {lib : JwtLib} {s : AuthService} {now₁ now₂ : Time}
    {email tokenString : String} {expiry : Int}
    (h : s.generateJWTToken lib now₁ now₂ email = .ok (tokenString, expiry)) :
    (NewWithClaims .RS256 (AuthService.generateJWTToken.claims now₁ now₂ email)).SignedString
        lib s.privateKey = .ok tokenString ∧
      List.lookup "exp" (AuthService.generateJWTToken.claims now₁ now₂ email) =
        some (.num expiry) := by
  unfold AuthService.generateJWTToken at h
  cases hs : (NewWithClaims .RS256 (AuthService.generateJWTToken.claims now₁ now₂ email)).SignedString
      lib s.privateKey with
  | error e => simp [hs] at h
  | ok tok =>
    simp only [hs, Except.ok.injEq, Prod.mk.injEq] at h
    obtain ⟨h₁, h₂⟩ := h
    subst h₁
    refine ⟨rfl, ?_⟩
    rw [generateJWTToken_claims_eq, ← h₂, Unix_Add_two_hours]
    simp [List.lookup]

/-- C7, as the code has it. The claim set is `email`, `exp` = second of the
first clock reading plus 7200, `iat` = second of the second clock reading; the
expiry returned next to the token is the `exp` claim of the signed claim set;
`exp` is 7200 seconds after `iat` exactly when both readings fall in the same
second, and never more than 7200 seconds after it. -/
theorem generateJWTToken_claims (lib : JwtLib) (s : AuthService) (now₁ now₂ : Time)
    (email : String) :
    AuthService.generateJWTToken.claims now₁ now₂ email =
        [("email", .str email), ("exp", .num (now₁.Unix + 7200)), ("iat", .num now₂.Unix)] ∧
    (∀ tokenString expiry, s.generateJWTToken lib now₁ now₂ email = .ok (tokenString, expiry) →
      (NewWithClaims .RS256 (AuthService.generateJWTToken.claims now₁ now₂ email)).SignedString
          lib s.privateKey = .ok tokenString ∧
        List.lookup "exp" (AuthService.generateJWTToken.claims now₁ now₂ email) =
          some (.num expiry)) ∧
    (∀ exp iat : Int,
      List.lookup "exp" (AuthService.generateJWTToken.claims now₁ now₂ email) = some (.num exp) →
      List.lookup "iat" (AuthService.generateJWTToken.claims now₁ now₂ email) = some (.num iat) →
      (exp = iat + 7200 ↔ now₁.Unix = now₂.Unix) ∧ (now₁ ≤ now₂ → exp ≤ iat + 7200)) := by
  have hc := generateJWTToken_claims_eq now₁ now₂ email
  refine ⟨hc, fun tokenString expiry h => generateJWTToken_eq_ok h, ?_⟩
  intro exp iat hexp hiat
  rw [hc] at hexp hiat
  simp [List.lookup] at hexp hiat
  subst hexp hiat
  exact ⟨by omega, fun h => by have := Unix_mono h; omega⟩

theorem generateJWTToken_claims_witness :
    sampleService.generateJWTToken sampleLib 0 0 "a@b.c" = .ok ("RS256.a@b.c.ssssssssssss", 7200) ∧
    (500 : Time) ≤ 1000000300 ∧
    List.lookup "exp" (AuthService.generateJWTToken.claims 0 0 "a@b.c") = some (.num 7200) ∧
    (7200 : Int) ≤ 1 + 7200 :=
  ⟨rfl, by decide,
    ((generateJWTToken_claims sampleLib sampleService 0 0 "a@b.c").2.1
      "RS256.a@b.c.ssssssssssss" 7200 rfl).2,
    ((generateJWTToken_claims sampleLib sampleService 500 1000000300 "a@b.c").2.2
      7200 1 (by decide) (by decide)).2 (by decide)⟩

/-- C7, as stated, fails: with the first clock reading one nanosecond before
a full second and the second reading on it, `exp` is 7200 and `iat` is 1, so
`exp` is 7199 seconds after `iat`. -/
theorem generateJWTToken_exp_minus_iat_7199 :
    (999999999 : Time) ≤ 1000000000 ∧
    AuthService.generateJWTToken.claims 999999999 1000000000 "a@b.c" =
      [("email", .str "a@b.c"), ("exp", .num 7200), ("iat", .num 1)] ∧
    (7200 : Int) ≠ 1 + 7200 := by
  refine ⟨by decide, by decide, by decide⟩

/-- C8, as the code has it. A token whose `exp` claim is a number other than
zero that lies in the past is rejected by the guard, whatever its signature:
the reply is a 401 and `next` is not run. -/
theorem expired_token_rejected (lib : JwtLib) (publicKey : RSAPublicKey) (now : Time) (c : Conn)
    (r : Request) (tokenString : String) (parts : Parts) (claims : MapClaims) (e : Int)
    (hx : extractTokenFromHeader (r.HeaderGet "Authorization") = .ok tokenString)
    (hs : lib.Split tokenString = .ok parts)
    (hc : lib.UnmarshalMapClaims parts.claimBytes = .ok claims)
    (hexp : List.lookup "exp" claims = some (.num e))
    (he : e ≠ 0)
    (hpast : Time.ofUnix e < now) :
    ∃ err : JwtError, ∀ next : Handler, AuthMiddleware.ServeHTTP lib publicKey now next c r =
      { w := Error c.w ("Invalid token: " ++ err.Error) 401,
        parsed := tokenString :: c.parsed } := by
  cases hp : Parse lib now tokenString (AuthMiddleware.keyFunc publicKey) with
  | error err => exact ⟨err, fun next => AuthMiddleware_of_parse_error hx hp next⟩
  | ok token =>
    exfalso
    obtain ⟨parts', claims', alg, method, sig, key, h₁, h₂, _, _, _, _, _, h₈, _⟩ :=
      ParseWithClaims_eq_ok_iff.mp hp
    rw [hs] at h₁
    simp only [Except.ok.injEq] at h₁
    subst h₁
    rw [hc] at h₂
    simp only [Except.ok.injEq] at h₂
    subst h₂
    have hb : now.Before (Time.ofUnix e) = false := by
      unfold Time.Before
      simp only [decide_eq_false_iff_not, not_lt]
      exact le_of_lt hpast
    simp [Validate, verifyExpiresAt, Claims.GetExpirationTime, MapClaims.parseNumericDate, hexp,
      he, hb] at h₈

theorem expired_token_rejected_witness :
    Time.ofUnix 1 < 5 * Second ∧
    ∃ err : JwtError, ∀ next : Handler, AuthMiddleware.ServeHTTP sampleLib sampleKey.PublicKey
        (5 * Second) next freshConn
        (menuRequest [("Authorization", "Bearer RS256.old@x.org.sssssssssssssssssssssssss")]) =
      { w := Error freshConn.w ("Invalid token: " ++ err.Error) 401,
        parsed := "RS256.old@x.org.sssssssssssssssssssssssss" :: freshConn.parsed } :=
  ⟨by decide, expired_token_rejected sampleLib sampleKey.PublicKey (5 * Second) freshConn
    (menuRequest [("Authorization", "Bearer RS256.old@x.org.sssssssssssssssssssssssss")])
    "RS256.old@x.org.sssssssssssssssssssssssss"
    { Header := [("typ", .str "JWT"), ("alg", .str "RS256")], claimBytes := "old@x.org",
      signingInput := "RS256.old@x.org", signature := "sssssssssssssssssssssssss" }
    (sampleClaims "old@x.org") 1 rfl rfl rfl rfl (by decide) (by decide)⟩

/-- C8, as stated, fails: the token of the toy instance whose `exp` claim is
0, correctly signed under RS256, is presented five seconds after the epoch;
its `exp` lies in the past, and the guard runs `next`. -/
theorem expired_token_with_exp_zero_accepted :
    sampleLib.SignPKCS1v15 sampleKey .SHA256 "RS256.zero@x.org" = .ok [8] ∧
    List.lookup "exp" (sampleClaims "zero@x.org") = some (.num 0) ∧
    Time.ofUnix 0 < 5 * Second ∧
    AuthMiddleware.ServeHTTP sampleLib sampleKey.PublicKey (5 * Second) (MainMenu "[]") freshConn
        (menuRequest [("Authorization", "Bearer RS256.zero@x.org.ssssssss")]) =
      MainMenu "[]" { freshConn with parsed := ["RS256.zero@x.org.ssssssss"] }
        ((menuRequest [("Authorization", "Bearer RS256.zero@x.org.ssssssss")]).WithContext
          [("user", sampleClaims "zero@x.org")]) ∧
    (AuthMiddleware.ServeHTTP sampleLib sampleKey.PublicKey (5 * Second) (MainMenu "[]") freshConn
        (menuRequest [("Authorization", "Bearer RS256.zero@x.org.ssssssss")])).w.wroteHeader =
      some 200 := by
  refine ⟨rfl, rfl, by decide, by rfl, by rfl⟩

/-! ## Header errors -/

/-- The only error of `extractTokenFromHeader` is the format error. -/
theorem extractTokenFromHeader_error {h e : String} (hx : extractTokenFromHeader h = .error e) :
    e = "Authorization header format must be Bearer \x7btoken\x7d" := by
  unfold extractTokenFromHeader at hx
  split at hx
  · split at hx
    · simp only [Except.error.injEq] at hx
      exact hx.symm
    · simp at hx
  · simp only [Except.error.injEq] at hx
    exact hx.symm

/-- A word without space that lower-cases to `bearer`, one space and a token:
the token is extracted. -/
theorem extractTokenFromHeader_of_form (s t : String) (hs : ' ' ∉ s.data)
    (hl : ToLower s = "bearer") : extractTokenFromHeader (s ++ " " ++ t) = .ok t := by
  have h : cut ' ' (s ++ " " ++ t).data = some (s.data, t.data) := by
    have := cut_append ' ' s.data t.data hs
    simpa [String.data_append] using this
  unfold extractTokenFromHeader SplitN
  rw [h]
  simp only [hl, ne_eq, not_true_eq_false, if_false]

/-- C9. With an empty Authorization header the guard answers 401 with the
message `Missing Authorization header`; with a header that is not a word
equal to `bearer` up to case, a space and a token, it answers 401 with the
format message. In both cases no token is handed to `jwt.Parse` and `next` is
not run. -/
theorem AuthMiddleware_header_errors (lib : JwtLib) (publicKey : RSAPublicKey) (now : Time)
    (next : Handler) (c : Conn) (r : Request) :
    (r.HeaderGet "Authorization" = "" →
      AuthMiddleware.ServeHTTP lib publicKey now next c r =
        { w := Error c.w "Missing Authorization header" 401, parsed := c.parsed }) ∧
    (r.HeaderGet "Authorization" ≠ "" →
      (¬ ∃ s t : String, r.HeaderGet "Authorization" = s ++ " " ++ t ∧ ' ' ∉ s.data ∧
        ToLower s = "bearer") →
      AuthMiddleware.ServeHTTP lib publicKey now next c r =
        { w := Error c.w "Authorization header format must be Bearer \x7btoken\x7d" 401,
          parsed := c.parsed }) := by
  constructor
  · intro h
    simp [AuthMiddleware.ServeHTTP, h]
  · intro hne hform
    cases hx : extractTokenFromHeader (r.HeaderGet "Authorization") with
    | ok t =>
      exfalso
      obtain ⟨s, h₁, h₂, h₃⟩ := extractTokenFromHeader_ok hx
      exact hform ⟨s, t, h₁, h₂, h₃⟩
    | error e =>
      have he := extractTokenFromHeader_error hx
      subst he
      simp [AuthMiddleware.ServeHTTP, hne, hx]

theorem AuthMiddleware_header_errors_witness :
    (menuRequest []).HeaderGet "Authorization" = "" ∧
    AuthMiddleware.ServeHTTP sampleLib sampleKey.PublicKey 5 (MainMenu "[]") freshConn
        (menuRequest []) =
      { w := Error freshConn.w "Missing Authorization header" 401, parsed := freshConn.parsed } ∧
    (menuRequest [("Authorization", "Basic abc")]).HeaderGet "Authorization" ≠ "" ∧
    AuthMiddleware.ServeHTTP sampleLib sampleKey.PublicKey 5 (MainMenu "[]") freshConn
        (menuRequest [("Authorization", "Basic abc")]) =
      { w := Error freshConn.w "Authorization header format must be Bearer \x7btoken\x7d" 401,
        parsed := freshConn.parsed } :=
  ⟨rfl,
    (AuthMiddleware_header_errors sampleLib sampleKey.PublicKey 5 (MainMenu "[]") freshConn
      (menuRequest [])).1 rfl,
    by decide,
    (AuthMiddleware_header_errors sampleLib sampleKey.PublicKey 5 (MainMenu "[]") freshConn
      (menuRequest [("Authorization", "Basic abc")])).2 (by decide)
      (by
        rintro ⟨s, t, h₁, h₂, h₃⟩
        have hx := extractTokenFromHeader_of_form s t h₂ h₃
        rw [← h₁] at hx
        have hy : extractTokenFromHeader
            ((menuRequest [("Authorization", "Basic abc")]).HeaderGet "Authorization") =
            .error "Authorization header format must be Bearer \x7btoken\x7d" := rfl
        rw [hy] at hx
        simp at hx)⟩

/-! ## Identity returned by the callback -/

/-- C10, as the code has it. With the matching state: when
`HandleGoogleCallback` succeeds, the code was exchanged for an access token, a
response came back from the userinfo endpoint and its body was decoded, the
returned Email, Name, Picture and VerifiedEmail are those of the decoded
profile, the returned token is the signed claim set whose email is the email
of that profile and whose `exp` is the returned TokenExpiry; when the exchange
fails, or the request to the userinfo endpoint or the decoding of the body
fails, it returns an error and no user info. The status of the userinfo
response is never read: the result is the same whatever the status. When the
endpoint refuses the access token with status 401 and an error object as body,
the body decodes to the empty profile and the login succeeds, with a token for
the email `""`. -/
theorem HandleGoogleCallback_identity (lib : JwtLib) (s : AuthService) (now₁ now₂ : Time)
    (code : String) :
    ((s.HandleGoogleCallback lib now₁ now₂ code GoogleLogin.state).err = none →
      ∃ accessToken resp profile u,
        s.googleOauthConfig.Exchange code = .ok accessToken ∧
        s.googleOauthConfig.Get accessToken = .ok resp ∧
        s.googleOauthConfig.Decode resp.Body = .ok profile ∧
        (s.HandleGoogleCallback lib now₁ now₂ code GoogleLogin.state).userInfo = some u ∧
        u.Email = profile.Email ∧ u.Name = profile.Name ∧ u.Picture = profile.Picture ∧
        u.VerifiedEmail = profile.VerifiedEmail ∧
        (NewWithClaims .RS256
            (AuthService.generateJWTToken.claims now₁ now₂ profile.Email)).SignedString
          lib s.privateKey = .ok u.Token ∧
        List.lookup "email" (AuthService.generateJWTToken.claims now₁ now₂ profile.Email) =
          some (.str profile.Email) ∧
        List.lookup "exp" (AuthService.generateJWTToken.claims now₁ now₂ profile.Email) =
          some (.num u.TokenExpiry)) ∧
    ((∃ e, s.googleOauthConfig.Exchange code = .error e) →
      (s.HandleGoogleCallback lib now₁ now₂ code GoogleLogin.state).userInfo = none ∧
      (s.HandleGoogleCallback lib now₁ now₂ code GoogleLogin.state).err ≠ none) ∧
    (∀ accessToken, s.googleOauthConfig.Exchange code = .ok accessToken →
      ((∃ e, s.googleOauthConfig.Get accessToken = .error e) ∨
        ∃ resp e, s.googleOauthConfig.Get accessToken = .ok resp ∧
          s.googleOauthConfig.Decode resp.Body = .error e) →
      (s.HandleGoogleCallback lib now₁ now₂ code GoogleLogin.state).userInfo = none ∧
      (s.HandleGoogleCallback lib now₁ now₂ code GoogleLogin.state).err ≠ none) ∧
    (∀ (status : Nat → Nat) (state : String),
      AuthService.HandleGoogleCallback lib
          { s with googleOauthConfig :=
              { s.googleOauthConfig with
                Get := fun t => (s.googleOauthConfig.Get t).map
                  (fun resp => { resp with StatusCode := status resp.StatusCode }) } }
          now₁ now₂ code state =
        s.HandleGoogleCallback lib now₁ now₂ code state) ∧
    (refusingProvider.Get "t2" =
        .ok { StatusCode := 401,
              Body := "\x7b\"error\":\x7b\"code\":401,\"status\":\"UNAUTHENTICATED\"\x7d\x7d" } ∧
      AuthService.HandleGoogleCallback sampleLib
          { sampleService with googleOauthConfig := refusingProvider } 0 0 "c1"
          GoogleLogin.state =
        { userInfo := some { Email := "", Name := "", Picture := "", VerifiedEmail := false,
                             Token := "RS256..ssssssssssssssssssssssssssss", TokenExpiry := 7200 },
          err := none, calls := [.exchange "c1", .userinfo "t2"] }) := by
  have hstate : ¬ (GoogleLogin.state ≠ "random-state-string") := fun h => h rfl
  refine ⟨?_, ?_, ?_, ?_, by rfl, by rfl⟩
  · intro herr
    unfold AuthService.HandleGoogleCallback at herr ⊢
    rw [if_neg hstate] at herr ⊢
    cases hex : s.googleOauthConfig.Exchange code with
    | error e =>
      rw [hex] at herr
      by_cases hn : e.isNetError = true <;> simp [hn] at herr
    | ok accessToken =>
      rw [hex] at herr
      simp only [hex]
      unfold AuthService.fetchGoogleUserInfo at herr ⊢
      cases hget : s.googleOauthConfig.Get accessToken with
      | error e => simp [hget] at herr
      | ok resp =>
        simp only [hget] at herr ⊢
        cases hdec : s.googleOauthConfig.Decode resp.Body with
        | error e => simp [hdec] at herr
        | ok profile =>
          simp only [hdec] at herr ⊢
          cases hgen : s.generateJWTToken lib now₁ now₂ profile.Email with
          | error e => simp [hgen] at herr
          | ok te =>
            obtain ⟨tok, expiry⟩ := te
            have hcl := generateJWTToken_eq_ok hgen
            refine ⟨accessToken, resp, profile,
              { profile with Token := tok, TokenExpiry := expiry }, rfl, hget, hdec, ?_, rfl, rfl,
              rfl, rfl, hcl.1, ?_, hcl.2⟩
            · simp [hgen]
            · simp [AuthService.generateJWTToken.claims, List.lookup]
  · rintro ⟨e, hex⟩
    unfold AuthService.HandleGoogleCallback
    rw [if_neg hstate, hex]
    by_cases hn : e.isNetError = true <;> simp [hn]
  · intro accessToken hex hfail
    unfold AuthService.HandleGoogleCallback AuthService.fetchGoogleUserInfo
    rw [if_neg hstate, hex]
    rcases hfail with ⟨e, hget⟩ | ⟨resp, e, hget, hdec⟩
    · simp [hget]
    · simp [hget, hdec]
  · intro status state
    unfold AuthService.HandleGoogleCallback AuthService.fetchGoogleUserInfo
      AuthService.generateJWTToken
    simp only
    by_cases hs : state ≠ "random-state-string"
    · rw [if_pos hs, if_pos hs]
    · rw [if_neg hs, if_neg hs]
      cases hex : s.googleOauthConfig.Exchange code with
      | error e => rfl
      | ok accessToken =>
        simp only
        cases hget : s.googleOauthConfig.Get accessToken with
        | error e => rfl
        | ok resp => rfl

theorem HandleGoogleCallback_identity_witness :
    (sampleService.HandleGoogleCallback sampleLib 0 0 "c1" GoogleLogin.state).err = none ∧
    (sampleService.HandleGoogleCallback sampleLib 0 0 "c1" GoogleLogin.state).userInfo =
      some { Email := "a@b.c", Name := "A", Picture := "p.png", VerifiedEmail := true,
             Token := "RS256.a@b.c.ssssssssssss", TokenExpiry := 7200 } ∧
    (∃ accessToken resp profile u,
        sampleService.googleOauthConfig.Exchange "c1" = .ok accessToken ∧
        sampleService.googleOauthConfig.Get accessToken = .ok resp ∧
        sampleService.googleOauthConfig.Decode resp.Body = .ok profile ∧
        (sampleService.HandleGoogleCallback sampleLib 0 0 "c1" GoogleLogin.state).userInfo =
          some u ∧
        u.Email = profile.Email ∧ u.Name = profile.Name ∧ u.Picture = profile.Picture ∧
        u.VerifiedEmail = profile.VerifiedEmail ∧
        (NewWithClaims .RS256
            (AuthService.generateJWTToken.claims 0 0 profile.Email)).SignedString
          sampleLib sampleService.privateKey = .ok u.Token ∧
        List.lookup "email" (AuthService.generateJWTToken.claims 0 0 profile.Email) =
          some (.str profile.Email) ∧
        List.lookup "exp" (AuthService.generateJWTToken.claims 0 0 profile.Email) =
          some (.num u.TokenExpiry)) ∧
    (sampleService.HandleGoogleCallback sampleLib 0 0 "bad" GoogleLogin.state).userInfo = none ∧
    (sampleService.HandleGoogleCallback sampleLib 0 0 "bad" GoogleLogin.state).err ≠ none :=
  ⟨rfl, rfl, (HandleGoogleCallback_identity sampleLib sampleService 0 0 "c1").1 rfl,
    (HandleGoogleCallback_identity sampleLib sampleService 0 0 "bad").2.1
      ⟨{ msg := "invalid_grant", isNetError := false }, rfl⟩⟩

/-! ## The login completion and the account store -/

/-- The least row of a list is in the list. -/
theorem leastID_mem {l : List User} {u : User} (h : leastID l = some u) : u ∈ l := by
  induction l generalizing u with
  | nil => simp [leastID] at h
  | cons x xs ih =>
    unfold leastID at h
    cases hx : leastID xs with
    | none =>
      simp only [hx, Option.some.injEq] at h
      subst h
      exact List.mem_cons_self _ _
    | some v =>
      simp only [hx] at h
      split at h
      · simp only [Option.some.injEq] at h
        subst h
        exact List.mem_cons_self _ _
      · simp only [Option.some.injEq] at h
        subst h
        exact List.mem_cons_of_mem _ (ih hx)

/-- Only the empty list has no least row. -/
theorem leastID_eq_none {l : List User} (h : leastID l = none) : l = [] := by
  cases l with
  | nil => rfl
  | cons x xs =>
    unfold leastID at h
    cases hx : leastID xs with
    | none => simp [hx] at h
    | some v =>
      simp only [hx] at h
      split at h <;> simp at h

/-- The row found by `First` is a live row of the table that satisfies the
condition. -/
theorem Store.First_some {s : Store} {cond : User → Bool} {u : User}
    (h : s.First cond = some u) : u ∈ s.rows ∧ u.DeletedAt = none ∧ cond u = true := by
  have hm := leastID_mem h
  simp only [Store.live, List.mem_filter, Option.isNone_iff_eq_none] at hm
  exact ⟨hm.1.1, hm.1.2, hm.2⟩

/-- The query string that `GoogleCallback` builds: the six parameters in the
order of their names. -/
theorem GoogleCallback_values_Encode (u : GoogleUserInfo) :
    Values.Encode (GoogleCallback.values u) =
      "email=" ++ QueryEscape u.Email ++ "&name=" ++ QueryEscape u.Name ++ "&picture=" ++
        QueryEscape u.Picture ++ "&token=" ++ QueryEscape u.Token ++ "&token_expiry=" ++
        QueryEscape (toString u.TokenExpiry) ++ "&verified_email=" ++
        (if u.VerifiedEmail then "true" else "false") := by
  have h : Values.Encode (GoogleCallback.values u) =
      "&".intercalate
        [QueryEscape "email" ++ "=" ++ QueryEscape u.Email,
         QueryEscape "name" ++ "=" ++ QueryEscape u.Name,
         QueryEscape "picture" ++ "=" ++ QueryEscape u.Picture,
         QueryEscape "token" ++ "=" ++ QueryEscape u.Token,
         QueryEscape "token_expiry" ++ "=" ++ QueryEscape (toString u.TokenExpiry),
         QueryEscape "verified_email" ++ "=" ++
           QueryEscape (if u.VerifiedEmail then "true" else "false")] := by
    rfl
  have e₁ : QueryEscape "email" = "email" := by decide
  have e₂ : QueryEscape "name" = "name" := by decide
  have e₃ : QueryEscape "picture" = "picture" := by decide
  have e₄ : QueryEscape "token" = "token" := by decide
  have e₅ : QueryEscape "token_expiry" = "token_expiry" := by decide
  have e₆ : QueryEscape "verified_email" = "verified_email" := by decide
  have e₇ : QueryEscape "true" = "true" := by decide
  have e₈ : QueryEscape "false" = "false" := by decide
  rw [h, e₁, e₂, e₃, e₄, e₅, e₆]
  cases u.VerifiedEmail <;>
  · simp only [Bool.false_eq_true, if_false, if_true, e₇, e₈]
    apply String.ext
    simp [String.intercalate, String.intercalate.go, String.data_append]

/-- A successful `CreateIfNotExists` either found the live row of least id
that matches, or found none and appended the new row. -/
theorem CreateIfNotExists_eq_ok {db : Postgres} {email googleID : String} {user u : User}
    {st st' : Store}
    (h : userRepository.CreateIfNotExists db email googleID user st = (.ok u, st')) :
    (st.First (fun x => x.Email == email || x.GoogleID == googleID) = some u ∧ st' = st) ∨
    (st.First (fun x => x.Email == email || x.GoogleID == googleID) = none ∧
      u = { user with ID := st.seq + 1, CreatedAt := db.Now, UpdatedAt := db.Now } ∧
      st' = { rows := st.rows ++
                [{ user with ID := st.seq + 1, CreatedAt := db.Now, UpdatedAt := db.Now }],
              seq := st.seq + 1 }) := by
  unfold userRepository.CreateIfNotExists at h
  cases hf : st.First (fun x => x.Email == email || x.GoogleID == googleID) with
  | some existing =>
    simp only [hf, Prod.mk.injEq, Except.ok.injEq] at h
    exact Or.inl ⟨by rw [h.1], h.2.symm⟩
  | none =>
    simp only [hf] at h
    unfold userRepository.Create at h
    by_cases hd : (st.rows.any (fun x => x.Email == user.Email) ||
        st.rows.any (fun x => x.GoogleID == user.GoogleID)) = true
    · rw [if_pos hd] at h
      simp at h
    · rw [if_neg hd] at h
      simp only [Prod.mk.injEq, Except.ok.injEq] at h
      exact Or.inr ⟨rfl, h.1.symm, h.2.symm⟩

/-- A successful `GetOrCreateUser` on the repository of the database is a
successful `CreateIfNotExists` with the normalised email and the user data
built from the arguments. -/
theorem GetOrCreateUser_eq_ok {std : StdLib} {db : Postgres}
    {email name googleID avatar : String}
    {st st' : Store} {u : User}
    (h : userService.GetOrCreateUser std (NewUserRepository db) email name googleID avatar st =
      (.ok u, st')) :
    userService.IsValidEmail (strings.ToLower std (TrimSpace email)) = true ∧
    userRepository.CreateIfNotExists db (strings.ToLower std (TrimSpace email)) googleID
        { ID := 0, Email := strings.ToLower std (TrimSpace email), Name := TrimSpace name,
          GoogleID := googleID, Avatar := avatar, IsActive := true, CreatedAt := 0,
          UpdatedAt := 0, DeletedAt := none } st = (.ok u, st') := by
  unfold userService.GetOrCreateUser at h
  simp only [NewUserRepository] at h
  by_cases hv : userService.IsValidEmail (strings.ToLower std (TrimSpace email)) = true
  · refine ⟨hv, ?_⟩
    simp only [hv, Bool.not_true, Bool.false_eq_true, if_false] at h
    generalize userRepository.CreateIfNotExists db (strings.ToLower std (TrimSpace email)) googleID
        { ID := 0, Email := strings.ToLower std (TrimSpace email), Name := TrimSpace name,
          GoogleID := googleID, Avatar := avatar, IsActive := true, CreatedAt := 0,
          UpdatedAt := 0, DeletedAt := none } st = res at h ⊢
    obtain ⟨res₁, st₁⟩ := res
    cases res₁ with
    | error e => simp at h
    | ok v =>
      simp only [Prod.mk.injEq, Except.ok.injEq] at h
      rw [h.1, h.2]
  · simp [hv] at h

/-- What `GetOrCreateUser` does when it is called: on success the returned
account is in the table; it is the live account of least id matched by the
normalised email or by the Google id, the table unchanged, or, when none
matched, a new row with the normalised email and the Google id, active. -/
theorem GetOrCreateUser_upserts (std : StdLib) (db : Postgres)
    (email name googleID avatar : String) (st st' : Store) (u : User)
    (h : userService.GetOrCreateUser std (NewUserRepository db) email name googleID avatar st =
      (.ok u, st')) :
    u ∈ st'.rows ∧
    ((st.First (fun x => x.Email == strings.ToLower std (TrimSpace email) ||
          x.GoogleID == googleID) = some u ∧ st' = st) ∨
      (st.First (fun x => x.Email == strings.ToLower std (TrimSpace email) ||
          x.GoogleID == googleID) = none ∧
        st'.rows = st.rows ++ [u] ∧ u.Email = strings.ToLower std (TrimSpace email) ∧
        u.GoogleID = googleID ∧ u.IsActive = true ∧ u.DeletedAt = none)) := by
  have hc := (GetOrCreateUser_eq_ok h).2
  rcases CreateIfNotExists_eq_ok hc with ⟨hf, rfl⟩ | ⟨hf, rfl, rfl⟩
  · exact ⟨(Store.First_some hf).1, Or.inl ⟨hf, rfl⟩⟩
  · exact ⟨by simp, Or.inr ⟨hf, rfl, rfl, rfl, rfl, rfl⟩⟩

/-- C11, as the code has it. The login completion does not reach the user
service: for every callback, `GoogleCallback` returns the package variables,
the table of users among them, as they were, although `GetOrCreateUser` is
written for it. On the toy instance the login of `ann@b.cc` succeeds (the
reply is the redirect, status 303) and the table of users, empty before, is
empty after it; a call of `GetOrCreateUser` with that identity would have
added the account. -/
theorem login_creates_no_account (std : StdLib) (lib : JwtLib) (FRONTEND_REDIRECT : String)
    (now₁ now₂ : Time) (g : ControllerState) (c : Conn) (r : Request) :
    (GoogleCallback std lib FRONTEND_REDIRECT now₁ now₂ g c r).1 = g ∧
    ((AuthService.HandleGoogleCallback sampleLib
          { sampleService with googleOauthConfig := annProvider } 0 0 "c1"
          GoogleLogin.state).userInfo.map (fun u => u.Email) = some "ann@b.cc" ∧
      (GoogleCallback sampleStd sampleLib "https://app.example/cb" 0 0
          { authService := { sampleService with googleOauthConfig := annProvider },
            users := emptyStore } freshConn
          (callbackRequest "c1" GoogleLogin.state)).2.w.wroteHeader = some 303 ∧
      (GoogleCallback sampleStd sampleLib "https://app.example/cb" 0 0
          { authService := { sampleService with googleOauthConfig := annProvider },
            users := emptyStore } freshConn
          (callbackRequest "c1" GoogleLogin.state)).1.users.rows = [] ∧
      (userService.GetOrCreateUser sampleStd (NewUserRepository sampleDb) "ann@b.cc" "Ann" "g-ann"
          "p.png" emptyStore).2.rows =
        [{ ID := 1, Email := "ann@b.cc", Name := "Ann", GoogleID := "g-ann", Avatar := "p.png",
           IsActive := true, CreatedAt := 1000, UpdatedAt := 1000, DeletedAt := none }]) := by
  refine ⟨?_, by rfl, by rfl, by rfl, by rfl⟩
  unfold GoogleCallback
  simp only
  split
  · rfl
  · split <;> rfl

/-- C12. On a successful callback, with a target that `http.Redirect` keeps as
it is (an absolute frontend URL in ASCII) and nothing written before,
`GoogleCallback` answers with status 303 and the Location
`FRONTEND_REDIRECT?query`, where the query has exactly the parameters email,
name, picture, token, token_expiry and verified_email, each with the escaped
field of the user info (`true`/`false`, the expiry in decimal). -/
theorem GoogleCallback_redirect (std : StdLib) (lib : JwtLib) (FRONTEND_REDIRECT : String)
    (now₁ now₂ : Time) (g : ControllerState) (c : Conn) (r : Request) (userInfo : GoogleUserInfo)
    (herr : (g.authService.HandleGoogleCallback lib now₁ now₂ (r.FormValue "code")
      (r.FormValue "state")).err = none)
    (hinfo : (g.authService.HandleGoogleCallback lib now₁ now₂ (r.FormValue "code")
      (r.FormValue "state")).userInfo = some userInfo)
    (hurl : hexEscapeNonASCII (std.Resolve r.Path
        (FRONTEND_REDIRECT ++ "?" ++ Values.Encode (GoogleCallback.values userInfo))) =
      FRONTEND_REDIRECT ++ "?" ++ Values.Encode (GoogleCallback.values userInfo))
    (hfresh : c.w.wroteHeader = none) :
    (GoogleCallback std lib FRONTEND_REDIRECT now₁ now₂ g c r).2.w.wroteHeader = some 303 ∧
    List.lookup "Location"
        (GoogleCallback std lib FRONTEND_REDIRECT now₁ now₂ g c r).2.w.sentHeader =
      some (FRONTEND_REDIRECT ++ "?" ++ Values.Encode (GoogleCallback.values userInfo)) ∧
    Values.Encode (GoogleCallback.values userInfo) =
      "email=" ++ QueryEscape userInfo.Email ++ "&name=" ++ QueryEscape userInfo.Name ++
        "&picture=" ++ QueryEscape userInfo.Picture ++ "&token=" ++ QueryEscape userInfo.Token ++
        "&token_expiry=" ++ QueryEscape (toString userInfo.TokenExpiry) ++ "&verified_email=" ++
        (if userInfo.VerifiedEmail then "true" else "false") := by
  refine ⟨?_, ?_, GoogleCallback_values_Encode userInfo⟩
  · unfold GoogleCallback
    simp only [herr, hinfo, Redirect, hurl]
    split <;> split <;>
      simp [ResponseWriter.Write, ResponseWriter.WriteHeader, ResponseWriter.Set, hfresh]
  · unfold GoogleCallback
    simp only [herr, hinfo, Redirect, hurl]
    split <;> split <;>
      simp [ResponseWriter.Write, ResponseWriter.WriteHeader, ResponseWriter.Set, hfresh,
        List.lookup]

theorem GoogleCallback_redirect_witness :
    (GoogleCallback sampleStd sampleLib "https://app.example/cb" 0 0
        { authService := sampleService, users := emptyStore } freshConn
        (callbackRequest "c1" GoogleLogin.state)).2.w.wroteHeader = some 303 ∧
    List.lookup "Location"
        (GoogleCallback sampleStd sampleLib "https://app.example/cb" 0 0
          { authService := sampleService, users := emptyStore } freshConn
          (callbackRequest "c1" GoogleLogin.state)).2.w.sentHeader =
      some ("https://app.example/cb?email=a%40b.c&name=A&picture=p.png" ++
        "&token=RS256.a%40b.c.ssssssssssss&token_expiry=7200&verified_email=true") :=
  ⟨(GoogleCallback_redirect sampleStd sampleLib "https://app.example/cb" 0 0
      { authService := sampleService, users := emptyStore } freshConn
      (callbackRequest "c1" GoogleLogin.state)
      { Email := "a@b.c", Name := "A", Picture := "p.png", VerifiedEmail := true,
        Token := "RS256.a@b.c.ssssssssssss", TokenExpiry := 7200 } rfl rfl (by decide) rfl).1,
    (GoogleCallback_redirect sampleStd sampleLib "https://app.example/cb" 0 0
      { authService := sampleService, users := emptyStore } freshConn
      (callbackRequest "c1" GoogleLogin.state)
      { Email := "a@b.c", Name := "A", Picture := "p.png", VerifiedEmail := true,
        Token := "RS256.a@b.c.ssssssssssss", TokenExpiry := 7200 } rfl rfl (by decide) rfl).2.1⟩

/-! ## The rate limiter -/

/-- One request through the limiter, by the count in force: zero when the
request comes more than `window` after the last admitted one of the client,
else the stored count. At `limit` or above the request is aborted with 429 and
the last-request time stays; below, the request goes on, the count is raised by
one and the last-request time is the second clock reading. -/
theorem RateLimitMiddleware_step (std : StdLib) (limit window : Int) (ip : String)
    (now₁ now₂ : Time) (st : RateState) (c : GinContext) (eff : Int)
    (heff : (∃ t, st.lastRequest ip = some t ∧ window < now₁ - t ∧ eff = 0) ∨
      ((∀ t, st.lastRequest ip = some t → now₁ - t ≤ window) ∧
        eff = (st.requestCounts ip).getD 0)) :
    (limit ≤ eff →
      (RateLimitMiddleware std limit window ip now₁ now₂ st c).2 =
          c.AbortWithStatusJSON std 429 (.obj (.cons "error" (.str "Rate limit exceeded") .nil)) ∧
        (RateLimitMiddleware std limit window ip now₁ now₂ st c).1.requestCounts ip = some eff ∧
        (RateLimitMiddleware std limit window ip now₁ now₂ st c).1.lastRequest ip =
          st.lastRequest ip) ∧
    (eff < limit →
      (RateLimitMiddleware std limit window ip now₁ now₂ st c).2 = c ∧
        (RateLimitMiddleware std limit window ip now₁ now₂ st c).1.requestCounts ip =
          some (eff + 1) ∧
        (RateLimitMiddleware std limit window ip now₁ now₂ st c).1.lastRequest ip = some now₂) := by
  rcases heff with ⟨t, hl, hw, rfl⟩ | ⟨hw, rfl⟩
  · constructor
    · intro h
      simp [RateLimitMiddleware, hl, hw, h]
    · intro h
      have h' : ¬ limit ≤ 0 := not_le.mpr h
      simp [RateLimitMiddleware, hl, hw, h']
  · cases hl : st.lastRequest ip with
    | none =>
      cases hc : st.requestCounts ip with
      | none =>
        constructor
        · intro h
          simp only [hc, Option.getD_none] at h
          simp [RateLimitMiddleware, hl, hc, h]
        · intro h
          simp only [hc, Option.getD_none] at h
          have h' : ¬ limit ≤ 0 := not_le.mpr h
          simp [RateLimitMiddleware, hl, hc, h']
      | some n =>
        constructor
        · intro h
          simp only [hc, Option.getD_some] at h
          simp [RateLimitMiddleware, hl, hc, h]
        · intro h
          simp only [hc, Option.getD_some] at h
          have h' : ¬ limit ≤ n := not_le.mpr h
          simp [RateLimitMiddleware, hl, hc, h']
    | some t =>
      have hw' : ¬ window < now₁ - t := not_lt.mpr (hw t hl)
      cases hc : st.requestCounts ip with
      | none =>
        constructor
        · intro h
          simp only [hc, Option.getD_none] at h
          simp [RateLimitMiddleware, hl, hc, h, hw']
        · intro h
          simp only [hc, Option.getD_none] at h
          have h' : ¬ limit ≤ 0 := not_le.mpr h
          simp [RateLimitMiddleware, hl, hc, h', hw']
      | some n =>
        constructor
        · intro h
          simp only [hc, Option.getD_some] at h
          simp [RateLimitMiddleware, hl, hc, h, hw']
        · intro h
          simp only [hc, Option.getD_some] at h
          have h' : ¬ limit ≤ n := not_le.mpr h
          simp [RateLimitMiddleware, hl, hc, h', hw']

/-- A request of one client leaves the entries of every other client as they
were. -/
theorem RateLimitMiddleware_other (std : StdLib) (limit window : Int) (ip a : String)
    (now₁ now₂ : Time) (st : RateState) (c : GinContext) (h : a ≠ ip) :
    (RateLimitMiddleware std limit window ip now₁ now₂ st c).1.requestCounts a =
        st.requestCounts a ∧
    (RateLimitMiddleware std limit window ip now₁ now₂ st c).1.lastRequest a =
        st.lastRequest a := by
  unfold RateLimitMiddleware
  simp only
  constructor <;>
  · repeat' split
    all_goals simp [Function.update, h]

/-- One request of a client whose requests all fall within `window` of the
instant `t₀`, after `n` earlier ones: it goes on when `n` is below the limit
and is aborted otherwise; afterwards the count of the client is the smaller of
`n + 1` and the limit, and its last admitted request is not before `t₀`. -/
theorem RateLimitMiddleware_step_within (std : StdLib) (limit window : Int) (a : String)
    (now₁ now₂ : Time) (st : RateState) (c : GinContext) (t₀ : Time) (n : Nat)
    (hL : 0 < limit)
    (hc : st.requestCounts a = if n = 0 then none else some (min (n : Int) limit))
    (h0 : n = 0 → st.lastRequest a = none)
    (h1 : 0 < n → ∃ t, st.lastRequest a = some t ∧ t₀ ≤ t)
    (ht : t₀ ≤ now₂ ∧ now₁ ≤ t₀ + window) :
    ((n : Int) < limit → (RateLimitMiddleware std limit window a now₁ now₂ st c).2 = c) ∧
    (limit ≤ (n : Int) → (RateLimitMiddleware std limit window a now₁ now₂ st c).2 =
      c.AbortWithStatusJSON std 429 (.obj (.cons "error" (.str "Rate limit exceeded") .nil))) ∧
    (RateLimitMiddleware std limit window a now₁ now₂ st c).1.requestCounts a =
      some (min (((n + 1 : Nat) : Int)) limit) ∧
    ∃ t, (RateLimitMiddleware std limit window a now₁ now₂ st c).1.lastRequest a = some t ∧
      t₀ ≤ t := by
  have hno : ∀ t, st.lastRequest a = some t → now₁ - t ≤ window := by
    intro t hl
    rcases Nat.eq_zero_or_pos n with hn | hn
    · rw [h0 hn] at hl
      simp at hl
    · obtain ⟨t', hl', ht'⟩ := h1 hn
      rw [hl'] at hl
      simp only [Option.some.injEq] at hl
      subst hl
      have h₂ := ht.2
      linarith
  obtain ⟨hrej, hadm⟩ := RateLimitMiddleware_step std limit window a now₁ now₂ st c
    ((st.requestCounts a).getD 0) (Or.inr ⟨hno, rfl⟩)
  have heff : (n : Int) < limit → (st.requestCounts a).getD 0 = (n : Int) := by
    intro h
    rw [hc]
    rcases Nat.eq_zero_or_pos n with hn | hn
    · simp [hn]
    · have hn' : n ≠ 0 := Nat.pos_iff_ne_zero.mp hn
      simp only [hn', if_false, Option.getD_some]
      exact min_eq_left (le_of_lt h)
  have heff' : limit ≤ (n : Int) → (st.requestCounts a).getD 0 = limit ∧ 0 < n := by
    intro h
    have hn : 0 < n := by omega
    have hn' : n ≠ 0 := Nat.pos_iff_ne_zero.mp hn
    rw [hc]
    simp only [hn', if_false, Option.getD_some]
    exact ⟨min_eq_right h, hn⟩
  rcases lt_or_le (n : Int) limit with h | h
  · have he := heff h
    obtain ⟨h₁, h₂, h₃⟩ := hadm (by rw [he]; exact h)
    refine ⟨fun _ => h₁, fun h' => absurd h (not_lt.mpr h'), ?_, now₂, h₃, ht.1⟩
    rw [h₂, he]
    congr 1
    push_cast
    exact (min_eq_left (by omega)).symm
  · obtain ⟨he, hn⟩ := heff' h
    obtain ⟨h₁, h₂, h₃⟩ := hrej (by rw [he])
    obtain ⟨t, hl, ht'⟩ := h1 hn
    refine ⟨fun h' => absurd h' (not_lt.mpr h), fun _ => h₁, ?_, t, by rw [h₃, hl], ht'⟩
    rw [h₂, he]
    congr 1
    push_cast
    exact (min_eq_right (by omega)).symm

/-- The state of the limiter after a sequence of requests in which those of
the client `a` all fall within `window` of `t₀`: the count of `a` is the
smaller of the limit and the number of its requests so far. -/
theorem RateLimitMiddleware_run_within (std : StdLib) (limit window : Int) (a : String)
    (c : GinContext) (t₀ : Time) (hL : 0 < limit) :
    ∀ (l : List Arrival) (st : RateState) (n : Nat),
      (st.requestCounts a = if n = 0 then none else some (min (n : Int) limit)) →
      (n = 0 → st.lastRequest a = none) →
      (0 < n → ∃ t, st.lastRequest a = some t ∧ t₀ ≤ t) →
      (∀ x ∈ l, x.ip = a → t₀ ≤ x.now₂ ∧ x.now₁ ≤ t₀ + window) →
      ((RateLimitMiddleware.run std limit window c st l).requestCounts a =
          if n + (l.filter (fun x => x.ip == a)).length = 0 then none
          else some (min ((n + (l.filter (fun x => x.ip == a)).length : Nat) : Int) limit)) ∧
      (n + (l.filter (fun x => x.ip == a)).length = 0 →
        (RateLimitMiddleware.run std limit window c st l).lastRequest a = none) ∧
      (0 < n + (l.filter (fun x => x.ip == a)).length →
        ∃ t, (RateLimitMiddleware.run std limit window c st l).lastRequest a = some t ∧
          t₀ ≤ t) := by
  intro l
  induction l with
  | nil =>
    intro st n hc h0 h1 _
    simpa [RateLimitMiddleware.run] using ⟨hc, h0, h1⟩
  | cons x xs ih =>
    intro st n hc h0 h1 ht
    have htx : ∀ y ∈ xs, y.ip = a → t₀ ≤ y.now₂ ∧ y.now₁ ≤ t₀ + window :=
      fun y hy => ht y (List.mem_cons_of_mem _ hy)
    by_cases hx : x.ip = a
    · obtain ⟨_, _, h₃, h₄⟩ := RateLimitMiddleware_step_within std limit window a x.now₁ x.now₂
        st c t₀ n hL hc h0 h1 (ht x (List.mem_cons_self _ _) hx)
      have hn : n + 1 ≠ 0 := Nat.succ_ne_zero n
      have := ih (RateLimitMiddleware std limit window x.ip x.now₁ x.now₂ st c).1 (n + 1)
        (by rw [hx, h₃]; simp [hn]) (fun h => absurd h hn) (fun _ => by rw [hx]; exact h₄) htx
      have hlen : n + (List.filter (fun y => y.ip == a) (x :: xs)).length =
          n + 1 + (List.filter (fun y => y.ip == a) xs).length := by
        simp [List.filter, hx]
        omega
      simp only [RateLimitMiddleware.run]
      rw [hlen]
      exact this
    · obtain ⟨h₁, h₂⟩ := RateLimitMiddleware_other std limit window x.ip a x.now₁ x.now₂ st c
        (fun h => hx h.symm)
      have := ih (RateLimitMiddleware std limit window x.ip x.now₁ x.now₂ st c).1 n
        (by rw [h₁]; exact hc) (fun h => by rw [h₂]; exact h0 h)
        (fun h => by rw [h₂]; exact h1 h) htx
      have hb : (x.ip == a) = false := by simp [hx]
      have hlen : n + (List.filter (fun y => y.ip == a) (x :: xs)).length =
          n + (List.filter (fun y => y.ip == a) xs).length := by
        simp [List.filter, hb]
      simp only [RateLimitMiddleware.run]
      rw [hlen]
      exact this

/-- C13. With `RateLimitMiddleware(100, time.Minute)` and a client address
without entry in the limiter: in every sequence of requests, served one after
the other, in which those of the client all fall within one minute, the k-th
request of the client goes on to the next handler for every k up to 100, and
the 101st and every later one is aborted with status 429. -/
theorem RateLimitMiddleware_100_per_minute (std : StdLib) (c : GinContext) (st₀ : RateState)
    (a : String) (t₀ : Time) (pre : List Arrival) (req : Arrival)
    (hcount : st₀.requestCounts a = none) (hlast : st₀.lastRequest a = none)
    (hreq : req.ip = a)
    (htime : ∀ x ∈ pre ++ [req], x.ip = a → t₀ ≤ x.now₂ ∧ x.now₁ ≤ t₀ + 60 * Second) :
    ((pre.filter (fun x => x.ip == a)).length + 1 ≤ 100 →
      (RateLimitMiddleware std 100 (60 * Second) req.ip req.now₁ req.now₂
        (RateLimitMiddleware.run std 100 (60 * Second) c st₀ pre) c).2 = c) ∧
    (100 < (pre.filter (fun x => x.ip == a)).length + 1 →
      (RateLimitMiddleware std 100 (60 * Second) req.ip req.now₁ req.now₂
        (RateLimitMiddleware.run std 100 (60 * Second) c st₀ pre) c).2 =
      c.AbortWithStatusJSON std 429 (.obj (.cons "error" (.str "Rate limit exceeded") .nil))) ∧
    (c.Writer.w.wroteHeader = none →
      (c.AbortWithStatusJSON std 429
        (.obj (.cons "error" (.str "Rate limit exceeded") .nil))).Writer.w.wroteHeader =
          some 429 ∧
      (c.AbortWithStatusJSON std 429
        (.obj (.cons "error" (.str "Rate limit exceeded") .nil))).aborted = true) := by
  have hpre : ∀ x ∈ pre, x.ip = a → t₀ ≤ x.now₂ ∧ x.now₁ ≤ t₀ + 60 * Second :=
    fun x hx => htime x (List.mem_append_left _ hx)
  obtain ⟨h₁, h₂, h₃⟩ := RateLimitMiddleware_run_within std 100 (60 * Second) a c t₀ (by decide)
    pre st₀ 0 (by simpa using hcount) (fun _ => hlast) (fun h => absurd h (lt_irrefl 0)) hpre
  simp only [Nat.zero_add] at h₁ h₂ h₃
  obtain ⟨hadm, hrej, _, _⟩ := RateLimitMiddleware_step_within std 100 (60 * Second) a req.now₁
    req.now₂ (RateLimitMiddleware.run std 100 (60 * Second) c st₀ pre) c t₀
    (pre.filter (fun x => x.ip == a)).length (by decide) h₁ h₂ h₃
    (htime req (List.mem_append_right _ (List.mem_singleton_self _)) hreq)
  rw [hreq]
  refine ⟨fun h => hadm (by omega), fun h => hrej (by omega), fun hw => ?_⟩
  by_cases hct : (List.lookup "Content-Type" c.Writer.w.Header).isSome = true <;>
    simp [GinContext.AbortWithStatusJSON, ResponseWriter.WriteHeader, ResponseWriter.Write,
      ResponseWriter.Set, hw, hct]

theorem RateLimitMiddleware_100_per_minute_witness :
    ([({ ip := "a", now₁ := 0, now₂ := 0 } : Arrival)].filter (fun x => x.ip == "a")).length + 1
      ≤ 100 ∧
    (RateLimitMiddleware sampleStd 100 (60 * Second) "a" 5 5
      (RateLimitMiddleware.run sampleStd 100 (60 * Second) freshContext freshRate
        [{ ip := "a", now₁ := 0, now₂ := 0 }]) freshContext).2 = freshContext :=
  ⟨by decide,
    (RateLimitMiddleware_100_per_minute sampleStd freshContext freshRate "a" 0
      [{ ip := "a", now₁ := 0, now₂ := 0 }] { ip := "a", now₁ := 5, now₂ := 5 } rfl rfl rfl
      (by decide)).1 (by decide)⟩

/-- C14, as the code has it. The limiter counts the requests of a client that
it has let through and restarts the count when a request comes more than
`window` after the last request of the client that it let through, not after
the first one of a window: such a request goes on with the count restarted at 1
(for a limit above zero). Without restart a request goes on exactly when the
count is below the limit, and is aborted with 429 otherwise, the count and the
last-request time unchanged. -/
theorem RateLimitMiddleware_restarts_after_idle (std : StdLib) (limit window : Int) (ip : String)
    (now₁ now₂ : Time) (st : RateState) (c : GinContext) :
    (∀ t, st.lastRequest ip = some t → window < now₁ - t → 0 < limit →
      (RateLimitMiddleware std limit window ip now₁ now₂ st c).2 = c ∧
      (RateLimitMiddleware std limit window ip now₁ now₂ st c).1.requestCounts ip = some 1 ∧
      (RateLimitMiddleware std limit window ip now₁ now₂ st c).1.lastRequest ip = some now₂) ∧
    ((∀ t, st.lastRequest ip = some t → now₁ - t ≤ window) →
      ((st.requestCounts ip).getD 0 < limit →
        (RateLimitMiddleware std limit window ip now₁ now₂ st c).2 = c ∧
        (RateLimitMiddleware std limit window ip now₁ now₂ st c).1.requestCounts ip =
          some ((st.requestCounts ip).getD 0 + 1) ∧
        (RateLimitMiddleware std limit window ip now₁ now₂ st c).1.lastRequest ip = some now₂) ∧
      (limit ≤ (st.requestCounts ip).getD 0 →
        (RateLimitMiddleware std limit window ip now₁ now₂ st c).2 =
          c.AbortWithStatusJSON std 429
            (.obj (.cons "error" (.str "Rate limit exceeded") .nil)) ∧
        (RateLimitMiddleware std limit window ip now₁ now₂ st c).1.requestCounts ip =
          some ((st.requestCounts ip).getD 0) ∧
        (RateLimitMiddleware std limit window ip now₁ now₂ st c).1.lastRequest ip =
          st.lastRequest ip)) := by
  constructor
  · intro t hl hw hL
    have h := (RateLimitMiddleware_step std limit window ip now₁ now₂ st c 0
      (Or.inl ⟨t, hl, hw, rfl⟩)).2 hL
    simpa using h
  · intro hw
    have h := RateLimitMiddleware_step std limit window ip now₁ now₂ st c
      ((st.requestCounts ip).getD 0) (Or.inr ⟨hw, rfl⟩)
    exact ⟨h.2, h.1⟩

theorem RateLimitMiddleware_restarts_after_idle_witness :
    (freshRate.lastRequest "a" = none ∧ (freshRate.requestCounts "a").getD 0 < 2 ∧
      (RateLimitMiddleware sampleStd 2 (60 * Second) "a" 0 0 freshRate freshContext).2 =
        freshContext ∧
      (RateLimitMiddleware sampleStd 2 (60 * Second) "a" 0 0 freshRate
        freshContext).1.requestCounts "a" = some ((freshRate.requestCounts "a").getD 0 + 1) ∧
      (RateLimitMiddleware sampleStd 2 (60 * Second) "a" 0 0 freshRate
        freshContext).1.lastRequest "a" = some 0) ∧
    ((RateLimitMiddleware.run sampleStd 2 (60 * Second) freshContext freshRate
        [{ ip := "a", now₁ := 0, now₂ := 0 }, { ip := "a", now₁ := 1, now₂ := 1 }]).lastRequest
        "a" = some 1 ∧
      60 * Second < 100 * Second - 1 ∧
      (RateLimitMiddleware sampleStd 2 (60 * Second) "a" (100 * Second) (100 * Second)
        (RateLimitMiddleware.run sampleStd 2 (60 * Second) freshContext freshRate
          [{ ip := "a", now₁ := 0, now₂ := 0 }, { ip := "a", now₁ := 1, now₂ := 1 }])
        freshContext).1.requestCounts "a" = some 1) :=
  ⟨⟨rfl, by decide,
      ((RateLimitMiddleware_restarts_after_idle sampleStd 2 (60 * Second) "a" 0 0 freshRate
        freshContext).2 (fun t h => by simp [freshRate] at h)).1 (by decide)⟩,
    rfl, by decide,
    ((RateLimitMiddleware_restarts_after_idle sampleStd 2 (60 * Second) "a" (100 * Second)
      (100 * Second)
      (RateLimitMiddleware.run sampleStd 2 (60 * Second) freshContext freshRate
        [{ ip := "a", now₁ := 0, now₂ := 0 }, { ip := "a", now₁ := 1, now₂ := 1 }])
      freshContext).1 1 (by decide) (by decide) (by decide)).2.1⟩

/-- C14, as stated, fails: with limit 2 and a window of 60 seconds, a client
sends requests at 0 s, 50 s and 100 s. The third comes 100 s after the first
request counted, more than the window, and no stretch of 60 seconds holds more
than two of the requests; it is aborted with 429, because it comes 50 s after
the last request let through. -/
theorem third_request_rejected_after_window :
    60 * Second < 100 * Second - 0 ∧
    (RateLimitMiddleware sampleStd 2 (60 * Second) "a" (100 * Second) (100 * Second)
      (RateLimitMiddleware.run sampleStd 2 (60 * Second) freshContext freshRate
        [{ ip := "a", now₁ := 0, now₂ := 0 },
         { ip := "a", now₁ := 50 * Second, now₂ := 50 * Second }]) freshContext).2.aborted =
      true ∧
    (RateLimitMiddleware sampleStd 2 (60 * Second) "a" (100 * Second) (100 * Second)
      (RateLimitMiddleware.run sampleStd 2 (60 * Second) freshContext freshRate
        [{ ip := "a", now₁ := 0, now₂ := 0 },
         { ip := "a", now₁ := 50 * Second, now₂ := 50 * Second }])
      freshContext).2.Writer.w.wroteHeader = some 429 := by
  refine ⟨by decide, by decide, by decide⟩

/-! ## Pagination -/

/-- The service hands the page on as it is when it is positive, as 1
otherwise, and the limit as it is from 1 to 100, as 10 otherwise. -/
theorem userService_GetAllUsers_eq {σ : Type} (userRepo : UserRepository σ) (page limit : Int)
    (st : σ) :
    userService.GetAllUsers userRepo page limit st =
      match userRepo.GetAll (if page ≤ 0 then 1 else page)
          (if limit ≤ 0 ∨ 100 < limit then 10 else limit) st with
      | .error err => .error ("failed to get users: " ++ err)
      | .ok (users, total) => .ok (users, total) := by
  rfl

/-- The same for the search, whose keyword is trimmed and must not be blank. -/
theorem userService_SearchUsers_eq {σ : Type} (userRepo : UserRepository σ) (keyword : String)
    (page limit : Int) (st : σ) (hk : TrimSpace keyword ≠ "") :
    userService.SearchUsers userRepo keyword page limit st =
      match userRepo.Search (TrimSpace keyword) (if page ≤ 0 then 1 else page)
          (if limit ≤ 0 ∨ 100 < limit then 10 else limit) st with
      | .error err => .error ("failed to search users: " ++ err)
      | .ok (users, total) => .ok (users, total) := by
  unfold userService.SearchUsers
  simp only [hk, if_false]

/-- C15, as the code has it. A requested limit above 100 is not capped at 100
but replaced by 10: `GetAllUsers` and `SearchUsers` query the repository with
limit 10; a requested limit from 1 to 100 is handed on unchanged. -/
theorem userService_limit (σ : Type) (userRepo : UserRepository σ) (keyword : String)
    (page limit : Int) (st : σ) (hk : TrimSpace keyword ≠ "") :
    (100 < limit →
      userService.GetAllUsers userRepo page limit st =
        (match userRepo.GetAll (if page ≤ 0 then 1 else page) 10 st with
          | .error err => .error ("failed to get users: " ++ err)
          | .ok (users, total) => .ok (users, total)) ∧
      userService.SearchUsers userRepo keyword page limit st =
        (match userRepo.Search (TrimSpace keyword) (if page ≤ 0 then 1 else page) 10 st with
          | .error err => .error ("failed to search users: " ++ err)
          | .ok (users, total) => .ok (users, total))) ∧
    (1 ≤ limit → limit ≤ 100 →
      userService.GetAllUsers userRepo page limit st =
        (match userRepo.GetAll (if page ≤ 0 then 1 else page) limit st with
          | .error err => .error ("failed to get users: " ++ err)
          | .ok (users, total) => .ok (users, total)) ∧
      userService.SearchUsers userRepo keyword page limit st =
        (match userRepo.Search (TrimSpace keyword) (if page ≤ 0 then 1 else page) limit st with
          | .error err => .error ("failed to search users: " ++ err)
          | .ok (users, total) => .ok (users, total))) := by
  constructor
  · intro h
    have hl : (if limit ≤ 0 ∨ 100 < limit then (10 : Int) else limit) = 10 := by
      rw [if_pos (Or.inr h)]
    rw [userService_GetAllUsers_eq, userService_SearchUsers_eq _ _ _ _ _ hk, hl]
    exact ⟨rfl, rfl⟩
  · intro h₁ h₂
    have hl : (if limit ≤ 0 ∨ 100 < limit then (10 : Int) else limit) = limit := by
      rw [if_neg]
      omega
    rw [userService_GetAllUsers_eq, userService_SearchUsers_eq _ _ _ _ _ hk, hl]
    exact ⟨rfl, rfl⟩

theorem userService_limit_witness :
    TrimSpace "ann" ≠ "" ∧
    userService.GetAllUsers echoRepo 2 150 () =
      (match echoRepo.GetAll (if (2 : Int) ≤ 0 then 1 else 2) 10 () with
        | .error err => .error ("failed to get users: " ++ err)
        | .ok (users, total) => .ok (users, total)) ∧
    userService.GetAllUsers echoRepo 2 100 () =
      (match echoRepo.GetAll (if (2 : Int) ≤ 0 then 1 else 2) 100 () with
        | .error err => .error ("failed to get users: " ++ err)
        | .ok (users, total) => .ok (users, total)) :=
  ⟨by decide,
    ((userService_limit Unit echoRepo "ann" 2 150 () (by decide)).1 (by decide)).1,
    ((userService_limit Unit echoRepo "ann" 2 100 () (by decide)).2 (by decide) (by decide)).1⟩

/-- C15, as stated, fails: asked for 150 users a page, `GetAllUsers` and
`SearchUsers` query the repository with page 2 and limit 10, not limit 100
(the toy repository answers with the total `1000 * page + limit`). -/
theorem limit_above_100_becomes_10 :
    userService.GetAllUsers echoRepo 2 150 () = .ok ([], 2010) ∧
    userService.SearchUsers echoRepo "ann" 2 150 () = .ok ([], 2010) ∧
    echoRepo.GetAll 2 100 () = .ok ([], 2100) ∧
    echoRepo.Search "ann" 2 100 () = .ok ([], 2100) := by
  refine ⟨by rfl, by rfl, by rfl, by rfl⟩

/-- The page used for a parameter that `strconv.Atoi` refuses, or that is not
positive, is 1; a positive one is used as it is. -/
theorem GetAllUsers_page_eq (pageStr : String) :
    ((∃ e, Atoi pageStr = .error e) ∨ (∃ v, Atoi pageStr = .ok v ∧ v ≤ 0) →
      GetAllUsers.page pageStr = 1) ∧
    (∀ v, Atoi pageStr = .ok v → 0 < v → GetAllUsers.page pageStr = v) := by
  unfold GetAllUsers.page
  constructor
  · rintro (⟨e, h⟩ | ⟨v, h, hv⟩)
    · rw [h]
    · rw [h]
      simp [hv]
  · intro v h hv
    rw [h]
    simp [not_le.mpr hv]

/-- The limit used for a parameter that `strconv.Atoi` refuses, or that is not
positive, is 10; a positive one is used as it is. -/
theorem GetAllUsers_limit_eq (limitStr : String) :
    ((∃ e, Atoi limitStr = .error e) ∨ (∃ v, Atoi limitStr = .ok v ∧ v ≤ 0) →
      GetAllUsers.limit limitStr = 10) ∧
    (∀ v, Atoi limitStr = .ok v → 0 < v → GetAllUsers.limit limitStr = v) := by
  unfold GetAllUsers.limit
  constructor
  · rintro (⟨e, h⟩ | ⟨v, h, hv⟩)
    · rw [h]
    · rw [h]
      simp [hv]
  · intro v h hv
    rw [h]
    simp [not_le.mpr hv]

/-- The page and the limit of the handlers are positive. -/
theorem GetAllUsers_page_limit_pos (pageStr limitStr : String) :
    0 < GetAllUsers.page pageStr ∧ 0 < GetAllUsers.limit limitStr := by
  unfold GetAllUsers.page GetAllUsers.limit
  constructor
  · split
    · decide
    · split
      · decide
      · omega
  · split
    · decide
    · split
      · decide
      · omega

/-- A value in the range of `int64` is not changed by wrapping. -/
theorem wrapInt64_of_range {x : Int} (h₁ : -9223372036854775808 ≤ x)
    (h₂ : x ≤ 9223372036854775807) : wrapInt64 x = x := by
  unfold wrapInt64
  rw [Int.emod_eq_of_lt (by omega) (by omega)]
  omega

/-- Without overflow of the sum the local `totalPages` is the quotient of
`total + limit - 1` by `limit`. -/
theorem GetAllUsers_totalPages_eq {total limit : Int} (h0 : 0 ≤ total) (hl : 0 < limit)
    (hfit : total + limit ≤ 9223372036854775807) :
    GetAllUsers.totalPages total limit = (total + limit - 1) / limit := by
  unfold GetAllUsers.totalPages
  rw [@wrapInt64_of_range (total + limit) (by omega) (by omega),
    @wrapInt64_of_range (total + limit - 1) (by omega) (by omega),
    Int.tdiv_eq_ediv (by omega) (by omega)]
  apply wrapInt64_of_range
  · have := @Int.ediv_nonneg (total + limit - 1) limit (by omega) (by omega)
    omega
  · have : (total + limit - 1) / limit ≤ total + limit - 1 :=
      Int.ediv_le_self _ (by omega)
    omega

/-- C17, as the code has it. For every total from 0 and every limit above 0
whose sum does not overflow an `int64`, `total_pages` is
`(total + limit - 1) / limit`, the ceiling of total / limit; total 25 with
limit 10 gives 3 and total 0 gives 0. -/
theorem totalPages_ceiling (total limit : Int) (h0 : 0 ≤ total) (hl : 0 < limit)
    (hfit : total + limit ≤ 9223372036854775807) :
    GetAllUsers.totalPages total limit = (total + limit - 1) / limit ∧
    ⌈(total : ℚ) / (limit : ℚ)⌉ = GetAllUsers.totalPages total limit ∧
    GetAllUsers.totalPages 25 10 = 3 ∧
    GetAllUsers.totalPages 0 limit = 0 := by
  have heq := GetAllUsers_totalPages_eq h0 hl hfit
  refine ⟨heq, ?_, by decide, ?_⟩
  · rw [heq, Int.ceil_eq_iff]
    have hq : (0 : ℚ) < (limit : ℚ) := by exact_mod_cast hl
    have h₁ : (total + limit - 1) / limit * limit ≤ total + limit - 1 :=
      Int.ediv_mul_le _ (by omega)
    have h₂ : total + limit - 1 < ((total + limit - 1) / limit + 1) * limit :=
      Int.lt_ediv_add_one_mul_self _ hl
    constructor
    · rw [lt_div_iff₀ hq]
      have : ((total + limit - 1) / limit - 1) * limit < total := by nlinarith
      exact_mod_cast this
    · rw [div_le_iff₀ hq]
      have : total ≤ (total + limit - 1) / limit * limit := by nlinarith
      exact_mod_cast this
  · rw [GetAllUsers_totalPages_eq (le_refl 0) hl (by omega)]
    simp only [zero_add]
    exact Int.ediv_eq_zero_of_lt (by omega) (by omega)

theorem totalPages_ceiling_witness :
    (0 : Int) ≤ 25 ∧ (0 : Int) < 10 ∧ GetAllUsers.totalPages 25 10 = (25 + 10 - 1) / 10 ∧
    ⌈((25 : Int) : ℚ) / ((10 : Int) : ℚ)⌉ = GetAllUsers.totalPages 25 10 :=
  ⟨by decide, by decide, (totalPages_ceiling 25 10 (by decide) (by decide) (by decide)).1,
    (totalPages_ceiling 25 10 (by decide) (by decide) (by decide)).2.1⟩

/-- C17, as stated, fails: the request `page=4&limit=9223372036854775807` on a
table of 25 users is answered with limit 9223372036854775807, total 25 and
`total_pages` 0, where the ceiling of 25 / 9223372036854775807 is 1: the sum
`total + limit` overflows. -/
theorem totalPages_overflow :
    (GetAllUsers sampleStd (NewUserRepository sampleDb) store25 freshConn
        (usersRequest [("page", "4"), ("limit", "9223372036854775807")])).w.Body =
      "\x7b\"data\":\x7b\"limit\":9223372036854775807,\"page\":4,\"total\":25," ++
        "\"total_pages\":0,\"users\":[]\x7d,\"success\":true\x7d\n" ∧
    GetAllUsers.totalPages 25 9223372036854775807 = 0 ∧
    ⌈((25 : Int) : ℚ) / ((9223372036854775807 : Int) : ℚ)⌉ = 1 := by
  refine ⟨by decide, by decide, ?_⟩
  rw [Int.ceil_eq_iff]
  constructor <;> norm_num

/-! ## Idempotence of `GetOrCreateUser` -/

/-- A valid email and a successful `CreateIfNotExists` make a successful
`GetOrCreateUser`. -/
theorem GetOrCreateUser_of_CreateIfNotExists {std : StdLib} {db : Postgres}
    {email name googleID avatar : String}
    {st st' : Store} {u : User}
    (hv : userService.IsValidEmail (strings.ToLower std (TrimSpace email)) = true)
    (hc : userRepository.CreateIfNotExists db (strings.ToLower std (TrimSpace email)) googleID
        { ID := 0, Email := strings.ToLower std (TrimSpace email), Name := TrimSpace name,
          GoogleID := googleID, Avatar := avatar, IsActive := true, CreatedAt := 0,
          UpdatedAt := 0, DeletedAt := none } st = (.ok u, st')) :
    userService.GetOrCreateUser std (NewUserRepository db) email name googleID avatar st =
      (.ok u, st') := by
  unfold userService.GetOrCreateUser
  simp only [NewUserRepository, hv, Bool.not_true, Bool.false_eq_true, if_false, hc]

/-- A row found by `CreateIfNotExists` is returned with the table unchanged. -/
theorem CreateIfNotExists_of_First {db : Postgres} {email googleID : String} {user u : User}
    {st : Store}
    (h : st.First (fun x => x.Email == email || x.GoogleID == googleID) = some u) :
    userRepository.CreateIfNotExists db email googleID user st = (.ok u, st) := by
  unfold userRepository.CreateIfNotExists
  rw [h]

/-- C18, as the code has it. Two successive calls of `GetOrCreateUser` with
the same email, up to case and surrounding whitespace, and the same Google id:
when the first succeeds, the second returns the same account and leaves the
table as the first left it, whatever the names and avatars. -/
theorem GetOrCreateUser_idempotent (std : StdLib) (db₁ db₂ : Postgres) (st st₁ : Store)
    (email₁ email₂ name₁ name₂ googleID avatar₁ avatar₂ : String) (u₁ : User)
    (hemail : strings.ToLower std (TrimSpace email₁) = strings.ToLower std (TrimSpace email₂))
    (h₁ : userService.GetOrCreateUser std (NewUserRepository db₁) email₁ name₁ googleID avatar₁ st =
      (.ok u₁, st₁)) :
    userService.GetOrCreateUser std (NewUserRepository db₂) email₂ name₂ googleID avatar₂ st₁ =
      (.ok u₁, st₁) := by
  obtain ⟨hv, hc⟩ := GetOrCreateUser_eq_ok h₁
  rw [hemail] at hv hc
  apply GetOrCreateUser_of_CreateIfNotExists hv
  apply CreateIfNotExists_of_First
  rcases CreateIfNotExists_eq_ok hc with ⟨hf, rfl⟩ | ⟨hf, hu, rfl⟩
  · exact hf
  · have hnil := leastID_eq_none hf
    have hu₁ : u₁.DeletedAt = none ∧ u₁.Email = strings.ToLower std (TrimSpace email₂) := by
      rw [hu]
      exact ⟨rfl, rfl⟩
    unfold Store.First Store.live
    simp only [Store.live] at hnil
    simp only [List.filter_append, hnil, List.nil_append]
    rw [← hu]
    simp [List.filter, hu₁.1, hu₁.2, leastID]

theorem GetOrCreateUser_idempotent_witness :
    strings.ToLower sampleStd (TrimSpace " Ä@B.cc ") =
      strings.ToLower sampleStd (TrimSpace "ä@b.cc") ∧
    userService.GetOrCreateUser sampleStd (NewUserRepository sampleDb) " Ä@B.cc " "A" "G1" ""
        emptyStore =
      (.ok { ID := 1, Email := "ä@b.cc", Name := "A", GoogleID := "G1", Avatar := "",
             IsActive := true, CreatedAt := 1000, UpdatedAt := 1000, DeletedAt := none },
        { rows := [{ ID := 1, Email := "ä@b.cc", Name := "A", GoogleID := "G1", Avatar := "",
                     IsActive := true, CreatedAt := 1000, UpdatedAt := 1000, DeletedAt := none }],
          seq := 1 }) ∧
    userService.GetOrCreateUser sampleStd (NewUserRepository sampleDb) "ä@b.cc" "Ann" "G1" "p.png"
        { rows := [{ ID := 1, Email := "ä@b.cc", Name := "A", GoogleID := "G1", Avatar := "",
                     IsActive := true, CreatedAt := 1000, UpdatedAt := 1000, DeletedAt := none }],
          seq := 1 } =
      (.ok { ID := 1, Email := "ä@b.cc", Name := "A", GoogleID := "G1", Avatar := "",
             IsActive := true, CreatedAt := 1000, UpdatedAt := 1000, DeletedAt := none },
        { rows := [{ ID := 1, Email := "ä@b.cc", Name := "A", GoogleID := "G1", Avatar := "",
                     IsActive := true, CreatedAt := 1000, UpdatedAt := 1000, DeletedAt := none }],
          seq := 1 }) :=
  ⟨by decide, by rfl,
    GetOrCreateUser_idempotent sampleStd sampleDb sampleDb emptyStore _ " Ä@B.cc " "ä@b.cc" "A"
      "Ann" "G1" "" "p.png" _ (by decide) (by rfl)⟩

/-- C18, as stated, fails: on a table with the account 1 of Google id `G2` and
the account 2 of email `a@b.cc`, two successive calls with the email `a@b.cc`
return the account 2, then the account 1: the second call carries the Google
id `G2`, which matches the row of least id. -/
theorem same_email_other_google_id :
    userService.GetOrCreateUser sampleStd (NewUserRepository sampleDb) "a@b.cc" "A" "G1" ""
        twoRowStore =
      (.ok (sampleUser 2 "a@b.cc" "G1"), twoRowStore) ∧
    userService.GetOrCreateUser sampleStd (NewUserRepository sampleDb) "a@b.cc" "A" "G2" ""
        twoRowStore =
      (.ok (sampleUser 1 "x@y.zz" "G2"), twoRowStore) ∧
    (sampleUser 2 "a@b.cc" "G1").ID ≠ (sampleUser 1 "x@y.zz" "G2").ID := by
  refine ⟨by rfl, by rfl, by decide⟩

/-! ## Error replies -/

/-- The body that `writeJSONError` appends: the object with the one field
`error`, and a newline. -/
theorem writeJSONError_Body (std : StdLib) (w : ResponseWriter) (status : Nat)
    (message : String) :
    (writeJSONError std w status message).Body =
      w.Body ++ ("\x7b" ++ (std.Quote "error" ++ ":" ++ std.Quote message) ++ "\x7d" ++ "\n") := by
  unfold writeJSONError ResponseWriter.Encode ResponseWriter.Write ResponseWriter.WriteHeader
    ResponseWriter.Set
  cases w.wroteHeader <;> rfl

/-- The body that `http.Error` appends: the message and a newline. -/
theorem Error_Body (w : ResponseWriter) (error : String) (code : Nat) :
    (Error w error code).Body = w.Body ++ (error ++ "\n") := by
  unfold Error ResponseWriter.Write ResponseWriter.WriteHeader ResponseWriter.Set
  cases w.wroteHeader <;> rfl

/-- The JSON text of an object starts with an opening brace. -/
theorem JSON_encode_obj_data (std : StdLib) (fields : JSONFields) :
    (JSON.encode std (.obj fields)).data =
      '\x7b' :: ((JSONFields.encode std fields).data ++ ['\x7d']) := by
  have h : JSON.encode std (.obj fields) = "\x7b" ++ JSONFields.encode std fields ++ "\x7d" := by
    cases fields <;> rfl
  rw [h]
  simp [String.data_append]

/-- C19, as the code has it. The errors written by the auth and user
controllers go through `writeJSONError`, whose body is the JSON object with
the one field `error` followed by a newline; the 429 of the rate limiter has
the same object as body. The 401 replies of `AuthMiddleware` are written by
`http.Error`: their body is the bare message followed by a newline. -/
theorem error_bodies (std : StdLib) (lib : JwtLib) (FRONTEND_REDIRECT : String) (now₁ now₂ : Time)
    (g : ControllerState) (σ : Type) (userRepo : UserRepository σ) (st : σ)
    (publicKey : RSAPublicKey) (now : Time) (next : Handler) (c : Conn) (r : Request)
    (gc : GinContext) (w : ResponseWriter) (status : Nat) (message : String) :
    (writeJSONError std w status message).Body =
      w.Body ++ ("\x7b" ++ (std.Quote "error" ++ ":" ++ std.Quote message) ++ "\x7d" ++ "\n") ∧
    (∀ e, (g.authService.HandleGoogleCallback lib now₁ now₂ (r.FormValue "code")
        (r.FormValue "state")).err = some e →
      (GoogleCallback std lib FRONTEND_REDIRECT now₁ now₂ g c r).2.w =
        writeJSONError std c.w 400 e) ∧
    (∀ e, userService.GetAllUsers userRepo (GetAllUsers.page (r.FormValue "page"))
        (GetAllUsers.limit (r.FormValue "limit")) st = .error e →
      (GetAllUsers std userRepo st c r).w = writeJSONError std c.w 500 e) ∧
    (r.FormValue "q" = "" →
      (SearchUsers std userRepo st c r).w =
        writeJSONError std c.w 400 "Search keyword is required") ∧
    (∀ e, r.FormValue "q" ≠ "" →
      userService.SearchUsers userRepo (r.FormValue "q") (GetAllUsers.page (r.FormValue "page"))
        (GetAllUsers.limit (r.FormValue "limit")) st = .error e →
      (SearchUsers std userRepo st c r).w = writeJSONError std c.w 400 e) ∧
    (gc.AbortWithStatusJSON std 429
        (.obj (.cons "error" (.str "Rate limit exceeded") .nil))).Writer.w.Body =
      gc.Writer.w.Body ++
        ("\x7b" ++ (std.Quote "error" ++ ":" ++ std.Quote "Rate limit exceeded") ++ "\x7d") ∧
    (r.HeaderGet "Authorization" = "" →
      (AuthMiddleware.ServeHTTP lib publicKey now next c r).w =
        Error c.w "Missing Authorization header" 401) ∧
    (Error c.w "Missing Authorization header" 401).Body =
      c.w.Body ++ ("Missing Authorization header" ++ "\n") := by
  refine ⟨writeJSONError_Body std w status message, ?_, ?_, ?_, ?_, ?_, ?_, Error_Body _ _ _⟩
  · intro e h
    unfold GoogleCallback
    simp only [h]
  · intro e h
    unfold GetAllUsers
    simp only [h]
  · intro h
    unfold SearchUsers
    simp only [h, if_true]
  · intro e hq h
    unfold SearchUsers
    simp only [hq, if_false, h]
  · have henc : JSON.encode std (.obj (.cons "error" (.str "Rate limit exceeded") .nil)) =
        "\x7b" ++ (std.Quote "error" ++ ":" ++ std.Quote "Rate limit exceeded") ++ "\x7d" := rfl
    unfold GinContext.AbortWithStatusJSON ResponseWriter.Write ResponseWriter.WriteHeader
      ResponseWriter.Set
    rw [henc]
    by_cases hct : (List.lookup "Content-Type" gc.Writer.w.Header).isSome = true <;>
      cases hw : gc.Writer.w.wroteHeader <;> simp [hct, hw]
  · intro h
    simp [AuthMiddleware.ServeHTTP, h]

theorem error_bodies_witness :
    (sampleService.HandleGoogleCallback sampleLib 0 0
        ((callbackRequest "c1" "forged").FormValue "code")
        ((callbackRequest "c1" "forged").FormValue "state")).err =
      some "state parameter doesn't match" ∧
    (GoogleCallback sampleStd sampleLib "https://app.example/cb" 0 0
        { authService := sampleService, users := emptyStore } freshConn
        (callbackRequest "c1" "forged")).2.w =
      writeJSONError sampleStd freshConn.w 400 "state parameter doesn't match" ∧
    (writeJSONError sampleStd freshConn.w 400 "state parameter doesn't match").Body =
      "\x7b\"error\":\"state parameter doesn't match\"\x7d\n" :=
  ⟨rfl,
    (error_bodies sampleStd sampleLib "https://app.example/cb" 0 0
      { authService := sampleService, users := emptyStore } Unit echoRepo ()
      sampleKey.PublicKey 5 (MainMenu "[]") freshConn (callbackRequest "c1" "forged")
      freshContext freshConn.w 400 "x").2.1 "state parameter doesn't match" rfl,
    by decide⟩

/-- C19, as stated, fails: the 401 of `AuthMiddleware` for a missing header
has the content type `text/plain` and the body
`Missing Authorization header` with a newline, which is not the JSON text of
an object with a field `error`, however strings are quoted. -/
theorem AuthMiddleware_401_is_plain_text :
    (AuthMiddleware.ServeHTTP sampleLib sampleKey.PublicKey 5 (MainMenu "[]") freshConn
        (menuRequest [])).w.wroteHeader = some 401 ∧
    List.lookup "Content-Type"
        (AuthMiddleware.ServeHTTP sampleLib sampleKey.PublicKey 5 (MainMenu "[]") freshConn
          (menuRequest [])).w.sentHeader = some "text/plain; charset=utf-8" ∧
    (AuthMiddleware.ServeHTTP sampleLib sampleKey.PublicKey 5 (MainMenu "[]") freshConn
        (menuRequest [])).w.Body = "Missing Authorization header\n" ∧
    ∀ (std : StdLib) (message : String),
      "Missing Authorization header\n" ≠
        JSON.encode std (.obj (.cons "error" (.str message) .nil)) ++ "\n" := by
  refine ⟨by decide, by decide, by decide, ?_⟩
  intro std message h
  have hd := congrArg String.data h
  rw [String.data_append, JSON_encode_obj_data] at hd
  have hh := congrArg List.head? hd
  simp at hh

/-- C20. Every failure of the callback is answered with status 400, whatever
its kind: `GoogleCallback` writes `writeJSONError(w, 400, err)` for every
error of `HandleGoogleCallback`. On the toy instance, a token endpoint that
cannot be reached (a network error), a code that the provider rejects and a
profile that cannot be fetched are all answered with 400, like a state
mismatch. -/
theorem GoogleCallback_failures_are_400 (std : StdLib) (lib : JwtLib) (FRONTEND_REDIRECT : String)
    (now₁ now₂ : Time) (g : ControllerState) (c : Conn) (r : Request) :
    (match (g.authService.HandleGoogleCallback lib now₁ now₂ (r.FormValue "code")
        (r.FormValue "state")).err with
      | some e => (GoogleCallback std lib FRONTEND_REDIRECT now₁ now₂ g c r).2.w =
          writeJSONError std c.w 400 e
      | none => True) ∧
    (GoogleCallback sampleStd sampleLib "https://app.example/cb" 0 0
        { authService := { sampleService with googleOauthConfig := unreachableProvider },
          users := emptyStore } freshConn (callbackRequest "c1" GoogleLogin.state)).2.w =
      { Header := [("Content-Type", "application/json")], wroteHeader := some 400,
        sentHeader := [("Content-Type", "application/json")],
        Body := "\x7b\"error\":\"network error: dial tcp: i/o timeout\"\x7d\n" } ∧
    (GoogleCallback sampleStd sampleLib "https://app.example/cb" 0 0
        { authService := sampleService, users := emptyStore } freshConn
        (callbackRequest "bad" GoogleLogin.state)).2.w =
      { Header := [("Content-Type", "application/json")], wroteHeader := some 400,
        sentHeader := [("Content-Type", "application/json")],
        Body := "\x7b\"error\":\"token exchange failed: invalid_grant\"\x7d\n" } ∧
    (GoogleCallback sampleStd sampleLib "https://app.example/cb" 0 0
        { authService := { sampleService with googleOauthConfig := noProfileProvider },
          users := emptyStore } freshConn (callbackRequest "c1" GoogleLogin.state)).2.w =
      { Header := [("Content-Type", "application/json")], wroteHeader := some 400,
        sentHeader := [("Content-Type", "application/json")],
        Body := "\x7b\"error\":\"failed to fetch user info: failed getting user info: " ++
          "connection refused\"\x7d\n" } ∧
    (GoogleCallback sampleStd sampleLib "https://app.example/cb" 0 0
        { authService := sampleService, users := emptyStore } freshConn
        (callbackRequest "c1" "forged")).2.w.wroteHeader = some 400 := by
  refine ⟨?_, by decide, by decide, by decide, by decide⟩
  cases h : (g.authService.HandleGoogleCallback lib now₁ now₂ (r.FormValue "code")
      (r.FormValue "state")).err with
  | none => trivial
  | some e =>
    unfold GoogleCallback
    simp only [h]

/-! ## Regular expressions and characters -/

/-- Nothing matches `fail`. -/
theorem fullMatch_fail (x : List Char) : Regex.fail.fullMatch x = false := by
  induction x with
  | nil => rfl
  | cons c cs ih => simpa [Regex.fullMatch, Regex.deriv] using ih

/-- Only the empty text matches `empty`. -/
theorem fullMatch_empty (x : List Char) : Regex.empty.fullMatch x = true ↔ x = [] := by
  cases x with
  | nil => simp [Regex.fullMatch, Regex.nullable]
  | cons c cs => simp [Regex.fullMatch, Regex.deriv, fullMatch_fail]

/-- A text matches an alternative when it matches one of its sides. -/
theorem fullMatch_alt (r s : Regex) (x : List Char) :
    (Regex.alt r s).fullMatch x = (r.fullMatch x || s.fullMatch x) := by
  induction x generalizing r s with
  | nil => rfl
  | cons c cs ih => simp [Regex.fullMatch, Regex.deriv, ih]

/-- A class is matched by one character of the class. -/
theorem fullMatch_cls (p : Char → Bool) (x : List Char) :
    (Regex.cls p).fullMatch x = true ↔ ∃ c, x = [c] ∧ p c = true := by
  cases x with
  | nil => simp [Regex.fullMatch, Regex.nullable]
  | cons c cs =>
    by_cases hp : p c = true
    · have h : (Regex.cls p).fullMatch (c :: cs) = Regex.empty.fullMatch cs := by
        simp [Regex.fullMatch, Regex.deriv, hp]
      rw [h, fullMatch_empty]
      constructor
      · rintro rfl
        exact ⟨c, rfl, hp⟩
      · rintro ⟨d, hd, _⟩
        simp only [List.cons.injEq] at hd
        exact hd.2
    · have h : (Regex.cls p).fullMatch (c :: cs) = Regex.fail.fullMatch cs := by
        simp [Regex.fullMatch, Regex.deriv, hp]
      rw [h, fullMatch_fail]
      constructor
      · intro hf
        exact absurd hf (by decide)
      · rintro ⟨d, hd, hpd⟩
        simp only [List.cons.injEq] at hd
        rw [← hd.1] at hpd
        exact absurd hpd hp

/-- A concatenation is matched by a text in two parts, one for each side. -/
theorem fullMatch_cat (r s : Regex) (z : List Char) :
    (Regex.cat r s).fullMatch z = true ↔
      ∃ x y, z = x ++ y ∧ r.fullMatch x = true ∧ s.fullMatch y = true := by
  induction z generalizing r with
  | nil =>
    constructor
    · intro h
      simp only [Regex.fullMatch, Regex.nullable, Bool.and_eq_true] at h
      exact ⟨[], [], rfl, h.1, h.2⟩
    · rintro ⟨x, y, hz, hx, hy⟩
      obtain ⟨rfl, rfl⟩ := List.append_eq_nil.mp hz.symm
      simp only [Regex.fullMatch, Regex.nullable, Bool.and_eq_true]
      exact ⟨hx, hy⟩
  | cons c cs ih =>
    have key : (∃ x y, c :: cs = x ++ y ∧ r.fullMatch x = true ∧ s.fullMatch y = true) ↔
        (r.nullable = true ∧ (s.deriv c).fullMatch cs = true) ∨
        ∃ x y, cs = x ++ y ∧ (r.deriv c).fullMatch x = true ∧ s.fullMatch y = true := by
      constructor
      · rintro ⟨x, y, hz, hx, hy⟩
        cases x with
        | nil =>
          simp only [List.nil_append] at hz
          subst hz
          exact Or.inl ⟨hx, hy⟩
        | cons a x' =>
          simp only [List.cons_append, List.cons.injEq] at hz
          obtain ⟨rfl, rfl⟩ := hz
          exact Or.inr ⟨x', y, rfl, hx, hy⟩
      · rintro (⟨hn, hs⟩ | ⟨x, y, rfl, hx, hy⟩)
        · exact ⟨[], c :: cs, rfl, hn, hs⟩
        · exact ⟨c :: x, y, rfl, hx, hy⟩
    rw [key]
    by_cases hn : r.nullable = true
    · have h : (Regex.cat r s).fullMatch (c :: cs) =
          (Regex.alt (.cat (r.deriv c) s) (s.deriv c)).fullMatch cs := by
        simp [Regex.fullMatch, Regex.deriv, hn]
      rw [h, fullMatch_alt, Bool.or_eq_true, ih]
      constructor
      · rintro (h₁ | h₁)
        · exact Or.inr h₁
        · exact Or.inl ⟨hn, h₁⟩
      · rintro (h₁ | h₁)
        · exact Or.inr h₁.2
        · exact Or.inl h₁
    · have h : (Regex.cat r s).fullMatch (c :: cs) = (Regex.cat (r.deriv c) s).fullMatch cs := by
        simp [Regex.fullMatch, Regex.deriv, hn]
      rw [h, ih]
      constructor
      · intro h₁
        exact Or.inr h₁
      · rintro (h₁ | h₁)
        · exact absurd h₁.1 hn
        · exact h₁

/-- A repeated class is matched by the texts made of characters of the class. -/
theorem fullMatch_star_cls (p : Char → Bool) (x : List Char) :
    (Regex.star (.cls p)).fullMatch x = true ↔ ∀ c ∈ x, p c = true := by
  induction x with
  | nil => simp [Regex.fullMatch, Regex.nullable]
  | cons c cs ih =>
    have : (Regex.star (.cls p)).fullMatch (c :: cs) =
        (Regex.cat ((Regex.cls p).deriv c) (.star (.cls p))).fullMatch cs := rfl
    rw [this, fullMatch_cat]
    by_cases hp : p c = true
    · have hd : (Regex.cls p).deriv c = .empty := by simp [Regex.deriv, hp]
      rw [hd]
      constructor
      · rintro ⟨x, y, rfl, hx, hy⟩
        rw [fullMatch_empty] at hx
        subst hx
        intro d hmem
        simp only [List.mem_cons] at hmem
        rcases hmem with rfl | hmem
        · exact hp
        · exact ih.mp hy d (by simpa using hmem)
      · intro hall
        exact ⟨[], cs, rfl, rfl, ih.mpr (fun d hmem => hall d (List.mem_cons_of_mem _ hmem))⟩
    · have hd : (Regex.cls p).deriv c = .fail := by simp [Regex.deriv, hp]
      rw [hd]
      constructor
      · rintro ⟨x, y, _, hx, _⟩
        rw [fullMatch_fail] at hx
        exact absurd hx (by decide)
      · intro hall
        exact absurd (hall c (List.mem_cons_self _ _)) hp

/-- The pattern `[...]+` is matched by the texts of at least one character, all
of the class. -/
theorem fullMatch_plus_cls (p : Char → Bool) (x : List Char) :
    (Regex.plus (.cls p)).fullMatch x = true ↔ x ≠ [] ∧ ∀ c ∈ x, p c = true := by
  unfold Regex.plus
  rw [fullMatch_cat]
  constructor
  · rintro ⟨a, b, rfl, ha, hb⟩
    obtain ⟨c, rfl, hc⟩ := (fullMatch_cls p a).mp ha
    rw [fullMatch_star_cls] at hb
    refine ⟨by simp, ?_⟩
    intro d hd
    simp only [List.singleton_append, List.mem_cons] at hd
    rcases hd with rfl | hd
    · exact hc
    · exact hb d hd
  · rintro ⟨hne, hall⟩
    cases x with
    | nil => exact absurd rfl hne
    | cons c cs =>
      refine ⟨[c], cs, rfl, (fullMatch_cls p [c]).mpr ⟨c, rfl, hall c (List.mem_cons_self _ _)⟩, ?_⟩
      rw [fullMatch_star_cls]
      exact fun d hd => hall d (List.mem_cons_of_mem _ hd)

/-- A class without anchors is found in a string when one of its characters is
of the class. -/
theorem MatchString_cls (p : Char → Bool) (s : String) :
    (Regex.cls p).MatchString s = true ↔ ∃ c ∈ s.data, p c = true := by
  unfold Regex.MatchString
  rw [fullMatch_cat]
  constructor
  · rintro ⟨x, y, hs, _, hy⟩
    rw [fullMatch_cat] at hy
    obtain ⟨a, b, rfl, ha, _⟩ := hy
    obtain ⟨c, rfl, hc⟩ := (fullMatch_cls p a).mp ha
    exact ⟨c, by rw [hs]; simp, hc⟩
  · rintro ⟨c, hmem, hc⟩
    obtain ⟨x, y, hs⟩ := List.append_of_mem hmem
    refine ⟨x, c :: y, hs, (fullMatch_star_cls _ x).mpr (fun _ _ => rfl), ?_⟩
    rw [fullMatch_cat]
    exact ⟨[c], y, rfl, (fullMatch_cls p [c]).mpr ⟨c, rfl, hc⟩,
      (fullMatch_star_cls _ y).mpr (fun _ _ => rfl)⟩

/-- The class `[A-Z]`. -/
theorem isUpper_iff (c : Char) : c.isUpper = true ↔ 65 ≤ c.toNat ∧ c.toNat ≤ 90 := by
  unfold Char.isUpper Char.toNat
  simp only [ge_iff_le, Bool.and_eq_true, decide_eq_true_eq, UInt32.le_def]
  rfl

/-- The class `[a-z]`. -/
theorem isLower_iff (c : Char) : c.isLower = true ↔ 97 ≤ c.toNat ∧ c.toNat ≤ 122 := by
  unfold Char.isLower Char.toNat
  simp only [ge_iff_le, Bool.and_eq_true, decide_eq_true_eq, UInt32.le_def]
  rfl

/-- The class `[0-9]`. -/
theorem isDigit_iff (c : Char) : c.isDigit = true ↔ 48 ≤ c.toNat ∧ c.toNat ≤ 57 := by
  unfold Char.isDigit Char.toNat
  simp only [ge_iff_le, Bool.and_eq_true, decide_eq_true_eq, UInt32.le_def]
  rfl

/-- The white space of `unicode.IsSpace`, by code point. -/
theorem isSpace_iff (c : Char) : isSpace c = true ↔
    c.toNat ∈ [9, 10, 11, 12, 13, 32, 0x85, 0xA0, 0x1680, 0x2028, 0x2029, 0x202F, 0x205F, 0x3000] ∨
      (0x2000 ≤ c.toNat ∧ c.toNat ≤ 0x200A) := by
  unfold isSpace
  simp only [Bool.or_eq_true, decide_eq_true_eq, Bool.and_eq_true]

/-- The visible ASCII characters are not white space. -/
theorem not_isSpace_of_ascii_graphic {c : Char} (h : 33 ≤ c.toNat ∧ c.toNat ≤ 126) :
    isSpace c = false := by
  rw [Bool.eq_false_iff, Ne, isSpace_iff]
  simp only [List.mem_cons, List.mem_singleton, List.not_mem_nil, or_false]
  omega

/-- An ASCII character takes one byte. -/
theorem utf8Size_ascii {c : Char} (h : c.toNat < 128) : c.utf8Size = 1 := by
  unfold Char.utf8Size
  have h₂ : ¬ 127 < c.val := by
    rw [UInt32.lt_def]
    show ¬ 127 < c.val.toNat
    unfold Char.toNat at h
    omega
  simp [h₂]

/-- A text has at least as many bytes as characters. -/
theorem utf8ByteSize_go_ge (l : List Char) : l.length ≤ String.utf8ByteSize.go l := by
  induction l with
  | nil => simp [String.utf8ByteSize.go]
  | cons c cs ih =>
    have := Char.utf8Size_pos c
    simp only [String.utf8ByteSize.go, List.length_cons]
    omega

/-- A string has at least as many bytes as characters. -/
theorem utf8ByteSize_ge (s : String) : s.length ≤ s.utf8ByteSize := utf8ByteSize_go_ge s.data

/-- An ASCII text has as many bytes as characters. -/
theorem utf8ByteSize_go_ascii (l : List Char) (h : ∀ c ∈ l, c.toNat < 128) :
    String.utf8ByteSize.go l = l.length := by
  induction l with
  | nil => simp [String.utf8ByteSize.go]
  | cons c cs ih =>
    simp only [String.utf8ByteSize.go, List.length_cons]
    rw [ih (fun d hd => h d (List.mem_cons_of_mem _ hd)), utf8Size_ascii (h c (List.mem_cons_self _ _))]

/-! ## The validators of `utils` and `validators` -/

/-- The form of the strings that `IsValidEmail` accepts. -/
theorem IsValidEmail_iff (e : String) :
    utils.IsValidEmail e = true ↔
      ∃ l d t : List Char, e.data = l ++ '@' :: (d ++ '.' :: t) ∧
        (l ≠ [] ∧ ∀ c ∈ l, (c.isAlphanum || c == '.' || c == '_' || c == '%' || c == '+' ||
          c == '-') = true) ∧
        (d ≠ [] ∧ ∀ c ∈ d, (c.isAlphanum || c == '.' || c == '-') = true) ∧
        2 ≤ t.length ∧ ∀ c ∈ t, c.isAlpha = true := by
  unfold utils.IsValidEmail utils.emailRegex
  constructor
  · intro h
    obtain ⟨l, r₁, he, hl, h⟩ := (fullMatch_cat _ _ _).mp h
    obtain ⟨a, r₂, rfl, ha, h⟩ := (fullMatch_cat _ _ _).mp h
    obtain ⟨d, r₃, rfl, hd, h⟩ := (fullMatch_cat _ _ _).mp h
    obtain ⟨b, r₄, rfl, hb, h⟩ := (fullMatch_cat _ _ _).mp h
    obtain ⟨t₁, t₂, rfl, ht₁, ht₂⟩ := (fullMatch_cat _ _ _).mp h
    obtain ⟨ca, rfl, hca⟩ := (fullMatch_cls _ _).mp ha
    obtain ⟨cb, rfl, hcb⟩ := (fullMatch_cls _ _).mp hb
    obtain ⟨ct, rfl, hct⟩ := (fullMatch_cls _ _).mp ht₁
    rw [fullMatch_plus_cls] at hl hd ht₂
    have hca' : ca = '@' := by simpa using hca
    have hcb' : cb = '.' := by simpa using hcb
    subst hca' hcb'
    refine ⟨l, d, ct :: t₂, by simpa using he, hl, hd, ?_, ?_⟩
    · have : t₂ ≠ [] := ht₂.1
      have := List.length_pos.mpr this
      simp only [List.length_cons]
      omega
    · intro c hc
      simp only [List.mem_cons] at hc
      rcases hc with rfl | hc
      · exact hct
      · exact ht₂.2 c hc
  · rintro ⟨l, d, t, he, hl, hd, ht, hta⟩
    rw [he]
    match t, ht, hta with
    | ct :: t₂, ht, hta =>
      refine (fullMatch_cat _ _ _).mpr ⟨l, '@' :: (d ++ '.' :: ct :: t₂), rfl,
        (fullMatch_plus_cls _ _).mpr hl, ?_⟩
      refine (fullMatch_cat _ _ _).mpr ⟨['@'], d ++ '.' :: ct :: t₂, rfl,
        (fullMatch_cls _ _).mpr ⟨'@', rfl, by decide⟩, ?_⟩
      refine (fullMatch_cat _ _ _).mpr ⟨d, '.' :: ct :: t₂, rfl,
        (fullMatch_plus_cls _ _).mpr hd, ?_⟩
      refine (fullMatch_cat _ _ _).mpr ⟨['.'], ct :: t₂, rfl,
        (fullMatch_cls _ _).mpr ⟨'.', rfl, by decide⟩, ?_⟩
      refine (fullMatch_cat _ _ _).mpr ⟨[ct], t₂, rfl,
        (fullMatch_cls _ _).mpr ⟨ct, rfl, hta ct (List.mem_cons_self _ _)⟩, ?_⟩
      refine (fullMatch_plus_cls _ _).mpr ⟨?_, fun c hc => hta c (List.mem_cons_of_mem _ hc)⟩
      intro h0
      subst h0
      simp at ht

/-- A letter or a digit is a visible ASCII character. -/
theorem isAlphanum_range {c : Char} (h : c.isAlphanum = true) : 33 ≤ c.toNat ∧ c.toNat ≤ 126 := by
  unfold Char.isAlphanum Char.isAlpha at h
  simp only [Bool.or_eq_true, isUpper_iff, isLower_iff, isDigit_iff] at h
  omega

/-- Every character of a string that `IsValidEmail` accepts is a visible
ASCII character. -/
theorem IsValidEmail_chars {e : String} (h : utils.IsValidEmail e = true) :
    ∀ c ∈ e.data, 33 ≤ c.toNat ∧ c.toNat ≤ 126 := by
  obtain ⟨l, d, t, he, hl, hd, _, hta⟩ := (IsValidEmail_iff e).mp h
  have hsym : ∀ c : Char, (c = '.' ∨ c = '_' ∨ c = '%' ∨ c = '+' ∨ c = '-' ∨ c = '@') →
      33 ≤ c.toNat ∧ c.toNat ≤ 126 := by
    rintro c (rfl | rfl | rfl | rfl | rfl | rfl) <;> decide
  intro c hc
  rw [he] at hc
  simp only [List.mem_append, List.mem_cons] at hc
  rcases hc with hc | rfl | hc | rfl | hc
  · have := hl.2 c hc
    simp only [Bool.or_eq_true, beq_iff_eq] at this
    rcases this with ((((h₁ | h₁) | h₁) | h₁) | h₁) | h₁
    · exact isAlphanum_range h₁
    all_goals exact hsym c (by simp [h₁])
  · decide
  · have := hd.2 c hc
    simp only [Bool.or_eq_true, beq_iff_eq] at this
    rcases this with (h₁ | h₁) | h₁
    · exact isAlphanum_range h₁
    all_goals exact hsym c (by simp [h₁])
  · decide
  · have h₁ : c.isAlphanum = true := by
      unfold Char.isAlphanum
      rw [hta c hc]
      rfl
    exact isAlphanum_range h₁

/-- A string without white space is not changed by `strings.TrimSpace`. -/
theorem TrimSpace_of_no_space {s : String} (h : ∀ c ∈ s.data, isSpace c = false) :
    TrimSpace s = s := by
  have h₁ : ∀ l : List Char, (∀ c ∈ l, isSpace c = false) → l.dropWhile isSpace = l := by
    intro l hl
    cases l with
    | nil => rfl
    | cons c cs => simp [List.dropWhile, hl c (List.mem_cons_self _ _)]
  unfold TrimSpace
  apply String.ext
  show ((s.data.dropWhile isSpace).reverse.dropWhile isSpace).reverse = s.data
  rw [h₁ s.data h, h₁ s.data.reverse (fun c hc => h c (List.mem_reverse.mp hc)), List.reverse_reverse]

/-- A string is blank for `IsEmpty` when all its characters are white space. -/
theorem IsEmpty_iff (s : String) : utils.IsEmpty s = true ↔ ∀ c ∈ s.data, isSpace c = true := by
  unfold utils.IsEmpty TrimSpace
  rw [beq_iff_eq]
  constructor
  · intro h
    have h₁ : ((s.data.dropWhile isSpace).reverse.dropWhile isSpace).reverse = [] :=
      congrArg String.data h
    rw [List.reverse_eq_nil_iff, List.dropWhile_eq_nil_iff] at h₁
    have h₂ : s.data.dropWhile isSpace = [] := by
      cases hd : s.data.dropWhile isSpace with
      | nil => rfl
      | cons c cs =>
        have hc := List.head_dropWhile_not isSpace s.data (by rw [hd]; simp)
        simp only [hd, List.head_cons] at hc
        have := h₁ c (by rw [hd]; simp)
        rw [this] at hc
        exact absurd hc (by decide)
    exact List.dropWhile_eq_nil_iff.mp h₂
  · intro h
    have h₂ : s.data.dropWhile isSpace = [] := List.dropWhile_eq_nil_iff.mpr h
    rw [h₂]
    rfl


/-- The function `IsValidPassword`, case by case. -/
theorem IsValidPassword_iff (p : String) :
    utils.IsValidPassword p = true ↔
      8 ≤ p.utf8ByteSize ∧ (∃ c ∈ p.data, c.isUpper = true) ∧ (∃ c ∈ p.data, c.isLower = true) ∧
        ∃ c ∈ p.data, c.isDigit = true := by
  unfold utils.IsValidPassword
  by_cases h : p.utf8ByteSize < 8
  · simp only [h, if_true]
    constructor
    · intro hf
      exact absurd hf (by decide)
    · rintro ⟨h8, _⟩
      omega
  · simp only [h, if_false, Bool.and_eq_true, MatchString_cls]
    constructor
    · rintro ⟨⟨h₁, h₂⟩, h₃⟩
      exact ⟨by omega, h₁, h₂, h₃⟩
    · rintro ⟨_, h₁, h₂, h₃⟩
      exact ⟨⟨h₁, h₂⟩, h₃⟩

/-- C23, as the code has it. `IsValidPassword` measures the password in bytes:
it returns true exactly for the passwords of at least 8 bytes with an
uppercase letter A-Z, a lowercase letter a-z and a digit 0-9. On an ASCII
password bytes are characters, and the claim holds. The password `Aa1€€` has
5 characters and 9 bytes, and is accepted. -/
theorem IsValidPassword_counts_bytes :
    (∀ p : String, utils.IsValidPassword p = true ↔
      8 ≤ p.utf8ByteSize ∧ (∃ c ∈ p.data, 'A' ≤ c ∧ c ≤ 'Z') ∧ (∃ c ∈ p.data, 'a' ≤ c ∧ c ≤ 'z') ∧
        ∃ c ∈ p.data, '0' ≤ c ∧ c ≤ '9') ∧
    (∀ p : String, (∀ c ∈ p.data, c.toNat < 128) →
      (utils.IsValidPassword p = true ↔
        8 ≤ p.length ∧ (∃ c ∈ p.data, 'A' ≤ c ∧ c ≤ 'Z') ∧ (∃ c ∈ p.data, 'a' ≤ c ∧ c ≤ 'z') ∧
          ∃ c ∈ p.data, '0' ≤ c ∧ c ≤ '9')) ∧
    ("Aa1€€".length = 5 ∧ "Aa1€€".utf8ByteSize = 9 ∧ utils.IsValidPassword "Aa1€€" = true) ∧
    utils.IsValidPassword "Passw0rd" = true ∧ utils.IsValidPassword "Passw0r" = false := by
  have hU : ∀ c : Char, c.isUpper = true ↔ 'A' ≤ c ∧ c ≤ 'Z' := fun c => by
    rw [isUpper_iff]; rfl
  have hL : ∀ c : Char, c.isLower = true ↔ 'a' ≤ c ∧ c ≤ 'z' := fun c => by
    rw [isLower_iff]; rfl
  have hD : ∀ c : Char, c.isDigit = true ↔ '0' ≤ c ∧ c ≤ '9' := fun c => by
    rw [isDigit_iff]; rfl
  have key : ∀ p : String, utils.IsValidPassword p = true ↔
      8 ≤ p.utf8ByteSize ∧ (∃ c ∈ p.data, 'A' ≤ c ∧ c ≤ 'Z') ∧ (∃ c ∈ p.data, 'a' ≤ c ∧ c ≤ 'z') ∧
        ∃ c ∈ p.data, '0' ≤ c ∧ c ≤ '9' := by
    intro p
    rw [IsValidPassword_iff]
    simp only [hU, hL, hD]
  refine ⟨key, ?_, ⟨by decide, by decide, by decide⟩, by decide, by decide⟩
  intro p hp
  rw [key]
  have : p.utf8ByteSize = p.length := utf8ByteSize_go_ascii p.data hp
  rw [this]

/-- A blank string is not accepted by `IsValidEmail`. -/
theorem IsValidEmail_of_IsEmpty {e : String} (h : utils.IsEmpty e = true) :
    utils.IsValidEmail e = false := by
  rw [Bool.eq_false_iff]
  intro hv
  obtain ⟨l, d, t, he, _⟩ := (IsValidEmail_iff e).mp hv
  have hs := (IsEmpty_iff e).mp h '@' (by rw [he]; simp)
  exact absurd hs (by decide)

/-- A blank string is not accepted by `IsValidPassword`. -/
theorem IsValidPassword_of_IsEmpty {p : String} (h : utils.IsEmpty p = true) :
    utils.IsValidPassword p = false := by
  rw [Bool.eq_false_iff]
  intro hv
  obtain ⟨_, ⟨c, hc, hu⟩, _⟩ := (IsValidPassword_iff p).mp hv
  have hs := (IsEmpty_iff p).mp h c hc
  rw [isUpper_iff] at hu
  rw [not_isSpace_of_ascii_graphic (by omega)] at hs
  exact absurd hs (by decide)

/-- C25. `ValidateUserRegistration` returns nil exactly when `IsValidEmail`
holds of the email, the name is not blank after trimming and `IsValidPassword`
holds of the password. A blank email is not a valid email and a blank password
is not a valid password, so the two emptiness checks only select the message;
the phone and the address do not enter the result. -/
theorem ValidateUserRegistration_ok_iff (req : validators.UserRegistrationRequest) :
    (validators.ValidateUserRegistration req = .ok () ↔
      utils.IsValidEmail req.Email = true ∧ TrimSpace req.Name ≠ "" ∧
        utils.IsValidPassword req.Password = true) ∧
    (utils.IsEmpty req.Email = true →
      utils.IsValidEmail req.Email = false ∧
        validators.ValidateUserRegistration req = .error "email is required") ∧
    (utils.IsEmpty req.Password = true →
      utils.IsValidPassword req.Password = false ∧
        ∃ e, validators.ValidateUserRegistration req = .error e) ∧
    (∀ phone address : String,
      validators.ValidateUserRegistration { req with Phone := phone, Address := address } =
        validators.ValidateUserRegistration req) := by
  have hname : utils.IsEmpty req.Name = true ↔ TrimSpace req.Name = "" := by
    unfold utils.IsEmpty
    exact beq_iff_eq
  refine ⟨?_, ?_, ?_, fun _ _ => rfl⟩
  · unfold validators.ValidateUserRegistration
    constructor
    · intro h
      split at h
      · simp at h
      split at h
      · simp at h
      split at h
      · simp at h
      split at h
      · simp at h
      split at h
      · simp at h
      next _ h₂ h₃ _ h₅ =>
        refine ⟨by simpa using h₂, fun hn => h₃ (hname.mpr hn), by simpa using h₅⟩
    · rintro ⟨h₁, h₂, h₃⟩
      have e₁ : utils.IsEmpty req.Email = false := by
        rw [Bool.eq_false_iff]
        intro he
        rw [IsValidEmail_of_IsEmpty he] at h₁
        exact absurd h₁ (by decide)
      have e₂ : utils.IsEmpty req.Password = false := by
        rw [Bool.eq_false_iff]
        intro he
        rw [IsValidPassword_of_IsEmpty he] at h₃
        exact absurd h₃ (by decide)
      have e₃ : utils.IsEmpty req.Name = false := by
        rw [Bool.eq_false_iff]
        exact fun he => h₂ (hname.mp he)
      simp [h₁, h₃, e₁, e₂, e₃]
  · intro he
    refine ⟨IsValidEmail_of_IsEmpty he, ?_⟩
    unfold validators.ValidateUserRegistration
    simp [he]
  · intro he
    refine ⟨IsValidPassword_of_IsEmpty he, ?_⟩
    unfold validators.ValidateUserRegistration
    split
    · exact ⟨_, rfl⟩
    split
    · exact ⟨_, rfl⟩
    split
    · exact ⟨_, rfl⟩
    exact ⟨_, rfl⟩

theorem ValidateUserRegistration_ok_iff_witness :
    validators.ValidateUserRegistration
        { Email := "ann@x.org", Name := "Ann", Password := "Passw0rd", Phone := "", Address := "" } =
      .ok () ∧
    (utils.IsEmpty "  " = true ∧ utils.IsValidEmail "  " = false ∧
      validators.ValidateUserRegistration
          { Email := "  ", Name := "Ann", Password := "Passw0rd", Phone := "", Address := "" } =
        .error "email is required") :=
  ⟨(ValidateUserRegistration_ok_iff
      { Email := "ann@x.org", Name := "Ann", Password := "Passw0rd", Phone := "",
        Address := "" }).1.mpr ⟨by decide, by decide, by decide⟩,
    by decide,
    (ValidateUserRegistration_ok_iff
      { Email := "  ", Name := "Ann", Password := "Passw0rd", Phone := "",
        Address := "" }).2.1 (by decide)⟩

/-- C26. Every string that the pattern of `utils.IsValidEmail` accepts is
accepted by `userService.IsValidEmail`: it is not changed by trimming, it
contains `@` and `.`, and it is longer than 5 bytes. The other way round
fails: `abc@d.e` is accepted by the service and refused by the pattern. -/
theorem IsValidEmail_consistent (email : String) (h : utils.IsValidEmail email = true) :
    (userService.IsValidEmail email = true ∧ TrimSpace email = email ∧
      Contains email '@' = true ∧ Contains email '.' = true ∧ 5 < email.utf8ByteSize) ∧
    (userService.IsValidEmail "abc@d.e" = true ∧ utils.IsValidEmail "abc@d.e" = false) := by
  refine ⟨?_, by decide, by decide⟩
  obtain ⟨l, d, t, he, hl, hd, ht, _⟩ := (IsValidEmail_iff email).mp h
  have htrim : TrimSpace email = email :=
    TrimSpace_of_no_space (fun c hc => not_isSpace_of_ascii_graphic (IsValidEmail_chars h c hc))
  have hat : Contains email '@' = true := by
    unfold Contains
    rw [he]
    simp
  have hdot : Contains email '.' = true := by
    unfold Contains
    rw [he]
    simp
  have hlen : 5 < email.utf8ByteSize := by
    have h₁ := utf8ByteSize_ge email
    have h₂ : email.length = l.length + (d.length + (t.length + 1) + 1) := by
      show email.data.length = _
      rw [he]
      simp
    have h₃ := List.length_pos.mpr hl.1
    have h₄ := List.length_pos.mpr hd.1
    omega
  refine ⟨?_, htrim, hat, hdot, hlen⟩
  unfold userService.IsValidEmail
  simp only [htrim, hat, hdot, hlen, decide_True, Bool.and_true]
  have hne : email ≠ "" := by
    intro h0
    rw [h0] at hlen
    exact absurd hlen (by decide)
  simp [hne]

theorem IsValidEmail_consistent_witness :
    utils.IsValidEmail "ann@x.org" = true ∧ userService.IsValidEmail "ann@x.org" = true ∧
    TrimSpace "ann@x.org" = "ann@x.org" :=
  ⟨by decide, (IsValidEmail_consistent "ann@x.org" (by decide)).1.1,
    (IsValidEmail_consistent "ann@x.org" (by decide)).1.2.1⟩

/-! ## The uniqueness of emails -/

/-- A table with unique emails keeps them unique when a row is added whose
email no live row has. -/
theorem EmailsUnique_append {s : Store} {u : User} (n : Nat) (h : s.EmailsUnique)
    (hu : ∀ x ∈ s.live, x.Email ≠ u.Email) :
    ({ rows := s.rows ++ [u], seq := n } : Store).EmailsUnique := by
  unfold Store.EmailsUnique Store.live at *
  simp only [List.filter_append, List.map_append]
  rw [List.nodup_append]
  refine ⟨h, ?_, ?_⟩
  · cases hd : u.DeletedAt.isNone <;> simp [List.filter, hd]
  · intro e he he'
    obtain ⟨x, hx, rfl⟩ := List.mem_map.mp he
    cases hd : u.DeletedAt.isNone
    · simp [List.filter, hd] at he'
    · simp only [List.filter, hd, List.map_cons, List.map_nil, List.mem_singleton] at he'
      exact hu x hx he'

/-- A successful `Create`: no row, deleted or not, had the email, and the row
is added at the end with the next id. -/
theorem Create_eq_ok {db : Postgres} {user u : User} {st st' : Store}
    (h : userRepository.Create db user st = (.ok u, st')) :
    (∀ x ∈ st.rows, x.Email ≠ user.Email) ∧
    u = { user with ID := st.seq + 1, CreatedAt := db.Now, UpdatedAt := db.Now } ∧
    st' = { rows := st.rows ++ [u], seq := st.seq + 1 } := by
  unfold userRepository.Create at h
  by_cases hd : (st.rows.any (fun x => x.Email == user.Email) ||
      st.rows.any (fun x => x.GoogleID == user.GoogleID)) = true
  · rw [if_pos hd] at h
    simp at h
  · rw [if_neg hd] at h
    simp only [Prod.mk.injEq, Except.ok.injEq] at h
    refine ⟨?_, h.1.symm, ?_⟩
    · simp only [Bool.or_eq_true, List.any_eq_true, beq_iff_eq, not_or, not_exists, not_and] at hd
      exact fun x hx => hd.1 x hx
    · rw [← h.2, ← h.1]

/-- A successful `CreateUser` on the repository of the database is a
successful `Create` of the row with the normalised email. -/
theorem CreateUser_eq_ok {std : StdLib} {db : Postgres} {email name googleID avatar : String}
    {st st' : Store} {u : User}
    (h : userService.CreateUser std (NewUserRepository db) email name googleID avatar st =
      (.ok u, st')) :
    userRepository.Create db
        { ID := 0, Email := strings.ToLower std (TrimSpace email), Name := TrimSpace name,
          GoogleID := googleID, Avatar := avatar, IsActive := true, CreatedAt := 0,
          UpdatedAt := 0, DeletedAt := none } st = (.ok u, st') := by
  unfold userService.CreateUser at h
  simp only [NewUserRepository, userRepository.ExistsByEmail] at h
  split at h
  · simp at h
  split at h
  · simp at h
  split at h
  · simp at h
  generalize userRepository.Create db
      { ID := 0, Email := strings.ToLower std (TrimSpace email), Name := TrimSpace name,
        GoogleID := googleID, Avatar := avatar, IsActive := true, CreatedAt := 0,
        UpdatedAt := 0, DeletedAt := none } st = res at h ⊢
  obtain ⟨res₁, st₁⟩ := res
  cases res₁ with
  | error e => simp at h
  | ok v =>
    simp only [Prod.mk.injEq, Except.ok.injEq] at h
    rw [h.1, h.2]

/-- A successful `Create` keeps the emails of the live rows unique. -/
theorem Create_EmailsUnique {db : Postgres} {user u : User} {st st' : Store}
    (hinv : st.EmailsUnique) (h : userRepository.Create db user st = (.ok u, st')) :
    st'.EmailsUnique := by
  obtain ⟨hne, hu, rfl⟩ := Create_eq_ok h
  apply EmailsUnique_append _ hinv
  intro x hx
  have hx' : x ∈ st.rows := (List.mem_filter.mp hx).1
  rw [hu]
  exact hne x hx'

/-- A successful `CreateIfNotExists` for a row that carries the email looked
up keeps the emails of the live rows unique. -/
theorem CreateIfNotExists_EmailsUnique {db : Postgres} {email googleID : String} {user u : User}
    {st st' : Store} (hinv : st.EmailsUnique) (he : user.Email = email)
    (h : userRepository.CreateIfNotExists db email googleID user st = (.ok u, st')) :
    st'.EmailsUnique := by
  rcases CreateIfNotExists_eq_ok h with ⟨_, rfl⟩ | ⟨hf, _, rfl⟩
  · exact hinv
  · apply EmailsUnique_append _ hinv
    intro x hx
    have hnil := leastID_eq_none hf
    have hx' : x ∉ st.live.filter (fun x => x.Email == email || x.GoogleID == googleID) := by
      rw [hnil]
      simp
    intro hxe
    apply hx'
    rw [List.mem_filter]
    refine ⟨hx, ?_⟩
    simp only [Bool.or_eq_true, beq_iff_eq]
    left
    rw [hxe]
    exact he
/-- C21, as the code has it. Successful calls of `CreateUser` and of
`GetOrCreateUser` keep the emails of the live rows unique, and `CreateUser`
never succeeds when a row holds the normalised email. But `CreateUser` looks
for an existing account with the email as given, before normalising it: it
answers "already exists" when a live row has the email as given, and for an
email given in another case or with spaces around it the duplicate is only
refused by the unique index of the table. On the table with the account
`a@b.cc`, `CreateUser("A@B.CC", ...)` fails with the error of the index. -/
theorem CreateUser_checks_email_as_given (std : StdLib) (db : Postgres) (st : Store)
    (email name googleID avatar : String) :
    (∀ u st', st.EmailsUnique →
      userService.CreateUser std (NewUserRepository db) email name googleID avatar st =
        (.ok u, st') → st'.EmailsUnique) ∧
    (∀ u st', st.EmailsUnique →
      userService.GetOrCreateUser std (NewUserRepository db) email name googleID avatar st =
        (.ok u, st') → st'.EmailsUnique) ∧
    ((∃ x ∈ st.rows, x.Email = strings.ToLower std (TrimSpace email)) →
      ∀ u st', userService.CreateUser std (NewUserRepository db) email name googleID avatar st ≠
        (.ok u, st')) ∧
    (userService.IsValidEmail email = true → TrimSpace name ≠ "" →
      (∃ x ∈ st.live, x.Email = email) →
      userService.CreateUser std (NewUserRepository db) email name googleID avatar st =
        (.error ("user with email " ++ email ++ " already exists"), st)) ∧
    (twoRowStore.EmailsUnique ∧
      (∃ x ∈ twoRowStore.live, x.Email = strings.ToLower sampleStd (TrimSpace "A@B.CC")) ∧
      userService.CreateUser sampleStd (NewUserRepository sampleDb) "A@B.CC" "Ann" "G9" ""
          twoRowStore =
        (.error ("failed to create user: failed to create user: " ++
            "duplicate key value violates unique constraint"),
          { twoRowStore with seq := 3 })) := by
  refine ⟨?_, ?_, ?_, ?_, by decide, by decide, by rfl⟩
  · intro u st' hinv h
    exact Create_EmailsUnique hinv (CreateUser_eq_ok h)
  · intro u st' hinv h
    have hc := (GetOrCreateUser_eq_ok h).2
    exact @CreateIfNotExists_EmailsUnique db (strings.ToLower std (TrimSpace email)) googleID _ u st st' hinv
      rfl hc
  · rintro ⟨x, hx, hxe⟩ u st' h
    exact (Create_eq_ok (CreateUser_eq_ok h)).1 x hx hxe
  · rintro hv hn ⟨x, hx, hxe⟩
    have hcount : decide (0 < (st.live.filter (fun u => u.Email == email)).length) = true := by
      rw [decide_eq_true_eq, List.length_pos]
      intro h0
      have : x ∈ st.live.filter (fun u => u.Email == email) := by
        rw [List.mem_filter]
        exact ⟨hx, by simp [hxe]⟩
      rw [h0] at this
      simp at this
    unfold userService.CreateUser
    simp only [NewUserRepository, userRepository.ExistsByEmail, hv, hn, hcount, Bool.not_true,
      Bool.false_eq_true, if_false, if_true]

theorem CreateUser_checks_email_as_given_witness :
    (twoRowStore.EmailsUnique ∧
      userService.CreateUser sampleStd (NewUserRepository sampleDb) "New@X.org" "Ann" "G9" "" twoRowStore =
        (.ok { ID := 3, Email := "new@x.org", Name := "Ann", GoogleID := "G9", Avatar := "",
               IsActive := true, CreatedAt := 1000, UpdatedAt := 1000, DeletedAt := none },
          { rows := twoRowStore.rows ++
              [{ ID := 3, Email := "new@x.org", Name := "Ann", GoogleID := "G9", Avatar := "",
                 IsActive := true, CreatedAt := 1000, UpdatedAt := 1000, DeletedAt := none }],
            seq := 3 }) ∧
      ({ rows := twoRowStore.rows ++
            [{ ID := 3, Email := "new@x.org", Name := "Ann", GoogleID := "G9", Avatar := "",
               IsActive := true, CreatedAt := 1000, UpdatedAt := 1000, DeletedAt := none }],
          seq := 3 } : Store).EmailsUnique) ∧
    (userService.IsValidEmail "a@b.cc" = true ∧ TrimSpace "Ann" ≠ "" ∧
      (∃ x ∈ twoRowStore.live, x.Email = "a@b.cc") ∧
      userService.CreateUser sampleStd (NewUserRepository sampleDb) "a@b.cc" "Ann" "G9" "" twoRowStore =
        (.error ("user with email " ++ "a@b.cc" ++ " already exists"), twoRowStore)) :=
  ⟨⟨by decide, by rfl,
      (CreateUser_checks_email_as_given sampleStd sampleDb twoRowStore "New@X.org" "Ann" "G9" "").1 _ _
        (by decide) (by rfl)⟩,
    by decide, by decide, by decide,
    (CreateUser_checks_email_as_given sampleStd sampleDb twoRowStore "a@b.cc" "Ann" "G9" "").2.2.2.1
      (by decide) (by decide) (by decide)⟩

/-! ## The bound of the rate limiter -/

/-- A context on which `AbortWithStatusJSON` has written an object is not the
context before: the body has grown. -/
theorem AbortWithStatusJSON_ne (std : StdLib) (c : GinContext) (code : Nat)
    (fields : JSONFields) : c.AbortWithStatusJSON std code (.obj fields) ≠ c := by
  intro h
  have hb : (c.AbortWithStatusJSON std code (.obj fields)).Writer.w.Body =
      c.Writer.w.Body ++ JSON.encode std (.obj fields) := by
    unfold GinContext.AbortWithStatusJSON ResponseWriter.Write ResponseWriter.WriteHeader
      ResponseWriter.Set
    by_cases hct : (List.lookup "Content-Type" c.Writer.w.Header).isSome = true <;>
      cases hw : c.Writer.w.wroteHeader <;> simp [hct, hw]
  rw [h] at hb
  have hl := congrArg String.length hb
  have hd : (JSON.encode std (.obj fields)).length =
      ((JSONFields.encode std fields).data ++ ['\x7d']).length + 1 := by
    show (JSON.encode std (.obj fields)).data.length = _
    rw [JSON_encode_obj_data]
    rfl
  rw [String.length_append, hd] at hl
  omega

/-- One request keeps every stored count between zero and the limit, for a
limit that is not negative. -/
theorem RateLimitMiddleware_step_bound (std : StdLib) (limit window : Int) (ip : String)
    (now₁ now₂ : Time) (st : RateState) (c : GinContext) (hlimit : 0 ≤ limit)
    (hinv : ∀ a n, st.requestCounts a = some n → 0 ≤ n ∧ n ≤ limit) :
    ∀ a n, (RateLimitMiddleware std limit window ip now₁ now₂ st c).1.requestCounts a = some n →
      0 ≤ n ∧ n ≤ limit := by
  intro a n hn
  by_cases ha : a = ip
  · subst ha
    have hget : 0 ≤ (st.requestCounts a).getD 0 ∧ (st.requestCounts a).getD 0 ≤ limit := by
      cases hc : st.requestCounts a with
      | none => exact ⟨le_refl 0, hlimit⟩
      | some m => exact hinv a m hc
    have main : ∀ eff : Int, 0 ≤ eff → eff ≤ limit →
        ((∃ t, st.lastRequest a = some t ∧ window < now₁ - t ∧ eff = 0) ∨
          ((∀ t, st.lastRequest a = some t → now₁ - t ≤ window) ∧
            eff = (st.requestCounts a).getD 0)) → 0 ≤ n ∧ n ≤ limit := by
      intro eff h0 h1 heff
      obtain ⟨hrej, hadm⟩ := RateLimitMiddleware_step std limit window a now₁ now₂ st c eff heff
      rcases le_or_lt limit eff with h | h
      · have := (hrej h).2.1
        rw [this] at hn
        simp only [Option.some.injEq] at hn
        subst hn
        exact ⟨h0, h1⟩
      · have := (hadm h).2.1
        rw [this] at hn
        simp only [Option.some.injEq] at hn
        subst hn
        constructor <;> omega
    by_cases hr : ∃ t, st.lastRequest a = some t ∧ window < now₁ - t
    · obtain ⟨t, ht, hw⟩ := hr
      exact main 0 (le_refl 0) hlimit (Or.inl ⟨t, ht, hw, rfl⟩)
    · refine main _ hget.1 hget.2 (Or.inr ⟨?_, rfl⟩)
      intro t ht
      by_contra hw
      exact hr ⟨t, ht, not_le.mp hw⟩
  · rw [(RateLimitMiddleware_other std limit window ip a now₁ now₂ st c ha).1] at hn
    exact hinv a n hn

/-- Every sequence of requests keeps every stored count between zero and the
limit. -/
theorem RateLimitMiddleware_run_bound (std : StdLib) (limit window : Int) (c : GinContext)
    (hlimit : 0 ≤ limit) :
    ∀ (l : List Arrival) (st : RateState),
      (∀ a n, st.requestCounts a = some n → 0 ≤ n ∧ n ≤ limit) →
      ∀ a n, (RateLimitMiddleware.run std limit window c st l).requestCounts a = some n →
        0 ≤ n ∧ n ≤ limit := by
  intro l
  induction l with
  | nil =>
    intro st hinv
    exact hinv
  | cons x xs ih =>
    intro st hinv
    exact ih _ (RateLimitMiddleware_step_bound std limit window x.ip x.now₁ x.now₂ st c hlimit hinv)

/-- A request that is aborted leaves the count and the last-request time of
every client as they were; the count of a client without entry is zero. -/
theorem RateLimitMiddleware_rejected (std : StdLib) (limit window : Int) (ip : String)
    (now₁ now₂ : Time) (st : RateState) (c : GinContext) (hlimit : 0 ≤ limit)
    (hinv : ∀ a n, st.requestCounts a = some n → 0 ≤ n ∧ n ≤ limit)
    (hrej : (RateLimitMiddleware std limit window ip now₁ now₂ st c).2 =
      c.AbortWithStatusJSON std 429 (.obj (.cons "error" (.str "Rate limit exceeded") .nil))) :
    ∀ a,
      ((RateLimitMiddleware std limit window ip now₁ now₂ st c).1.requestCounts a).getD 0 =
        (st.requestCounts a).getD 0 ∧
      (RateLimitMiddleware std limit window ip now₁ now₂ st c).1.lastRequest a =
        st.lastRequest a ∧
      (0 < limit →
        (RateLimitMiddleware std limit window ip now₁ now₂ st c).1.requestCounts a =
          st.requestCounts a) := by
  intro a
  by_cases ha : a = ip
  · subst ha
    have main : ∀ eff : Int,
        ((∃ t, st.lastRequest a = some t ∧ window < now₁ - t ∧ eff = 0) ∨
          ((∀ t, st.lastRequest a = some t → now₁ - t ≤ window) ∧
            eff = (st.requestCounts a).getD 0)) →
        limit ≤ eff ∧
        (RateLimitMiddleware std limit window a now₁ now₂ st c).1.requestCounts a = some eff ∧
        (RateLimitMiddleware std limit window a now₁ now₂ st c).1.lastRequest a =
          st.lastRequest a := by
      intro eff heff
      obtain ⟨hr, hadm⟩ := RateLimitMiddleware_step std limit window a now₁ now₂ st c eff heff
      rcases le_or_lt limit eff with h | h
      · exact ⟨h, (hr h).2⟩
      · have h₁ := (hadm h).1
        rw [hrej] at h₁
        exact absurd h₁ (AbortWithStatusJSON_ne std c 429 _)
    have hget : 0 ≤ (st.requestCounts a).getD 0 ∧ (st.requestCounts a).getD 0 ≤ limit := by
      cases hc : st.requestCounts a with
      | none => exact ⟨le_refl 0, hlimit⟩
      | some m => exact hinv a m hc
    by_cases hr : ∃ t, st.lastRequest a = some t ∧ window < now₁ - t
    · obtain ⟨t, ht, hw⟩ := hr
      obtain ⟨h₁, h₂, h₃⟩ := main 0 (Or.inl ⟨t, ht, hw, rfl⟩)
      refine ⟨?_, h₃, fun hpos => absurd h₁ (not_le.mpr hpos)⟩
      rw [h₂]
      simp only [Option.getD_some]
      omega
    · obtain ⟨h₁, h₂, h₃⟩ := main ((st.requestCounts a).getD 0) (Or.inr ⟨by
        intro t ht
        by_contra hw
        exact hr ⟨t, ht, not_le.mp hw⟩, rfl⟩)
      refine ⟨by rw [h₂]; rfl, h₃, fun hpos => ?_⟩
      rw [h₂]
      cases hc : st.requestCounts a with
      | none =>
        rw [hc] at h₁
        simp only [Option.getD_none] at h₁
        omega
      | some m => rfl
  · obtain ⟨h₁, h₂⟩ := RateLimitMiddleware_other std limit window ip a now₁ now₂ st c ha
    exact ⟨by rw [h₁], h₂, fun _ => h₁⟩

/-- C24, as the code has it. For a limit that is not negative, whatever the
window: after every sequence of requests served one after the other, from a
state whose stored counts lie between zero and the limit (the state before any
request is one), the count stored for a client address is at most the limit;
and a request that is aborted with 429 leaves the last-request time of every
client as it was, and the count of every client at the value it had, where a
client without stored count counts as zero, as the middleware reads it with
`LoadOrStore(ip, 0)`. For a limit above zero the stored counts themselves are
unchanged. -/
theorem RateLimitMiddleware_count_bounded (std : StdLib) (limit window : Int) (c : GinContext)
    (st₀ : RateState) (pre : List Arrival) (req : Arrival) (hlimit : 0 ≤ limit)
    (hst₀ : ∀ a n, st₀.requestCounts a = some n → 0 ≤ n ∧ n ≤ limit) :
    (∀ a n, (RateLimitMiddleware.run std limit window c st₀ pre).requestCounts a = some n →
      n ≤ limit) ∧
    ((RateLimitMiddleware std limit window req.ip req.now₁ req.now₂
        (RateLimitMiddleware.run std limit window c st₀ pre) c).2 =
        c.AbortWithStatusJSON std 429 (.obj (.cons "error" (.str "Rate limit exceeded") .nil)) →
      ∀ a,
        ((RateLimitMiddleware std limit window req.ip req.now₁ req.now₂
            (RateLimitMiddleware.run std limit window c st₀ pre) c).1.requestCounts a).getD 0 =
          ((RateLimitMiddleware.run std limit window c st₀ pre).requestCounts a).getD 0 ∧
        (RateLimitMiddleware std limit window req.ip req.now₁ req.now₂
            (RateLimitMiddleware.run std limit window c st₀ pre) c).1.lastRequest a =
          (RateLimitMiddleware.run std limit window c st₀ pre).lastRequest a ∧
        (0 < limit →
          (RateLimitMiddleware std limit window req.ip req.now₁ req.now₂
              (RateLimitMiddleware.run std limit window c st₀ pre) c).1.requestCounts a =
            (RateLimitMiddleware.run std limit window c st₀ pre).requestCounts a)) := by
  have hinv := RateLimitMiddleware_run_bound std limit window c hlimit pre st₀ hst₀
  exact ⟨fun a n h => (hinv a n h).2,
    fun hrej => RateLimitMiddleware_rejected std limit window req.ip req.now₁ req.now₂ _ c hlimit
      hinv hrej⟩

theorem RateLimitMiddleware_count_bounded_witness :
    ((0 : Int) ≤ 2 ∧
      (RateLimitMiddleware.run sampleStd 2 (60 * Second) freshContext freshRate
        [{ ip := "a", now₁ := 0, now₂ := 0 }, { ip := "a", now₁ := 1, now₂ := 1 },
         { ip := "a", now₁ := 2, now₂ := 2 }]).requestCounts "a" = some 2 ∧
      (2 : Int) ≤ 2) ∧
    ((RateLimitMiddleware sampleStd 2 (60 * Second) "a" 2 2
        (RateLimitMiddleware.run sampleStd 2 (60 * Second) freshContext freshRate
          [{ ip := "a", now₁ := 0, now₂ := 0 }, { ip := "a", now₁ := 1, now₂ := 1 }])
        freshContext).2.Writer.w.wroteHeader = some 429 ∧
      (RateLimitMiddleware sampleStd 2 (60 * Second) "a" 2 2
        (RateLimitMiddleware.run sampleStd 2 (60 * Second) freshContext freshRate
          [{ ip := "a", now₁ := 0, now₂ := 0 }, { ip := "a", now₁ := 1, now₂ := 1 }])
        freshContext).1.lastRequest "a" =
      (RateLimitMiddleware.run sampleStd 2 (60 * Second) freshContext freshRate
        [{ ip := "a", now₁ := 0, now₂ := 0 }, { ip := "a", now₁ := 1, now₂ := 1 }]).lastRequest
        "a") :=
  ⟨⟨by decide, by decide,
      (RateLimitMiddleware_count_bounded sampleStd 2 (60 * Second) freshContext freshRate
        [{ ip := "a", now₁ := 0, now₂ := 0 }, { ip := "a", now₁ := 1, now₂ := 1 },
         { ip := "a", now₁ := 2, now₂ := 2 }] { ip := "a", now₁ := 3, now₂ := 3 } (by decide)
        (fun a n h => by simp [freshRate] at h)).1 "a" 2 (by decide)⟩,
    by decide,
    ((RateLimitMiddleware_count_bounded sampleStd 2 (60 * Second) freshContext freshRate
        [{ ip := "a", now₁ := 0, now₂ := 0 }, { ip := "a", now₁ := 1, now₂ := 1 }]
        { ip := "a", now₁ := 2, now₂ := 2 } (by decide)
        (fun a n h => by simp [freshRate] at h)).2 (by decide) "a").2.1⟩

/-- C24, as stated, fails: with limit 0 the first request of a client is
aborted with 429, and `LoadOrStore(ip, 0)` has stored the count 0 for the
client, for whom no count was stored before. -/
theorem rejected_request_stores_count_zero :
    (RateLimitMiddleware sampleStd 0 (60 * Second) "a" 0 0 freshRate freshContext).2 =
      freshContext.AbortWithStatusJSON sampleStd 429
        (.obj (.cons "error" (.str "Rate limit exceeded") .nil)) ∧
    (RateLimitMiddleware sampleStd 0 (60 * Second) "a" 0 0 freshRate
      freshContext).2.Writer.w.wroteHeader = some 429 ∧
    freshRate.requestCounts "a" = none ∧
    (RateLimitMiddleware sampleStd 0 (60 * Second) "a" 0 0 freshRate
      freshContext).1.requestCounts "a" = some 0 := by
  refine ⟨by decide, by decide, rfl, by decide⟩

/-! ## The form of the Authorization header -/

/-- C22. `extractTokenFromHeader` returns the token `t` exactly for the
headers made of a word without space that is `bearer` up to case, one space and
`t`; for every other header it returns the format error. So the header
`Bearer ` followed by any string `t`, empty or with spaces in it, yields `t`
as it is. -/
theorem extractTokenFromHeader_characterised (h : String) :
    (∀ t : String, extractTokenFromHeader h = .ok t ↔
      ∃ s : String, h = s ++ " " ++ t ∧ ' ' ∉ s.data ∧ ToLower s = "bearer") ∧
    ((¬ ∃ s t : String, h = s ++ " " ++ t ∧ ' ' ∉ s.data ∧ ToLower s = "bearer") →
      extractTokenFromHeader h =
        .error "Authorization header format must be Bearer \x7btoken\x7d") ∧
    (∀ t : String, extractTokenFromHeader ("Bearer " ++ t) = .ok t) ∧
    extractTokenFromHeader "Bearer " = .ok "" ∧
    extractTokenFromHeader "Bearer a b  c" = .ok "a b  c" ∧
    extractTokenFromHeader "bEARer x" = .ok "x" ∧
    extractTokenFromHeader "Bearer" =
      .error "Authorization header format must be Bearer \x7btoken\x7d" ∧
    extractTokenFromHeader "Basic x" =
      .error "Authorization header format must be Bearer \x7btoken\x7d" := by
  refine ⟨?_, ?_, extractTokenFromHeader_bearer, by rfl, by rfl, by rfl, by rfl, by rfl⟩
  · intro t
    constructor
    · exact extractTokenFromHeader_ok
    · rintro ⟨s, rfl, hs, hl⟩
      exact extractTokenFromHeader_of_form s t hs hl
  · intro hno
    cases hx : extractTokenFromHeader h with
    | ok t =>
      obtain ⟨s, hs⟩ := extractTokenFromHeader_ok hx
      exact absurd ⟨s, t, hs⟩ hno
    | error e => rw [extractTokenFromHeader_error hx]

theorem extractTokenFromHeader_characterised_witness :
    (¬ ∃ s t : String, "Bearer" = s ++ " " ++ t ∧ ' ' ∉ s.data ∧ ToLower s = "bearer") ∧
    extractTokenFromHeader "Bearer" =
      .error "Authorization header format must be Bearer \x7btoken\x7d" :=
  ⟨fun ⟨s, t, h, _⟩ => by
      have hd := congrArg String.data h
      have hm : ' ' ∈ "Bearer".data := by
        rw [hd]
        simp [String.data_append]
      exact absurd hm (by decide),
    (extractTokenFromHeader_characterised "Bearer").2.1 (fun ⟨s, t, h, _⟩ => by
      have hd := congrArg String.data h
      have hm : ' ' ∈ "Bearer".data := by
        rw [hd]
        simp [String.data_append]
      exact absurd hm (by decide))⟩

/-! ## The page and the limit of the reply -/

/-- The limit that the service applies to a limit of the handler. -/
theorem userService_limit_of_handler (limitStr : String) :
    (if GetAllUsers.limit limitStr ≤ 0 ∨ 100 < GetAllUsers.limit limitStr then (10 : Int)
      else GetAllUsers.limit limitStr) =
      (if 100 < GetAllUsers.limit limitStr then 10 else GetAllUsers.limit limitStr) := by
  have hl := (GetAllUsers_page_limit_pos "" limitStr).2
  by_cases h : 100 < GetAllUsers.limit limitStr
  · rw [if_pos (Or.inr h), if_pos h]
  · rw [if_neg h, if_neg]
    rintro (h' | h')
    · exact absurd hl (not_lt.mpr h')
    · exact h h'

/-- The page that the service applies to a page of the handler. -/
theorem userService_page_of_handler (pageStr : String) :
    (if GetAllUsers.page pageStr ≤ 0 then (1 : Int) else GetAllUsers.page pageStr) =
      GetAllUsers.page pageStr := by
  rw [if_neg (not_le.mpr (GetAllUsers_page_limit_pos pageStr "").1)]

/-- A page of the repository has at most `limit` rows. -/
theorem paginate_length (rows : List User) (page limit : Int) (h : 0 ≤ limit) :
    ((paginate rows page limit).length : Int) ≤ limit := by
  unfold paginate
  simp only [List.length_take]
  have : (limit.toNat : Int) = limit := Int.toNat_of_nonneg h
  omega

/-- C27, as the code has it. `GetAllUsers` reports the page and the limit
that the handler parsed, and computes `total_pages` with that limit; the
repository is queried with the same page, and with the limit of the service,
which is 10 when the handler's limit is above 100. For a limit up to 100 the
two agree. For `limit=500` on a table of 25 users the reply says limit 500 and
`total_pages` 1, while the service asked the repository for 10 rows and 10
users are returned, the first of three pages. The number of users returned is
never above the reported limit. -/
theorem GetAllUsers_reports_handler_limit {σ : Type} (std : StdLib) (userRepo : UserRepository σ)
    (st : σ) (db : Postgres) (tbl : Store) (c : Conn) (r : Request) :
    GetAllUsers std userRepo st c r =
      (match userRepo.GetAll (GetAllUsers.page (r.FormValue "page"))
          (if 100 < GetAllUsers.limit (r.FormValue "limit") then 10
            else GetAllUsers.limit (r.FormValue "limit")) st with
        | .error err => { c with w := writeJSONError std c.w 500 ("failed to get users: " ++ err) }
        | .ok (users, total) =>
          { c with w := (((c.w.Set "Content-Type" "application/json").WriteHeader 200).Encode std
              (.obj (.cons "data" (.obj
                (.cons "limit" (.num (GetAllUsers.limit (r.FormValue "limit")))
                (.cons "page" (.num (GetAllUsers.page (r.FormValue "page")))
                (.cons "total" (.num total)
                (.cons "total_pages"
                  (.num (GetAllUsers.totalPages total (GetAllUsers.limit (r.FormValue "limit"))))
                (.cons "users" (.arr (usersJSON users)) .nil))))))
                (.cons "success" (.bool true) .nil)))) }) ∧
    (match userService.GetAllUsers (NewUserRepository db) (GetAllUsers.page (r.FormValue "page"))
        (GetAllUsers.limit (r.FormValue "limit")) tbl with
      | .error _ => True
      | .ok (users, _) => (users.length : Int) ≤ GetAllUsers.limit (r.FormValue "limit")) ∧
    ((GetAllUsers sampleStd echoRepo () freshConn
        (usersRequest [("page", "2"), ("limit", "500")])).w.Body =
      "\x7b\"data\":\x7b\"limit\":500,\"page\":2,\"total\":2010,\"total_pages\":5," ++
        "\"users\":[]\x7d,\"success\":true\x7d\n" ∧
      echoRepo.GetAll 2 10 () = .ok ([], 2010) ∧
      (SearchUsers sampleStd echoRepo () freshConn
        (usersRequest [("q", "ann"), ("page", "2"), ("limit", "500")])).w.Body =
      "\x7b\"data\":\x7b\"keyword\":\"ann\",\"limit\":500,\"page\":2,\"total\":2010," ++
        "\"total_pages\":5,\"users\":[]\x7d,\"success\":true\x7d\n" ∧
      echoRepo.Search "ann" 2 10 () = .ok ([], 2010)) ∧
    (GetAllUsers.limit "500" = 500 ∧
      (match userService.GetAllUsers (NewUserRepository sampleDb) (GetAllUsers.page "")
          (GetAllUsers.limit "500") store25 with
        | .error _ => False
        | .ok (users, total) => users.length = 10 ∧ total = 25) ∧
      GetAllUsers.totalPages 25 500 = 1 ∧ GetAllUsers.totalPages 25 10 = 3) := by
  refine ⟨?_, ?_, ⟨by decide, by rfl, by decide, by rfl⟩, by decide, ?_, by decide, by decide⟩
  rotate_left 2
  · have h : userService.GetAllUsers (NewUserRepository sampleDb) (GetAllUsers.page "")
        (GetAllUsers.limit "500") store25 = .ok (paginate store25.live 1 10, 25) := by rfl
    rw [h]
    exact ⟨by decide, rfl⟩
  · unfold GetAllUsers
    simp only [userService_GetAllUsers_eq, userService_limit_of_handler,
      userService_page_of_handler]
    cases userRepo.GetAll (GetAllUsers.page (r.FormValue "page"))
        (if 100 < GetAllUsers.limit (r.FormValue "limit") then 10
          else GetAllUsers.limit (r.FormValue "limit")) st with
    | error e => rfl
    | ok v =>
      obtain ⟨users, total⟩ := v
      rfl
  · have hl := (GetAllUsers_page_limit_pos (r.FormValue "page") (r.FormValue "limit")).2
    rw [userService_GetAllUsers_eq, userService_limit_of_handler, userService_page_of_handler]
    simp only [NewUserRepository, userRepository.GetAll]
    by_cases h : 100 < GetAllUsers.limit (r.FormValue "limit")
    · rw [if_pos h]
      have := paginate_length tbl.live (GetAllUsers.page (r.FormValue "page")) 10 (by decide)
      omega
    · rw [if_neg h]
      exact paginate_length tbl.live (GetAllUsers.page (r.FormValue "page")) _ (le_of_lt hl)

/-! ## The page and the limit of the handlers -/

/-- The reply of `GetAllUsers`, by the page and the limit of its parameters
and the query that the service makes with them. -/
theorem GetAllUsers_eq {σ : Type} (std : StdLib) (userRepo : UserRepository σ) (st : σ)
    (c : Conn) (r : Request) :
    GetAllUsers std userRepo st c r =
      (match userRepo.GetAll (GetAllUsers.page (r.FormValue "page"))
          (if 100 < GetAllUsers.limit (r.FormValue "limit") then 10
            else GetAllUsers.limit (r.FormValue "limit")) st with
        | .error err => { c with w := writeJSONError std c.w 500 ("failed to get users: " ++ err) }
        | .ok (users, total) =>
          { c with w := (((c.w.Set "Content-Type" "application/json").WriteHeader 200).Encode std
              (.obj (.cons "data" (.obj
                (.cons "limit" (.num (GetAllUsers.limit (r.FormValue "limit")))
                (.cons "page" (.num (GetAllUsers.page (r.FormValue "page")))
                (.cons "total" (.num total)
                (.cons "total_pages"
                  (.num (GetAllUsers.totalPages total (GetAllUsers.limit (r.FormValue "limit"))))
                (.cons "users" (.arr (usersJSON users)) .nil))))))
                (.cons "success" (.bool true) .nil)))) }) := by
  unfold GetAllUsers
  simp only [userService_GetAllUsers_eq, userService_limit_of_handler,
    userService_page_of_handler]
  cases userRepo.GetAll (GetAllUsers.page (r.FormValue "page"))
      (if 100 < GetAllUsers.limit (r.FormValue "limit") then 10
        else GetAllUsers.limit (r.FormValue "limit")) st with
  | error e => rfl
  | ok v =>
    obtain ⟨users, total⟩ := v
    rfl

/-- The reply of `SearchUsers`, by the keyword, the page and the limit of its
parameters and the query that the service makes with them. -/
theorem SearchUsers_eq {σ : Type} (std : StdLib) (userRepo : UserRepository σ) (st : σ)
    (c : Conn) (r : Request) :
    SearchUsers std userRepo st c r =
      (if r.FormValue "q" = "" then
        { c with w := writeJSONError std c.w 400 "Search keyword is required" }
      else if TrimSpace (r.FormValue "q") = "" then
        { c with w := writeJSONError std c.w 400 "search keyword is required" }
      else
        match userRepo.Search (TrimSpace (r.FormValue "q")) (GetAllUsers.page (r.FormValue "page"))
            (if 100 < GetAllUsers.limit (r.FormValue "limit") then 10
              else GetAllUsers.limit (r.FormValue "limit")) st with
        | .error err =>
          { c with w := writeJSONError std c.w 400 ("failed to search users: " ++ err) }
        | .ok (users, total) =>
          { c with w := (((c.w.Set "Content-Type" "application/json").WriteHeader 200).Encode std
              (.obj (.cons "data" (.obj
                (.cons "keyword" (.str (r.FormValue "q"))
                (.cons "limit" (.num (GetAllUsers.limit (r.FormValue "limit")))
                (.cons "page" (.num (GetAllUsers.page (r.FormValue "page")))
                (.cons "total" (.num total)
                (.cons "total_pages"
                  (.num (GetAllUsers.totalPages total (GetAllUsers.limit (r.FormValue "limit"))))
                (.cons "users" (.arr (usersJSON users)) .nil)))))))
                (.cons "success" (.bool true) .nil)))) }) := by
  unfold SearchUsers
  by_cases hq : r.FormValue "q" = ""
  · simp only [hq, if_true]
  · simp only [hq, if_false]
    by_cases hk : TrimSpace (r.FormValue "q") = ""
    · simp only [hk, if_true]
      unfold userService.SearchUsers
      simp only [hk, if_true]
    · simp only [hk, if_false]
      rw [userService_SearchUsers_eq _ _ _ _ _ hk, userService_limit_of_handler,
        userService_page_of_handler]
      cases userRepo.Search (TrimSpace (r.FormValue "q")) (GetAllUsers.page (r.FormValue "page"))
          (if 100 < GetAllUsers.limit (r.FormValue "limit") then 10
            else GetAllUsers.limit (r.FormValue "limit")) st with
      | error e => rfl
      | ok v =>
        obtain ⟨users, total⟩ := v
        rfl

/-- C16. For every request to `GetAllUsers` or `SearchUsers`, let `page` be 1
when the `page` parameter is absent, refused by `strconv.Atoi` (not an integer
of type `int`) or not positive, and the parameter itself when it is a positive
integer; let `limit` be 10 when the `limit` parameter is absent, refused or not
positive, and the parameter itself otherwise. Then the handler queries the
repository with that page, and with that limit (10 in its place when it is
above 100, by the service), and reports that page and that limit in its
reply. -/
theorem pagination_defaults (σ : Type) (std : StdLib) (userRepo : UserRepository σ) (st : σ)
    (c : Conn) (r : Request) (page limit : Int)
    (hpage :
      ((List.lookup "page" r.Form = none ∨ (∃ e, Atoi (r.FormValue "page") = .error e) ∨
          (∃ v, Atoi (r.FormValue "page") = .ok v ∧ v ≤ 0)) ∧ page = 1) ∨
        (Atoi (r.FormValue "page") = .ok page ∧ 0 < page))
    (hlimit :
      ((List.lookup "limit" r.Form = none ∨ (∃ e, Atoi (r.FormValue "limit") = .error e) ∨
          (∃ v, Atoi (r.FormValue "limit") = .ok v ∧ v ≤ 0)) ∧ limit = 10) ∨
        (Atoi (r.FormValue "limit") = .ok limit ∧ 0 < limit)) :
    GetAllUsers std userRepo st c r =
      (match userRepo.GetAll page (if 100 < limit then 10 else limit) st with
        | .error err => { c with w := writeJSONError std c.w 500 ("failed to get users: " ++ err) }
        | .ok (users, total) =>
          { c with w := (((c.w.Set "Content-Type" "application/json").WriteHeader 200).Encode std
              (.obj (.cons "data" (.obj
                (.cons "limit" (.num limit)
                (.cons "page" (.num page)
                (.cons "total" (.num total)
                (.cons "total_pages" (.num (GetAllUsers.totalPages total limit))
                (.cons "users" (.arr (usersJSON users)) .nil))))))
                (.cons "success" (.bool true) .nil)))) }) ∧
    SearchUsers std userRepo st c r =
      (if r.FormValue "q" = "" then
        { c with w := writeJSONError std c.w 400 "Search keyword is required" }
      else if TrimSpace (r.FormValue "q") = "" then
        { c with w := writeJSONError std c.w 400 "search keyword is required" }
      else
        match userRepo.Search (TrimSpace (r.FormValue "q")) page
            (if 100 < limit then 10 else limit) st with
        | .error err =>
          { c with w := writeJSONError std c.w 400 ("failed to search users: " ++ err) }
        | .ok (users, total) =>
          { c with w := (((c.w.Set "Content-Type" "application/json").WriteHeader 200).Encode std
              (.obj (.cons "data" (.obj
                (.cons "keyword" (.str (r.FormValue "q"))
                (.cons "limit" (.num limit)
                (.cons "page" (.num page)
                (.cons "total" (.num total)
                (.cons "total_pages" (.num (GetAllUsers.totalPages total limit))
                (.cons "users" (.arr (usersJSON users)) .nil)))))))
                (.cons "success" (.bool true) .nil)))) }) := by
  have habsent : ∀ key, List.lookup key r.Form = none →
      ∃ e, Atoi (r.FormValue key) = .error e := by
    intro key h
    unfold Request.FormValue
    rw [h]
    exact ⟨_, rfl⟩
  have hp : GetAllUsers.page (r.FormValue "page") = page := by
    rcases hpage with ⟨h | h | h, rfl⟩ | ⟨h, hv⟩
    · exact (GetAllUsers_page_eq _).1 (Or.inl (habsent _ h))
    · exact (GetAllUsers_page_eq _).1 (Or.inl h)
    · exact (GetAllUsers_page_eq _).1 (Or.inr h)
    · exact (GetAllUsers_page_eq _).2 page h hv
  have hl : GetAllUsers.limit (r.FormValue "limit") = limit := by
    rcases hlimit with ⟨h | h | h, rfl⟩ | ⟨h, hv⟩
    · exact (GetAllUsers_limit_eq _).1 (Or.inl (habsent _ h))
    · exact (GetAllUsers_limit_eq _).1 (Or.inl h)
    · exact (GetAllUsers_limit_eq _).1 (Or.inr h)
    · exact (GetAllUsers_limit_eq _).2 limit h hv
  rw [GetAllUsers_eq, SearchUsers_eq, hp, hl]
  exact ⟨rfl, rfl⟩

theorem pagination_defaults_witness :
    (List.lookup "page" (usersRequest [("q", "ann"), ("limit", "abc")]).Form = none ∧
      (∃ e, Atoi ((usersRequest [("q", "ann"), ("limit", "abc")]).FormValue "limit") =
        .error e)) ∧
    (GetAllUsers sampleStd echoRepo () freshConn
        (usersRequest [("q", "ann"), ("limit", "abc")])).w.Body =
      "\x7b\"data\":\x7b\"limit\":10,\"page\":1,\"total\":1010,\"total_pages\":101," ++
        "\"users\":[]\x7d,\"success\":true\x7d\n" ∧
    (SearchUsers sampleStd echoRepo () freshConn
        (usersRequest [("q", "ann"), ("limit", "abc")])).w.Body =
      "\x7b\"data\":\x7b\"keyword\":\"ann\",\"limit\":10,\"page\":1,\"total\":1010," ++
        "\"total_pages\":101,\"users\":[]\x7d,\"success\":true\x7d\n" ∧
    (Atoi ((usersRequest [("page", "7"), ("limit", "20")]).FormValue "page") = .ok 7 ∧
      (GetAllUsers sampleStd echoRepo () freshConn
          (usersRequest [("page", "7"), ("limit", "20")])).w.Body =
        "\x7b\"data\":\x7b\"limit\":20,\"page\":7,\"total\":7020,\"total_pages\":351," ++
          "\"users\":[]\x7d,\"success\":true\x7d\n") :=
  ⟨⟨rfl, ⟨_, rfl⟩⟩,
    by
      rw [(pagination_defaults Unit sampleStd echoRepo () freshConn
        (usersRequest [("q", "ann"), ("limit", "abc")]) 1 10 (Or.inl ⟨Or.inl rfl, rfl⟩)
        (Or.inl ⟨Or.inr (Or.inl ⟨_, rfl⟩), rfl⟩)).1]
      decide,
    by
      rw [(pagination_defaults Unit sampleStd echoRepo () freshConn
        (usersRequest [("q", "ann"), ("limit", "abc")]) 1 10 (Or.inl ⟨Or.inl rfl, rfl⟩)
        (Or.inl ⟨Or.inr (Or.inl ⟨_, rfl⟩), rfl⟩)).2]
      decide,
    rfl,
    by
      rw [(pagination_defaults Unit sampleStd echoRepo () freshConn
        (usersRequest [("page", "7"), ("limit", "20")]) 7 20 (Or.inr ⟨rfl, by decide⟩)
        (Or.inr ⟨rfl, by decide⟩)).1]
      decide⟩

end CollP
